import Mathlib

/-!
# PLL divider solver and spread-spectrum calculation of `dce_clock_source.c`

A shallow embedding of the pixel-clock PLL divider search, the selection of a
spread-spectrum capability entry and the spread-spectrum calculation of
`drivers/gpu/drm/amd/display/dc/dce/dce_clock_source.c`.

Conventions of the embedding.

* A `uint32_t` is a natural number below `2 ^ 32`, a `uint64_t` one below
  `2 ^ 64`.  Every C operation that can leave the range is followed by an
  explicit `u32` or `u64` reduction, at the width at which C evaluates it.
* A division whose divisor is zero is a fault of the machine: the functions
  return an `Outcome`, and `Outcome.trap` stands for that fault.
* The loops of the source are bounded by a `fuel` argument; running out of
  fuel is the outcome `Outcome.spin`.  A call returns iff some fuel gives a
  `done` outcome, and it loops for ever iff every fuel gives `spin`.
* A function that writes through a pointer returns the new value of the
  record together with its C return value.  A pointer that may be `NULL` is
  an `Option`; a table pointer with its entry count is a list.
* The fixed-point helpers `dal_fixed32_32_*` are defined outside the source
  file.  They are modelled as 32.32 fixed point on 64-bit integers and, as the
  spec has it, as total functions.  How a helper rounds a quotient or a
  product, and what it gives for a zero denominator, is not known: it is the
  parameter `rounding_rule` of the model.
-/

namespace DceClockSource

/-! ## Machine integers and outcomes -/

/-- Reduction of a natural number to the range of `uint32_t`. -/
def u32 (n : Nat) : Nat := n % 2 ^ 32

/-- Reduction of a natural number to the range of `uint64_t`. -/
def u64 (n : Nat) : Nat := n % 2 ^ 64

/-- Result of running a piece of the program: a normal return, a division
fault, or exhaustion of the fuel given to its loops. -/
inductive Outcome (α : Type) where
  | done (a : α)
  | trap
  | spin
  deriving DecidableEq, Repr

/-- Sequencing of outcomes: the continuation runs after a normal return. -/
def Outcome.bind {α β : Type} (x : Outcome α) (f : α → Outcome β) : Outcome β :=
  match x with
  | .done a => f a
  | .trap => .trap
  | .spin => .spin

/-- Kernel helper `div_u64`: unsigned 64-bit dividend by 32-bit divisor. -/
def div_u64 (dividend divisor : Nat) : Outcome Nat :=
  if divisor = 0 then .trap else .done (dividend / divisor)

/-- Kernel helper `div_u64_rem`: quotient and remainder of the same division. -/
def div_u64_rem (dividend divisor : Nat) : Outcome (Nat × Nat) :=
  if divisor = 0 then .trap else .done (dividend / divisor, dividend % divisor)

/-! ## Constants and records -/

def FRACT_FB_DIVIDER_DEC_POINTS_MAX_NUM : Nat := 6

def CALC_PLL_CLK_SRC_ERR_TOLERANCE : Nat := 1

def MAX_PLL_CALC_ERROR : Nat := 0xFFFFFFFF

/-- The constraint set `struct calc_pll_clock_source` (all fields `uint32_t`;
the logging context is left out). -/
structure calc_pll_clock_source where
  ref_freq_khz : Nat
  min_pix_clock_pll_post_divider : Nat
  max_pix_clock_pll_post_divider : Nat
  min_pll_ref_divider : Nat
  max_pll_ref_divider : Nat
  min_vco_khz : Nat
  max_vco_khz : Nat
  min_pll_input_freq_khz : Nat
  max_pll_input_freq_khz : Nat
  fract_fb_divider_decimal_points_num : Nat
  fract_fb_divider_factor : Nat
  fract_fb_divider_precision : Nat
  fract_fb_divider_precision_factor : Nat
  deriving DecidableEq, Repr

/-- The working record `struct pll_settings`. -/
structure pll_settings where
  actual_pix_clk : Nat
  adjusted_pix_clk : Nat
  calculated_pix_clk : Nat
  vco_freq : Nat
  reference_freq : Nat
  reference_divider : Nat
  feedback_divider : Nat
  fract_feedback_divider : Nat
  pix_clk_post_divider : Nat
  ss_percentage : Nat
  use_external_clk : Bool
  deriving DecidableEq, Repr

/-! ## The divider search -/

/-- Source function `calculate_fb_and_fractional_fb_divider` (lines 123-163).
Returns the C return value, the feedback divider and the fractional feedback
divider.  The product `target * ref * post` is formed in 32 bits and only then
widened. -/
def calculate_fb_and_fractional_fb_divider (cs : calc_pll_clock_source)
    (target_pix_clk_khz ref_divider post_divider : Nat) : Outcome (Bool × Nat × Nat) :=
  let fd0 := u32 (u32 (target_pix_clk_khz * ref_divider) * post_divider)
  let fd1 := u64 (fd0 * 10)
  let fd2 := u64 (fd1 * cs.fract_fb_divider_factor)
  (div_u64 fd2 cs.ref_freq_khz).bind fun fd3 =>
  let fd4 := u64 (fd3 + u32 (5 * cs.fract_fb_divider_precision_factor))
  (div_u64 fd4 (u32 (cs.fract_fb_divider_precision_factor * 10))).bind fun fd5 =>
  let fd6 := u64 (fd5 * cs.fract_fb_divider_precision_factor)
  (div_u64_rem fd6 cs.fract_fb_divider_factor).bind fun qr =>
  let feedback_divider := u32 qr.1
  .done (decide (feedback_divider ≠ 0), feedback_divider, qr.2)

/-- The frequency `actual_calculated_clock_khz` that
`calc_fb_divider_checking_tolerance` computes back from a divider tuple
(lines 203-213): the product `feedback_divider * factor` and the divisor
`ref * post * factor` are formed in 32 bits. -/
def actual_calculated_clock_khz (cs : calc_pll_clock_source)
    (ref_divider post_divider feedback_divider fract_feedback_divider : Nat) : Outcome Nat :=
  let a0 := u64 (u32 (feedback_divider * cs.fract_fb_divider_factor) + fract_feedback_divider)
  let a1 := u64 (a0 * cs.ref_freq_khz)
  (div_u64 a1 (u32 (u32 (ref_divider * post_divider) * cs.fract_fb_divider_factor))).bind fun a2 =>
  .done (u32 a2)

/-- The absolute error `abs_err` of lines 215-220. -/
def abs_err (actual target : Nat) : Nat :=
  if actual > target then actual - target else target - actual

/-- Source function `calc_fb_divider_checking_tolerance` (lines 182-236). -/
def calc_fb_divider_checking_tolerance (cs : calc_pll_clock_source) (s : pll_settings)
    (ref_divider post_divider tolerance : Nat) : Outcome (Bool × pll_settings) :=
  (calculate_fb_and_fractional_fb_divider cs s.adjusted_pix_clk ref_divider post_divider).bind
    fun r =>
  (actual_calculated_clock_khz cs ref_divider post_divider r.2.1 r.2.2).bind fun actual =>
  if abs_err actual s.adjusted_pix_clk ≤ tolerance then
    .done (true,
      { s with
        reference_freq := cs.ref_freq_khz
        reference_divider := ref_divider
        feedback_divider := r.2.1
        fract_feedback_divider := r.2.2
        pix_clk_post_divider := post_divider
        calculated_pix_clk := actual
        vco_freq := u32 (actual * post_divider) })
  else
    .done (false, s)

/-- The absolute tolerance of `calc_pll_dividers_in_range` (lines 253-256):
the product is a 32-bit product. -/
def abs_tolerance (adjusted_pix_clk err_tolerance : Nat) : Nat :=
  let tolerance := u32 (adjusted_pix_clk * err_tolerance) / 10000
  if tolerance < CALC_PLL_CLK_SRC_ERR_TOLERANCE then CALC_PLL_CLK_SRC_ERR_TOLERANCE
  else tolerance

/-- Inner loop of `calc_pll_dividers_in_range` (lines 262-274): the
reference divider runs upwards from `ref_divider` while it is at most
`max_ref_divider`; `++ref_divider` is a 32-bit increment. -/
def ref_divider_loop (cs : calc_pll_clock_source) (post_divider max_ref_divider tolerance : Nat) :
    Nat → Nat → pll_settings → Outcome (Bool × pll_settings)
  | 0, _, _ => .spin
  | fuel + 1, ref_divider, s =>
    if ref_divider ≤ max_ref_divider then
      (calc_fb_divider_checking_tolerance cs s ref_divider post_divider tolerance).bind fun r =>
      if r.1 then .done (true, r.2)
      else ref_divider_loop cs post_divider max_ref_divider tolerance fuel (u32 (ref_divider + 1)) r.2
    else .done (false, s)

/-- Outer loop of `calc_pll_dividers_in_range` (lines 258-275): the post
divider runs downwards from `post_divider` while it is at least
`min_post_divider`; `--post_divider` is a 32-bit decrement. -/
def post_divider_loop (cs : calc_pll_clock_source)
    (min_ref_divider max_ref_divider min_post_divider tolerance : Nat) :
    Nat → Nat → pll_settings → Outcome (Bool × pll_settings)
  | 0, _, _ => .spin
  | fuel + 1, post_divider, s =>
    if post_divider ≥ min_post_divider then
      (ref_divider_loop cs post_divider max_ref_divider tolerance fuel min_ref_divider s).bind
        fun r =>
      if r.1 then .done (true, r.2)
      else post_divider_loop cs min_ref_divider max_ref_divider min_post_divider tolerance fuel
        (u32 (post_divider + (2 ^ 32 - 1))) r.2
    else .done (false, s)

/-- Source function `calc_pll_dividers_in_range` (lines 238-278). -/
def calc_pll_dividers_in_range (cs : calc_pll_clock_source) (s : pll_settings)
    (min_ref_divider max_ref_divider min_post_divider max_post_divider err_tolerance : Nat)
    (fuel : Nat) : Outcome (Bool × pll_settings) :=
  post_divider_loop cs min_ref_divider max_ref_divider min_post_divider
    (abs_tolerance s.adjusted_pix_clk err_tolerance) fuel max_post_divider s

/-- The post-divider range of `calculate_pixel_clock_pll_dividers`
(lines 296-317), as the pair `(min_post_divider, max_post_divider)`.  The
divisions are by `adjusted_pix_clk`, which the caller has found nonzero. -/
def post_divider_range (cs : calc_pll_clock_source) (s : pll_settings) : Nat × Nat :=
  if s.pix_clk_post_divider ≠ 0 then
    (s.pix_clk_post_divider, s.pix_clk_post_divider)
  else
    let min0 := cs.min_pix_clock_pll_post_divider
    let min_post_divider :=
      if u32 (min0 * s.adjusted_pix_clk) < cs.min_vco_khz then
        let min1 := cs.min_vco_khz / s.adjusted_pix_clk
        if u32 (min1 * s.adjusted_pix_clk) < cs.min_vco_khz then u32 (min1 + 1) else min1
      else min0
    let max0 := cs.max_pix_clock_pll_post_divider
    let max_post_divider :=
      if u32 (max0 * s.adjusted_pix_clk) > cs.max_vco_khz then
        cs.max_vco_khz / s.adjusted_pix_clk
      else max0
    (min_post_divider, max_post_divider)

/-- The reference-divider range of `calculate_pixel_clock_pll_dividers`
(lines 325-342), as the pair `(min_ref_divider, max_ref_divider)`.  Without a
pinned divider the code divides by both PLL input-frequency bounds. -/
def ref_divider_range (cs : calc_pll_clock_source) (s : pll_settings) : Outcome (Nat × Nat) :=
  if s.reference_divider ≠ 0 then
    .done (s.reference_divider, s.reference_divider)
  else
    (div_u64 cs.ref_freq_khz cs.max_pll_input_freq_khz).bind fun lo =>
    let min_ref_divider := if lo > cs.min_pll_ref_divider then lo else cs.min_pll_ref_divider
    (div_u64 cs.ref_freq_khz cs.min_pll_input_freq_khz).bind fun hi =>
    let max_ref_divider := if hi < cs.max_pll_ref_divider then hi else cs.max_pll_ref_divider
    .done (min_ref_divider, max_ref_divider)

/-- The relaxation step of lines 376-378, a 32-bit addition. -/
def next_err_tolerance (err_tolerance : Nat) : Nat :=
  u32 (err_tolerance + (if err_tolerance > 10 then err_tolerance / 10 else 1))

/-- The `while` loop of `calculate_pixel_clock_pll_dividers` (lines 368-380):
one full-range pass per iteration, the tolerance relaxed after a failed pass.
Returns the tolerance of the pass that succeeded. -/
def relax_loop (cs : calc_pll_clock_source)
    (min_ref_divider max_ref_divider min_post_divider max_post_divider : Nat) :
    Nat → Nat → pll_settings → Outcome (Nat × pll_settings)
  | 0, _, _ => .spin
  | fuel + 1, err_tolerance, s =>
    (calc_pll_dividers_in_range cs s min_ref_divider max_ref_divider min_post_divider
      max_post_divider err_tolerance fuel).bind fun r =>
    if r.1 then .done (err_tolerance, r.2)
    else relax_loop cs min_ref_divider max_ref_divider min_post_divider max_post_divider fuel
      (next_err_tolerance err_tolerance) r.2

/-- Source function `calculate_pixel_clock_pll_dividers` (lines 280-381):
the returned pair is the C return value and the settings record after the
call. -/
def calculate_pixel_clock_pll_dividers (cs : calc_pll_clock_source) (s : pll_settings)
    (fuel : Nat) : Outcome (Nat × pll_settings) :=
  if s.adjusted_pix_clk = 0 then .done (MAX_PLL_CALC_ERROR, s)
  else
    let pr := post_divider_range cs s
    (ref_divider_range cs s).bind fun rr =>
    if pr.1 > pr.2 then .done (MAX_PLL_CALC_ERROR, s)
    else if rr.1 > rr.2 then .done (MAX_PLL_CALC_ERROR, s)
    else relax_loop cs rr.1 rr.2 pr.1 pr.2 fuel MAX_PLL_CALC_ERROR s

/-! ## Sample inputs -/

/-- A settings record holding only a target frequency and optional pinned
dividers, every other field zero (as after the `memset` of the caller). -/
def settings_for (adjusted_pix_clk reference_divider pix_clk_post_divider : Nat) : pll_settings :=
  { actual_pix_clk := adjusted_pix_clk
    adjusted_pix_clk := adjusted_pix_clk
    calculated_pix_clk := 0
    vco_freq := 0
    reference_freq := 0
    reference_divider := reference_divider
    feedback_divider := 0
    fract_feedback_divider := 0
    pix_clk_post_divider := pix_clk_post_divider
    ss_percentage := 0
    use_external_clk := false }

/-- The 1080p configuration: 27 MHz crystal, six decimal digits at full
precision, post divider 1, reference divider 1 or 2. -/
def cs_1080p : calc_pll_clock_source :=
  { ref_freq_khz := 27000
    min_pix_clock_pll_post_divider := 1
    max_pix_clock_pll_post_divider := 1
    min_pll_ref_divider := 1
    max_pll_ref_divider := 2
    min_vco_khz := 100000
    max_vco_khz := 200000
    min_pll_input_freq_khz := 13500
    max_pll_input_freq_khz := 27000
    fract_fb_divider_decimal_points_num := 6
    fract_fb_divider_factor := 1000000
    fract_fb_divider_precision := 6
    fract_fb_divider_precision_factor := 1 }

/-! ## Well-formedness of the records -/

/-- All fields of the constraint set are `uint32_t` values. -/
def calc_pll_clock_source.is_u32 (cs : calc_pll_clock_source) : Prop :=
  cs.ref_freq_khz < 2 ^ 32 ∧ cs.min_pix_clock_pll_post_divider < 2 ^ 32 ∧
  cs.max_pix_clock_pll_post_divider < 2 ^ 32 ∧ cs.min_pll_ref_divider < 2 ^ 32 ∧
  cs.max_pll_ref_divider < 2 ^ 32 ∧ cs.min_vco_khz < 2 ^ 32 ∧ cs.max_vco_khz < 2 ^ 32 ∧
  cs.min_pll_input_freq_khz < 2 ^ 32 ∧ cs.max_pll_input_freq_khz < 2 ^ 32 ∧
  cs.fract_fb_divider_decimal_points_num < 2 ^ 32 ∧ cs.fract_fb_divider_factor < 2 ^ 32 ∧
  cs.fract_fb_divider_precision < 2 ^ 32 ∧ cs.fract_fb_divider_precision_factor < 2 ^ 32

/-- All numeric fields of the settings record are `uint32_t` values. -/
def pll_settings.is_u32 (s : pll_settings) : Prop :=
  s.actual_pix_clk < 2 ^ 32 ∧ s.adjusted_pix_clk < 2 ^ 32 ∧ s.calculated_pix_clk < 2 ^ 32 ∧
  s.vco_freq < 2 ^ 32 ∧ s.reference_freq < 2 ^ 32 ∧ s.reference_divider < 2 ^ 32 ∧
  s.feedback_divider < 2 ^ 32 ∧ s.fract_feedback_divider < 2 ^ 32 ∧
  s.pix_clk_post_divider < 2 ^ 32 ∧ s.ss_percentage < 2 ^ 32

/-! ## Expected results on the sample inputs -/

/-- The record after the 1080p solve. -/
def solved_1080p : pll_settings :=
  { settings_for 148500 0 0 with
    reference_freq := 27000
    reference_divider := 1
    feedback_divider := 5
    fract_feedback_divider := 500000
    pix_clk_post_divider := 1
    calculated_pix_clk := 148500
    vco_freq := 148500 }

/-- The record after a 1080p solve with reference divider pinned to 3 and post
divider pinned to 1. -/
def solved_1080p_pinned : pll_settings :=
  { settings_for 148500 3 1 with
    reference_freq := 27000
    reference_divider := 3
    feedback_divider := 16
    fract_feedback_divider := 500000
    pix_clk_post_divider := 1
    calculated_pix_clk := 148500
    vco_freq := 148500 }

/-- A constraint set with post dividers up to 127 and a VCO range of
600 MHz to 1.2 GHz. -/
def cs_wide : calc_pll_clock_source :=
  { cs_1080p with
    max_pix_clock_pll_post_divider := 127
    min_vco_khz := 600000
    max_vco_khz := 1200000 }

/-- A constraint set whose only candidate is reference divider 4 with post
divider 1, for a VCO between 1.0 and 1.1 THz. -/
def cs_overflow : calc_pll_clock_source :=
  { cs_1080p with
    min_pll_ref_divider := 4
    max_pll_ref_divider := 4
    min_pll_input_freq_khz := 1000
    min_vco_khz := 1000000000
    max_vco_khz := 1100000000 }

/-- The target `2 ^ 30` kHz, no divider pinned. -/
def settings_overflow : pll_settings := settings_for 1073741824 0 0

/-- A constraint set whose only candidate is reference divider 1080 with
post divider 1. -/
def cs_ref_1080 : calc_pll_clock_source :=
  { cs_1080p with
    min_pll_ref_divider := 1080
    max_pll_ref_divider := 1080
    min_pll_input_freq_khz := 25 }

/-- The record after the 1080p solve under `cs_ref_1080`. -/
def solved_ref_1080 : pll_settings :=
  { settings_for 148500 0 0 with
    reference_freq := 27000
    reference_divider := 1080
    feedback_divider := 5940
    fract_feedback_divider := 0
    pix_clk_post_divider := 1
    calculated_pix_clk := 41125
    vco_freq := 41125 }

/-- The record after a 1080p solve with the reference divider pinned to 3. -/
def solved_1080p_ref_3 : pll_settings :=
  { settings_for 148500 3 0 with
    reference_freq := 27000
    reference_divider := 3
    feedback_divider := 16
    fract_feedback_divider := 500000
    pix_clk_post_divider := 1
    calculated_pix_clk := 148500
    vco_freq := 148500 }

/-- A constraint set with PLL input frequency between 1 MHz and 10 MHz and
reference dividers up to 100. -/
def cs_input_10mhz : calc_pll_clock_source :=
  { cs_1080p with
    max_pll_ref_divider := 100
    min_pll_input_freq_khz := 1000
    max_pll_input_freq_khz := 10000 }

/-- The record after the 1080p solve under `cs_input_10mhz`. -/
def solved_input_10mhz : pll_settings :=
  { settings_for 148500 0 0 with
    reference_freq := 27000
    reference_divider := 2
    feedback_divider := 11
    fract_feedback_divider := 0
    pix_clk_post_divider := 1
    calculated_pix_clk := 148500
    vco_freq := 148500 }

/-! ## Further sample inputs -/

/-- A constraint set with one decimal digit (`factor = 10`, full precision),
27 MHz crystal. -/
def cs_tenths : calc_pll_clock_source :=
  { cs_1080p with
    fract_fb_divider_decimal_points_num := 1
    fract_fb_divider_factor := 10
    fract_fb_divider_precision := 1
    fract_fb_divider_precision_factor := 1 }

/-- The record written by the candidate (reference divider 1, post divider 2)
for the target `2 ^ 31 - 1` kHz under `cs_tenths`. -/
def accepted_tenths : pll_settings :=
  { settings_for 2147483647 0 0 with
    reference_freq := 27000
    reference_divider := 1
    feedback_divider := 159072
    fract_feedback_divider := 9
    pix_clk_post_divider := 2
    calculated_pix_clk := 2147484150
    vco_freq := 1004 }

/-! ## Spread-spectrum capability tables -/

/-- The signal classes `enum signal_type` that `get_ss_data_entry` tells apart
(the enumeration is declared outside this file): the seven values the `switch`
of lines 64-88 names, and `SIGNAL_TYPE_OTHER` for every value that falls to
its `default` branch. -/
inductive signal_type where
  | SIGNAL_TYPE_DVI_SINGLE_LINK
  | SIGNAL_TYPE_DVI_DUAL_LINK
  | SIGNAL_TYPE_HDMI_TYPE_A
  | SIGNAL_TYPE_DISPLAY_PORT
  | SIGNAL_TYPE_DISPLAY_PORT_MST
  | SIGNAL_TYPE_EDP
  | SIGNAL_TYPE_VIRTUAL
  | SIGNAL_TYPE_OTHER
  deriving DecidableEq, Repr

/-- The flag bits of `struct spread_spectrum_data`. -/
structure spread_spectrum_flags where
  CENTER_SPREAD : Bool
  EXTERNAL_SS : Bool
  deriving DecidableEq, Repr

/-- A capability entry `struct spread_spectrum_data` (the fields written at
lines 1018-1030, all `uint32_t`). -/
structure spread_spectrum_data where
  percentage : Nat
  percentage_divider : Nat
  freq_range_khz : Nat
  modulation_freq_hz : Nat
  flags : spread_spectrum_flags
  deriving DecidableEq, Repr

/-- The capability tables of `struct dce110_clk_src`.  A table pointer that is
`NULL` is `none`; an allocated table is the list of its `*_cnt` entries. -/
structure dce110_clk_src where
  dvi_ss_params : Option (List spread_spectrum_data)
  hdmi_ss_params : Option (List spread_spectrum_data)
  dp_ss_params : Option (List spread_spectrum_data)
  deriving DecidableEq, Repr

/-- The table the `switch` of `get_ss_data_entry` selects (lines 64-88). -/
def ss_params_of_signal (clk_src : dce110_clk_src) (signal : signal_type) :
    Option (List spread_spectrum_data) :=
  match signal with
  | .SIGNAL_TYPE_DVI_SINGLE_LINK => clk_src.dvi_ss_params
  | .SIGNAL_TYPE_DVI_DUAL_LINK => clk_src.dvi_ss_params
  | .SIGNAL_TYPE_HDMI_TYPE_A => clk_src.hdmi_ss_params
  | .SIGNAL_TYPE_DISPLAY_PORT => clk_src.dp_ss_params
  | .SIGNAL_TYPE_DISPLAY_PORT_MST => clk_src.dp_ss_params
  | .SIGNAL_TYPE_EDP => clk_src.dp_ss_params
  | .SIGNAL_TYPE_VIRTUAL => clk_src.dp_ss_params
  | .SIGNAL_TYPE_OTHER => none

/-- The scan of `get_ss_data_entry` (lines 93-98) over the entries that are
left: it stops at the first entry whose bound is at least the pixel clock. -/
def ss_entry_scan (pix_clk_khz : Nat) : List spread_spectrum_data → Option spread_spectrum_data
  | [] => none
  | ss_parm :: rest =>
    if ss_parm.freq_range_khz ≥ pix_clk_khz then some ss_parm
    else ss_entry_scan pix_clk_khz rest

/-- Source function `get_ss_data_entry` (lines 53-101). -/
def get_ss_data_entry (clk_src : dce110_clk_src) (signal : signal_type) (pix_clk_khz : Nat) :
    Option spread_spectrum_data :=
  match ss_params_of_signal clk_src signal with
  | none => none
  | some ss_parm => ss_entry_scan pix_clk_khz ss_parm

/-- A capability entry with the given bound, percentage 50 over divider 100,
30 kHz modulation, centre spread. -/
def ss_entry (freq_range_khz : Nat) : spread_spectrum_data :=
  { percentage := 50
    percentage_divider := 100
    freq_range_khz := freq_range_khz
    modulation_freq_hz := 30000
    flags := { CENTER_SPREAD := true, EXTERNAL_SS := false } }

/-- A clock source with a three-entry HDMI table and no other table. -/
def clk_src_hdmi : dce110_clk_src :=
  { dvi_ss_params := none
    hdmi_ss_params := some [ss_entry 100000, ss_entry 200000, ss_entry 300000]
    dp_ss_params := none }

/-- A constraint set with six decimal digits of which one is kept
(`precision_factor = 10 ^ 5`), 27 MHz crystal. -/
def cs_coarse : calc_pll_clock_source :=
  { cs_1080p with
    fract_fb_divider_precision := 1
    fract_fb_divider_precision_factor := 100000 }

/-- The record written for the target 149000 kHz under `cs_coarse` by the
candidate (reference divider 1, post divider 1). -/
def accepted_coarse : pll_settings :=
  { settings_for 149000 0 0 with
    reference_freq := 27000
    reference_divider := 1
    feedback_divider := 5
    fract_feedback_divider := 500000
    pix_clk_post_divider := 1
    calculated_pix_clk := 148500
    vco_freq := 148500 }

/-! ## Fixed-point arithmetic and the spread-spectrum calculation -/

/-- Modelled from the spec: `struct fixed32_32`, declared outside this file.
The spec (design notes) describes a 32.32 fixed-point type built on a 64-bit
integer: the number `x` is held as the integer `value = x * 2 ^ 32`, below
`2 ^ 64`.  No negative number arises in `calculate_ss`. -/
structure fixed32_32 where
  value : Nat
  deriving DecidableEq, Repr

/-- Modelled from the spec: the rounding rule of the fixed-point helpers.
The helpers that round (`dal_fixed32_32_from_fraction`, `dal_fixed32_32_div`,
`dal_fixed32_32_div_int`, `dal_fixed32_32_mul`) are absent from this file.
The spec asks for bit-exact rounding rules without giving them, and it calls
every operation a total function, so neither the rounding of a quotient nor
its value at a zero denominator is known.  A rule gives the integer a helper
takes for the quotient of a numerator by a denominator; it is a parameter of
the model, and every statement about `calculate_ss` is made for every rule or
for a named class of rules. -/
structure rounding_rule where
  quotient : Nat → Nat → Nat

/-- The rule that drops what lies past the last place. -/
def round_down : rounding_rule := ⟨fun n d => n / d⟩

/-- The rule that rounds to the nearest value, a half upwards. -/
def round_nearest : rounding_rule := ⟨fun n d => (2 * n + d) / (2 * d)⟩

/-- A rule is conventional when every quotient by a nonzero denominator is
the exact quotient rounded down or rounded to nearest. -/
def rounding_rule.conventional (r : rounding_rule) : Prop :=
  ∀ n d : Nat, d ≠ 0 → r.quotient n d = n / d ∨ r.quotient n d = (2 * n + d) / (2 * d)

/-- A rule is faithful when every quotient by a nonzero denominator is the
exact quotient rounded down or rounded up. -/
def rounding_rule.faithful (r : rounding_rule) : Prop :=
  ∀ n d : Nat, d ≠ 0 → n / d ≤ r.quotient n d ∧ r.quotient n d ≤ (n + d - 1) / d

/-- Modelled from the spec: the helper `dal_fixed32_32_from_fraction`, absent
from this file; the quotient `n / d` with 32 fractional bits, rounded by the
rule, in a 64-bit value. -/
def dal_fixed32_32_from_fraction (r : rounding_rule) (n d : Nat) : fixed32_32 :=
  ⟨u64 (r.quotient (n * 2 ^ 32) d)⟩

/-- Modelled from the spec: the helper `dal_fixed32_32_from_int`, absent from
this file. -/
def dal_fixed32_32_from_int (v : Nat) : fixed32_32 := ⟨u64 (v * 2 ^ 32)⟩

/-- Modelled from the spec: the helper `dal_fixed32_32_add_int`, absent from
this file. -/
def dal_fixed32_32_add_int (lhs : fixed32_32) (rhs : Nat) : fixed32_32 :=
  ⟨u64 (lhs.value + rhs * 2 ^ 32)⟩

/-- Modelled from the spec: the helper `dal_fixed32_32_sub`, absent from this
file; a 64-bit subtraction. -/
def dal_fixed32_32_sub (lhs rhs : fixed32_32) : fixed32_32 :=
  ⟨u64 (lhs.value + (2 ^ 64 - u64 rhs.value))⟩

/-- Modelled from the spec: the helper `dal_fixed32_32_mul`, absent from this
file; the product with 32 fractional bits, the bits past them rounded by the
rule, in a 64-bit value. -/
def dal_fixed32_32_mul (r : rounding_rule) (lhs rhs : fixed32_32) : fixed32_32 :=
  ⟨u64 (r.quotient (lhs.value * rhs.value) (2 ^ 32))⟩

/-- Modelled from the spec: the helper `dal_fixed32_32_mul_int`, absent from
this file. -/
def dal_fixed32_32_mul_int (lhs : fixed32_32) (rhs : Nat) : fixed32_32 :=
  ⟨u64 (lhs.value * rhs)⟩

/-- Modelled from the spec: the helper `dal_fixed32_32_div`, absent from this
file; the quotient with 32 fractional bits, rounded by the rule, in a 64-bit
value. -/
def dal_fixed32_32_div (r : rounding_rule) (lhs rhs : fixed32_32) : fixed32_32 :=
  ⟨u64 (r.quotient (lhs.value * 2 ^ 32) rhs.value)⟩

/-- Modelled from the spec: the helper `dal_fixed32_32_div_int`, absent from
this file; the quotient by an integer, rounded by the rule, in a 64-bit
value. -/
def dal_fixed32_32_div_int (r : rounding_rule) (lhs : fixed32_32) (rhs : Nat) : fixed32_32 :=
  ⟨u64 (r.quotient lhs.value rhs)⟩

/-- Modelled from the spec: the helper `dal_fixed32_32_floor`, absent from
this file; the integer part. -/
def dal_fixed32_32_floor (v : fixed32_32) : Nat := v.value / 2 ^ 32

/-- The output record `struct delta_sigma_data` (all fields `uint32_t`). -/
structure delta_sigma_data where
  feedback_amount : Nat
  nfrac_amount : Nat
  ds_frac_size : Nat
  ds_frac_amount : Nat
  deriving DecidableEq, Repr

/-- The spread amount `ss_amount` of `calculate_ss` (lines 642-651): the
feedback divider with six decimal digits, times
`percentage / (100 * percentage_divider)`, the denominator a 32-bit product. -/
def ss_amount (r : rounding_rule) (s : pll_settings) (ss_data : spread_spectrum_data) :
    fixed32_32 :=
  let fb_div := dal_fixed32_32_add_int
    (dal_fixed32_32_from_fraction r s.fract_feedback_divider 1000000) s.feedback_divider
  dal_fixed32_32_mul r fb_div
    (dal_fixed32_32_from_fraction r ss_data.percentage (u32 (100 * ss_data.percentage_divider)))

/-- The modulation time `modulation_time` of `calculate_ss` (lines 665-672);
numerator and denominator are 32-bit products. -/
def modulation_time (r : rounding_rule) (s : pll_settings) (ss_data : spread_spectrum_data) :
    fixed32_32 :=
  let t := dal_fixed32_32_from_fraction r (u32 (s.reference_freq * 1000))
    (u32 (s.reference_divider * ss_data.modulation_freq_hz))
  if ss_data.flags.CENTER_SPREAD then dal_fixed32_32_div_int r t 4
  else dal_fixed32_32_div_int r t 2

/-- Source function `calculate_ss` (lines 617-680), over the rounding rule of
the helpers.  An absent record is a `NULL` pointer; the result is the C return
value and the output record after the call. -/
def calculate_ss (r : rounding_rule) (pll_settings_ptr : Option pll_settings)
    (ss_data_ptr : Option spread_spectrum_data) (ds_data_ptr : Option delta_sigma_data) :
    Bool × Option delta_sigma_data :=
  match ds_data_ptr with
  | none => (false, none)
  | some ds_data =>
    match ss_data_ptr with
    | none => (false, some ds_data)
    | some ss_data =>
      if ss_data.percentage = 0 then (false, some ds_data)
      else
        match pll_settings_ptr with
        | none => (false, some ds_data)
        | some s =>
          let amount := ss_amount r s ss_data
          let feedback_amount := dal_fixed32_32_floor amount
          let ss_nslip_amount := dal_fixed32_32_mul_int
            (dal_fixed32_32_sub amount (dal_fixed32_32_from_int feedback_amount)) 10
          let nfrac_amount := dal_fixed32_32_floor ss_nslip_amount
          let ss_ds_frac_amount := dal_fixed32_32_mul_int
            (dal_fixed32_32_sub ss_nslip_amount (dal_fixed32_32_from_int nfrac_amount)) 65536
          let ds_frac_amount := dal_fixed32_32_floor ss_ds_frac_amount
          let ss_step_size := dal_fixed32_32_mul_int
            (dal_fixed32_32_div r amount (modulation_time r s ss_data)) (65536 * 10)
          (true, some
            { feedback_amount := feedback_amount
              nfrac_amount := nfrac_amount
              ds_frac_size := dal_fixed32_32_floor ss_step_size
              ds_frac_amount := ds_frac_amount })

/-- A solved record with the given feedback divider, no fractional part,
reference divider 1 and a 27 MHz reference. -/
def settings_fb (feedback_divider : Nat) : pll_settings :=
  { settings_for 148500 0 0 with
    reference_freq := 27000
    reference_divider := 1
    feedback_divider := feedback_divider
    fract_feedback_divider := 0
    pix_clk_post_divider := 1 }

/-- A centre-spread capability entry with 30 kHz modulation and the given
percentage and divider. -/
def ss_entry_pct (percentage percentage_divider : Nat) : spread_spectrum_data :=
  { percentage := percentage
    percentage_divider := percentage_divider
    freq_range_khz := 300000
    modulation_freq_hz := 30000
    flags := { CENTER_SPREAD := true, EXTERNAL_SS := false } }

/-- An output record with all fields zero. -/
def ds_zero : delta_sigma_data :=
  { feedback_amount := 0, nfrac_amount := 0, ds_frac_size := 0, ds_frac_amount := 0 }

/-- The constraint set `cs_1080p` with a zero lower bound on the PLL input
frequency. -/
def cs_zero_input : calc_pll_clock_source :=
  { cs_1080p with min_pll_input_freq_khz := 0 }

/-! ## Construction of the constraint set -/

/-- The PLL limits `pll_info` of `struct firmware_info` (declared outside this
file), with the five fields `calc_pll_max_vco_construct` reads. -/
structure firmware_pll_info where
  crystal_frequency : Nat
  min_input_pxl_clk_pll_frequency : Nat
  max_input_pxl_clk_pll_frequency : Nat
  min_output_pxl_clk_pll_frequency : Nat
  max_output_pxl_clk_pll_frequency : Nat
  deriving DecidableEq, Repr

/-- The firmware data `struct firmware_info`, reduced to its PLL limits. -/
structure firmware_info where
  pll_info : firmware_pll_info
  deriving DecidableEq, Repr

/-- The BIOS parser `struct dc_bios`, reduced to the answer of its
`get_firmware_info` query: `none` is any result other than `BP_RESULT_OK`. -/
structure dc_bios where
  get_firmware_info : Option firmware_info
  deriving DecidableEq, Repr

/-- The construction parameters `struct calc_pll_clock_source_init_data`
(the logging context is left out); `bp` may be `NULL`. -/
structure calc_pll_clock_source_init_data where
  bp : Option dc_bios
  min_pix_clk_pll_post_divider : Nat
  max_pix_clk_pll_post_divider : Nat
  min_pll_ref_divider : Nat
  max_pll_ref_divider : Nat
  min_override_input_pxl_clk_pll_freq_khz : Nat
  max_override_input_pxl_clk_pll_freq_khz : Nat
  num_fract_fb_divider_decimal_point : Nat
  num_fract_fb_divider_decimal_point_precision : Nat
  deriving DecidableEq, Repr

/-- The loops of lines 1129-1130 and 1133-1138: `count` times a 32-bit
multiplication by 10. -/
def times_ten_loop : Nat → Nat → Nat
  | 0, value => value
  | count + 1, value => times_ten_loop count (u32 (value * 10))

/-- Source function `calc_pll_max_vco_construct` (lines 1065-1141): the C
return value and the constraint set after the call.  The fields above the
checks of the decimal-point numbers are written also when those checks
fail. -/
def calc_pll_max_vco_construct (calc_pll_cs_ptr : Option calc_pll_clock_source)
    (init_data_ptr : Option calc_pll_clock_source_init_data) :
    Bool × Option calc_pll_clock_source :=
  match calc_pll_cs_ptr, init_data_ptr with
  | none, _ => (false, none)
  | some calc_pll_cs, none => (false, some calc_pll_cs)
  | some calc_pll_cs, some init_data =>
    match init_data.bp with
    | none => (false, some calc_pll_cs)
    | some bp =>
      match bp.get_firmware_info with
      | none => (false, some calc_pll_cs)
      | some fw_info =>
        let cs1 : calc_pll_clock_source :=
          { calc_pll_cs with
            ref_freq_khz := fw_info.pll_info.crystal_frequency
            min_vco_khz := fw_info.pll_info.min_output_pxl_clk_pll_frequency
            max_vco_khz := fw_info.pll_info.max_output_pxl_clk_pll_frequency
            max_pll_input_freq_khz :=
              if init_data.max_override_input_pxl_clk_pll_freq_khz ≠ 0 then
                init_data.max_override_input_pxl_clk_pll_freq_khz
              else fw_info.pll_info.max_input_pxl_clk_pll_frequency
            min_pll_input_freq_khz :=
              if init_data.min_override_input_pxl_clk_pll_freq_khz ≠ 0 then
                init_data.min_override_input_pxl_clk_pll_freq_khz
              else fw_info.pll_info.min_input_pxl_clk_pll_frequency
            min_pix_clock_pll_post_divider := init_data.min_pix_clk_pll_post_divider
            max_pix_clock_pll_post_divider := init_data.max_pix_clk_pll_post_divider
            min_pll_ref_divider := init_data.min_pll_ref_divider
            max_pll_ref_divider := init_data.max_pll_ref_divider }
        if init_data.num_fract_fb_divider_decimal_point = 0 ∨
            init_data.num_fract_fb_divider_decimal_point_precision >
              init_data.num_fract_fb_divider_decimal_point then
          (false, some cs1)
        else if init_data.num_fract_fb_divider_decimal_point_precision = 0 then
          (false, some cs1)
        else
          (true, some
            { cs1 with
              fract_fb_divider_decimal_points_num :=
                init_data.num_fract_fb_divider_decimal_point
              fract_fb_divider_precision :=
                init_data.num_fract_fb_divider_decimal_point_precision
              fract_fb_divider_factor :=
                times_ten_loop init_data.num_fract_fb_divider_decimal_point 1
              fract_fb_divider_precision_factor :=
                times_ten_loop (init_data.num_fract_fb_divider_decimal_point -
                  init_data.num_fract_fb_divider_decimal_point_precision) 1 })

/-- Firmware data of a 27 MHz crystal: PLL input 1 MHz to 13.5 MHz, VCO
600 MHz to 1.2 GHz. -/
def fw_27mhz : firmware_info :=
  { pll_info :=
    { crystal_frequency := 27000
      min_input_pxl_clk_pll_frequency := 1000
      max_input_pxl_clk_pll_frequency := 13500
      min_output_pxl_clk_pll_frequency := 600000
      max_output_pxl_clk_pll_frequency := 1200000 } }

/-- Construction parameters with the given decimal-point numbers: dividers
`[1, 127]` and `[1, 1023]`, the maximum PLL input overridden to 27 MHz, the
minimum left to the firmware. -/
def init_data_for (decimal_point precision : Nat) : calc_pll_clock_source_init_data :=
  { bp := some { get_firmware_info := some fw_27mhz }
    min_pix_clk_pll_post_divider := 1
    max_pix_clk_pll_post_divider := 127
    min_pll_ref_divider := 1
    max_pll_ref_divider := 1023
    min_override_input_pxl_clk_pll_freq_khz := 0
    max_override_input_pxl_clk_pll_freq_khz := 27000
    num_fract_fb_divider_decimal_point := decimal_point
    num_fract_fb_divider_decimal_point_precision := precision }

/-- The constraint set built from `init_data_for decimal_point precision`
when the factors are as given. -/
def cs_built (decimal_point precision factor precision_factor : Nat) : calc_pll_clock_source :=
  { ref_freq_khz := 27000
    min_pix_clock_pll_post_divider := 1
    max_pix_clock_pll_post_divider := 127
    min_pll_ref_divider := 1
    max_pll_ref_divider := 1023
    min_vco_khz := 600000
    max_vco_khz := 1200000
    min_pll_input_freq_khz := 1000
    max_pll_input_freq_khz := 27000
    fract_fb_divider_decimal_points_num := decimal_point
    fract_fb_divider_factor := factor
    fract_fb_divider_precision := precision
    fract_fb_divider_precision_factor := precision_factor }

/-- The 1080p constraint set with a VCO range of 10 MHz to 20 MHz, below the
crystal frequency. -/
def cs_low_vco : calc_pll_clock_source :=
  { cs_1080p with
    min_vco_khz := 10000
    max_vco_khz := 20000 }

/-- The record after the solve for 13500 kHz under `cs_low_vco`. -/
def solved_low_vco : pll_settings :=
  { settings_for 13500 0 0 with
    reference_freq := 27000
    reference_divider := 1
    feedback_divider := 0
    fract_feedback_divider := 500000
    pix_clk_post_divider := 1
    calculated_pix_clk := 13500
    vco_freq := 13500 }

/-- A constraint set with nine fractional decimal digits, all of them kept
(`d = p = 9`). -/
def cs_nine_digits : calc_pll_clock_source :=
  { cs_1080p with
    fract_fb_divider_decimal_points_num := 9
    fract_fb_divider_factor := 1000000000
    fract_fb_divider_precision := 9
    fract_fb_divider_precision_factor := 1 }

/-- A constraint set whose VCO floor sits just above what a 150 MHz target
reaches at post divider 4: post dividers 1 to 4, VCO range
`[600000, 1200000]`. -/
def cs_vco_edge : calc_pll_clock_source :=
  { cs_1080p with
    max_pix_clock_pll_post_divider := 4
    min_vco_khz := 600000
    max_vco_khz := 1200000 }

/-- The record the solve leaves for target 150000 under `cs_vco_edge`. -/
def solved_vco_edge : pll_settings :=
  { settings_for 150000 0 0 with
    reference_freq := 27000
    reference_divider := 1
    feedback_divider := 22
    fract_feedback_divider := 222222
    pix_clk_post_divider := 4
    calculated_pix_clk := 149999
    vco_freq := 599996 }

/-- A constraint set whose reference frequency is exactly twice `factor`:
2 GHz crystal in kHz against six decimal digits, one post divider, one
reference divider. -/
def cs_ref_double : calc_pll_clock_source :=
  { ref_freq_khz := 2000000
    min_pix_clock_pll_post_divider := 1
    max_pix_clock_pll_post_divider := 1
    min_pll_ref_divider := 1
    max_pll_ref_divider := 1
    min_vco_khz := 1000000
    max_vco_khz := 5000000
    min_pll_input_freq_khz := 2000000
    max_pll_input_freq_khz := 2000000
    fract_fb_divider_decimal_points_num := 6
    fract_fb_divider_factor := 1000000
    fract_fb_divider_precision := 6
    fract_fb_divider_precision_factor := 1 }

/-- The record the solve leaves for the odd target 4000001 under
`cs_ref_double`: the achieved frequency is one above the target. -/
def solved_ref_double : pll_settings :=
  { settings_for 4000001 0 0 with
    reference_freq := 2000000
    reference_divider := 1
    feedback_divider := 2
    fract_feedback_divider := 1
    pix_clk_post_divider := 1
    calculated_pix_clk := 4000002
    vco_freq := 4000002 }

/-- A constraint set with nine decimal digits at full precision and a
reference frequency of twice `factor`, one post divider, one reference
divider. -/
def cs_scaling_overflow : calc_pll_clock_source :=
  { ref_freq_khz := 2000000000
    min_pix_clock_pll_post_divider := 1
    max_pix_clock_pll_post_divider := 1
    min_pll_ref_divider := 1
    max_pll_ref_divider := 1
    min_vco_khz := 1000000000
    max_vco_khz := 3000000000
    min_pll_input_freq_khz := 2000000000
    max_pll_input_freq_khz := 2000000000
    fract_fb_divider_decimal_points_num := 9
    fract_fb_divider_factor := 1000000000
    fract_fb_divider_precision := 9
    fract_fb_divider_precision_factor := 1 }

/-! ## Lemmas on outcomes, candidates and loops -/

theorem Outcome.bind_eq_done {α β : Type} {x : Outcome α} {f : α → Outcome β} {b : β} :
    x.bind f = .done b ↔ ∃ a, x = .done a ∧ f a = .done b := by
  cases x <;> simp [Outcome.bind]

theorem div_u64_eq_done {a b q : Nat} : div_u64 a b = .done q ↔ b ≠ 0 ∧ q = a / b := by
  unfold div_u64
  split <;> simp_all [eq_comm]

theorem u32_le (n : Nat) : u32 n ≤ n := Nat.mod_le _ _

theorem u32_lt (n : Nat) : u32 n < 2 ^ 32 := Nat.mod_lt _ (by norm_num)

theorem u32_of_lt {n : Nat} (h : n < 2 ^ 32) : u32 n = n := Nat.mod_eq_of_lt h

/-- A rejected candidate leaves the record as it was. -/
theorem calc_fb_divider_checking_tolerance_false {cs : calc_pll_clock_source}
    {s s' : pll_settings} {r p tol : Nat}
    (h : calc_fb_divider_checking_tolerance cs s r p tol = .done (false, s')) : s' = s := by
  unfold calc_fb_divider_checking_tolerance at h
  obtain ⟨a, -, h⟩ := Outcome.bind_eq_done.1 h
  obtain ⟨b, -, h⟩ := Outcome.bind_eq_done.1 h
  split at h
  · simp at h
  · simp at h; exact h.symm

/-- An accepted candidate: the back-calculated frequency is within the
tolerance and the record holds the tuple. -/
theorem calc_fb_divider_checking_tolerance_true {cs : calc_pll_clock_source}
    {s s' : pll_settings} {r p tol : Nat}
    (h : calc_fb_divider_checking_tolerance cs s r p tol = .done (true, s')) :
    ∃ ok fb fr actual,
      calculate_fb_and_fractional_fb_divider cs s.adjusted_pix_clk r p = .done (ok, fb, fr) ∧
      actual_calculated_clock_khz cs r p fb fr = .done actual ∧
      abs_err actual s.adjusted_pix_clk ≤ tol ∧
      s' = { s with
        reference_freq := cs.ref_freq_khz
        reference_divider := r
        feedback_divider := fb
        fract_feedback_divider := fr
        pix_clk_post_divider := p
        calculated_pix_clk := actual
        vco_freq := u32 (actual * p) } := by
  unfold calc_fb_divider_checking_tolerance at h
  obtain ⟨a, ha, h⟩ := Outcome.bind_eq_done.1 h
  obtain ⟨b, hb, h⟩ := Outcome.bind_eq_done.1 h
  split at h
  · rename_i hle
    simp at h
    exact ⟨a.1, a.2.1, a.2.2, b, ha, hb, hle, h.symm⟩
  · simp at h


theorem actual_calculated_clock_khz_trap {cs : calc_pll_clock_source} {r p : Nat}
    (h : r = 0 ∨ p = 0) (fb fr : Nat) : actual_calculated_clock_khz cs r p fb fr = .trap := by
  have h0 : r * p = 0 := by rcases h with h | h <;> simp [h]
  simp [actual_calculated_clock_khz, h0, u32, div_u64, Outcome.bind]

/-- A candidate with a zero reference or post divider never returns: the
back-calculation divides by `ref * post * factor = 0`. -/
theorem calc_fb_divider_checking_tolerance_zero {cs : calc_pll_clock_source}
    {s : pll_settings} {r p : Nat} (h : r = 0 ∨ p = 0) (tol : Nat) (x : Bool × pll_settings) :
    calc_fb_divider_checking_tolerance cs s r p tol ≠ .done x := by
  intro hx
  unfold calc_fb_divider_checking_tolerance at hx
  obtain ⟨a, -, hx⟩ := Outcome.bind_eq_done.1 hx
  obtain ⟨b, hb, -⟩ := Outcome.bind_eq_done.1 hx
  rw [actual_calculated_clock_khz_trap h] at hb
  cases hb

theorem ref_divider_loop_false {cs : calc_pll_clock_source} {p maxr tol : Nat} :
    ∀ (fuel r : Nat) (s s' : pll_settings),
      ref_divider_loop cs p maxr tol fuel r s = .done (false, s') → s' = s := by
  intro fuel
  induction fuel with
  | zero => intro r s s' h; simp [ref_divider_loop] at h
  | succ n ih =>
    intro r s s' h
    rw [ref_divider_loop] at h
    split at h
    · obtain ⟨⟨ok, t⟩, ha, hk⟩ := Outcome.bind_eq_done.1 h
      clear h
      cases ok with
      | true => simp at hk
      | false =>
        simp at hk
        have ht := calc_fb_divider_checking_tolerance_false ha
        subst ht
        exact ih _ _ _ hk
    · simp at h; exact h.symm

/-- A successful inner loop stopped at an accepted candidate whose reference
divider lies between the start value and `max_ref_divider`. -/
theorem ref_divider_loop_true {cs : calc_pll_clock_source} {p maxr tol : Nat} :
    ∀ (fuel r : Nat) (s s' : pll_settings), r < 2 ^ 32 →
      ref_divider_loop cs p maxr tol fuel r s = .done (true, s') →
      ∃ r', r ≤ r' ∧ r' ≤ maxr ∧
        calc_fb_divider_checking_tolerance cs s r' p tol = .done (true, s') := by
  intro fuel
  induction fuel with
  | zero => intro r s s' _ h; simp [ref_divider_loop] at h
  | succ n ih =>
    intro r s s' hr h
    rw [ref_divider_loop] at h
    split at h
    · rename_i hle
      obtain ⟨⟨ok, t⟩, ha, hk⟩ := Outcome.bind_eq_done.1 h
      clear h
      cases ok with
      | true =>
        simp at hk
        subst hk
        exact ⟨r, le_refl _, hle, ha⟩
      | false =>
        simp at hk
        have ht := calc_fb_divider_checking_tolerance_false ha
        subst ht
        by_cases hw : r + 1 < 2 ^ 32
        · rw [u32_of_lt hw] at hk
          obtain ⟨r', h1, h2, h3⟩ := ih _ _ _ hw hk
          exact ⟨r', by omega, h2, h3⟩
        · have h0 : u32 (r + 1) = 0 := by
            have : r + 1 = 2 ^ 32 := by omega
            simp [u32, this]
          rw [h0] at hk
          exfalso
          cases n with
          | zero => simp [ref_divider_loop] at hk
          | succ m =>
            rw [ref_divider_loop] at hk
            simp only [Nat.zero_le, if_true] at hk
            obtain ⟨b, hb, -⟩ := Outcome.bind_eq_done.1 hk
            exact calc_fb_divider_checking_tolerance_zero (Or.inl rfl) _ _ hb
    · simp at h


/-- With post divider zero the inner loop never returns once it has a
candidate to evaluate. -/
theorem ref_divider_loop_post_zero {cs : calc_pll_clock_source} {maxr tol r : Nat}
    (hr : r ≤ maxr) (fuel : Nat) (s : pll_settings) (x : Bool × pll_settings) :
    ref_divider_loop cs 0 maxr tol fuel r s ≠ .done x := by
  intro h
  cases fuel with
  | zero => simp [ref_divider_loop] at h
  | succ n =>
    rw [ref_divider_loop] at h
    simp only [hr, if_true] at h
    obtain ⟨b, hb, -⟩ := Outcome.bind_eq_done.1 h
    exact calc_fb_divider_checking_tolerance_zero (Or.inr rfl) _ _ hb

theorem u32_pred {p : Nat} (h0 : p ≠ 0) (h : p < 2 ^ 32) : u32 (p + (2 ^ 32 - 1)) = p - 1 := by
  unfold u32
  omega

theorem post_divider_loop_false {cs : calc_pll_clock_source} {minr maxr minp tol : Nat} :
    ∀ (fuel p : Nat) (s s' : pll_settings),
      post_divider_loop cs minr maxr minp tol fuel p s = .done (false, s') → s' = s := by
  intro fuel
  induction fuel with
  | zero => intro p s s' h; simp [post_divider_loop] at h
  | succ n ih =>
    intro p s s' h
    rw [post_divider_loop] at h
    split at h
    · obtain ⟨⟨ok, t⟩, ha, hk⟩ := Outcome.bind_eq_done.1 h
      clear h
      cases ok with
      | true => simp at hk
      | false =>
        simp at hk
        have ht := ref_divider_loop_false _ _ _ _ ha
        subst ht
        exact ih _ _ _ hk
    · simp at h; exact h.symm

/-- A successful pass over the post dividers stopped at an accepted candidate
inside both ranges. -/
theorem post_divider_loop_true {cs : calc_pll_clock_source} {minr maxr minp tol : Nat}
    (hminr : minr < 2 ^ 32) (hrange : minr ≤ maxr) :
    ∀ (fuel p : Nat) (s s' : pll_settings), p < 2 ^ 32 →
      post_divider_loop cs minr maxr minp tol fuel p s = .done (true, s') →
      ∃ p' r', minp ≤ p' ∧ p' ≤ p ∧ minr ≤ r' ∧ r' ≤ maxr ∧
        calc_fb_divider_checking_tolerance cs s r' p' tol = .done (true, s') := by
  intro fuel
  induction fuel with
  | zero => intro p s s' _ h; simp [post_divider_loop] at h
  | succ n ih =>
    intro p s s' hp h
    rw [post_divider_loop] at h
    split at h
    · rename_i hge
      obtain ⟨⟨ok, t⟩, ha, hk⟩ := Outcome.bind_eq_done.1 h
      clear h
      cases ok with
      | true =>
        simp at hk
        subst hk
        obtain ⟨r', h1, h2, h3⟩ := ref_divider_loop_true _ _ _ _ hminr ha
        exact ⟨p, r', hge, le_refl _, h1, h2, h3⟩
      | false =>
        simp at hk
        have ht := ref_divider_loop_false _ _ _ _ ha
        subst ht
        by_cases h0 : p = 0
        · subst h0
          exact absurd ha (ref_divider_loop_post_zero hrange _ _ _)
        · have hpred := u32_pred h0 hp
          norm_num at hpred
          rw [hpred] at hk
          obtain ⟨p', r', h1, h2, h3, h4, h5⟩ := ih _ _ _ (by omega) hk
          exact ⟨p', r', h1, by omega, h3, h4, h5⟩
    · simp at h

theorem calc_pll_dividers_in_range_false {cs : calc_pll_clock_source} {s s' : pll_settings}
    {minr maxr minp maxp err fuel : Nat}
    (h : calc_pll_dividers_in_range cs s minr maxr minp maxp err fuel = .done (false, s')) :
    s' = s :=
  post_divider_loop_false _ _ _ _ h

/-- A successful call of `calc_pll_dividers_in_range` accepted a candidate of
the range at the absolute tolerance it derived. -/
theorem calc_pll_dividers_in_range_true {cs : calc_pll_clock_source} {s s' : pll_settings}
    {minr maxr minp maxp err fuel : Nat}
    (hminr : minr < 2 ^ 32) (hrange : minr ≤ maxr) (hmaxp : maxp < 2 ^ 32)
    (h : calc_pll_dividers_in_range cs s minr maxr minp maxp err fuel = .done (true, s')) :
    ∃ p r, minp ≤ p ∧ p ≤ maxp ∧ minr ≤ r ∧ r ≤ maxr ∧
      calc_fb_divider_checking_tolerance cs s r p (abs_tolerance s.adjusted_pix_clk err) =
        .done (true, s') :=
  post_divider_loop_true hminr hrange _ _ _ _ hmaxp h

/-- A returning relaxation loop ends with a successful pass at the tolerance
it returns, run on the record it was entered with. -/
theorem relax_loop_done {cs : calc_pll_clock_source} {minr maxr minp maxp : Nat} :
    ∀ (fuel err : Nat) (s s' : pll_settings) (e : Nat),
      relax_loop cs minr maxr minp maxp fuel err s = .done (e, s') →
      ∃ fuel', calc_pll_dividers_in_range cs s minr maxr minp maxp e fuel' = .done (true, s') := by
  intro fuel
  induction fuel with
  | zero => intro err s s' e h; simp [relax_loop] at h
  | succ n ih =>
    intro err s s' e h
    rw [relax_loop] at h
    obtain ⟨⟨ok, t⟩, ha, hk⟩ := Outcome.bind_eq_done.1 h
    clear h
    cases ok with
    | true =>
      simp at hk
      obtain ⟨h1, h2⟩ := hk
      subst h1 h2
      exact ⟨n, ha⟩
    | false =>
      simp at hk
      have ht := calc_pll_dividers_in_range_false ha
      subst ht
      exact ih _ _ _ _ hk


theorem ref_divider_loop_accepts {cs : calc_pll_clock_source} {p maxr tol : Nat} :
    ∀ (fuel r : Nat) (s s' : pll_settings),
      ref_divider_loop cs p maxr tol fuel r s = .done (true, s') →
      ∃ r', calc_fb_divider_checking_tolerance cs s r' p tol = .done (true, s') := by
  intro fuel
  induction fuel with
  | zero => intro r s s' h; simp [ref_divider_loop] at h
  | succ n ih =>
    intro r s s' h
    rw [ref_divider_loop] at h
    split at h
    · obtain ⟨⟨ok, t⟩, ha, hk⟩ := Outcome.bind_eq_done.1 h
      clear h
      cases ok with
      | true =>
        simp at hk
        subst hk
        exact ⟨r, ha⟩
      | false =>
        simp at hk
        have ht := calc_fb_divider_checking_tolerance_false ha
        subst ht
        exact ih _ _ _ hk
    · simp at h

theorem post_divider_loop_accepts {cs : calc_pll_clock_source} {minr maxr minp tol : Nat} :
    ∀ (fuel p : Nat) (s s' : pll_settings),
      post_divider_loop cs minr maxr minp tol fuel p s = .done (true, s') →
      ∃ p' r', calc_fb_divider_checking_tolerance cs s r' p' tol = .done (true, s') := by
  intro fuel
  induction fuel with
  | zero => intro p s s' h; simp [post_divider_loop] at h
  | succ n ih =>
    intro p s s' h
    rw [post_divider_loop] at h
    split at h
    · obtain ⟨⟨ok, t⟩, ha, hk⟩ := Outcome.bind_eq_done.1 h
      clear h
      cases ok with
      | true =>
        simp at hk
        subst hk
        obtain ⟨r', h3⟩ := ref_divider_loop_accepts _ _ _ _ ha
        exact ⟨p, r', h3⟩
      | false =>
        simp at hk
        have ht := ref_divider_loop_false _ _ _ _ ha
        subst ht
        exact ih _ _ _ hk
    · simp at h

/-- Past its three guards `calculate_pixel_clock_pll_dividers` is its
relaxation loop, started at `MAX_PLL_CALC_ERROR`. -/
theorem calculate_pixel_clock_pll_dividers_eq_relax_loop {cs : calc_pll_clock_source}
    {s : pll_settings} {rr : Nat × Nat}
    (ht : s.adjusted_pix_clk ≠ 0)
    (hp : (post_divider_range cs s).1 ≤ (post_divider_range cs s).2)
    (hr : ref_divider_range cs s = .done rr) (hrr : rr.1 ≤ rr.2) (fuel : Nat) :
    calculate_pixel_clock_pll_dividers cs s fuel =
      relax_loop cs rr.1 rr.2 (post_divider_range cs s).1 (post_divider_range cs s).2 fuel
        MAX_PLL_CALC_ERROR s := by
  unfold calculate_pixel_clock_pll_dividers
  simp [ht, hr, Outcome.bind, Nat.not_lt.2 hp, Nat.not_lt.2 hrr]

theorem abs_err_eq_abs (a b : Nat) : ((abs_err a b : Nat) : Int) = |(a : Int) - (b : Int)| := by
  unfold abs_err
  split
  · rw [abs_of_nonneg (by omega)]; omega
  · rw [abs_of_nonpos (by omega)]; omega

theorem abs_tolerance_le (t e : Nat) : abs_tolerance t e ≤ max (t * e / 10000) 1 := by
  unfold abs_tolerance CALC_PLL_CLK_SRC_ERR_TOLERANCE
  have h : u32 (t * e) / 10000 ≤ t * e / 10000 := Nat.div_le_div_right (u32_le _)
  simp only []
  split <;> simp only [le_max_iff] <;> omega

/-! ## Claims about `calculate_pixel_clock_pll_dividers` -/

/-- C2. Whenever `calculate_pixel_clock_pll_dividers` gets past its guards
(nonzero target, neither derived range inverted) and returns the tolerance `e`
of a successful pass, the stored achieved frequency is within
`max (adjusted_pix_clk * e / 10000) 1` of the target, the product and the
quotient being exact. -/
theorem achieved_within_returned_tolerance (cs : calc_pll_clock_source) (s s' : pll_settings)
    (rr : Nat × Nat) (fuel e : Nat)
    (ht : s.adjusted_pix_clk ≠ 0)
    (hp : (post_divider_range cs s).1 ≤ (post_divider_range cs s).2)
    (hr : ref_divider_range cs s = .done rr) (hrr : rr.1 ≤ rr.2)
    (h : calculate_pixel_clock_pll_dividers cs s fuel = .done (e, s')) :
    s'.adjusted_pix_clk = s.adjusted_pix_clk ∧
    |(s'.calculated_pix_clk : Int) - (s'.adjusted_pix_clk : Int)| ≤
      ((max (s'.adjusted_pix_clk * e / 10000) 1 : Nat) : Int) := by
  rw [calculate_pixel_clock_pll_dividers_eq_relax_loop ht hp hr hrr] at h
  obtain ⟨fuel', hpass⟩ := relax_loop_done _ _ _ _ _ h
  obtain ⟨p, r, hc⟩ := post_divider_loop_accepts _ _ _ _ hpass
  obtain ⟨ok, fb, fr, actual, -, -, herr, hs⟩ := calc_fb_divider_checking_tolerance_true hc
  subst hs
  refine ⟨rfl, ?_⟩
  rw [← abs_err_eq_abs]
  exact_mod_cast le_trans herr (abs_tolerance_le _ _)

theorem post_divider_range_snd_lt {cs : calc_pll_clock_source} {s : pll_settings}
    (hcs : cs.is_u32) (hs : s.is_u32) : (post_divider_range cs s).2 < 2 ^ 32 := by
  obtain ⟨-, -, h3, -, -, -, h7, -⟩ := hcs
  obtain ⟨-, -, -, -, -, -, -, -, h9, -⟩ := hs
  unfold post_divider_range
  split
  · exact h9
  · simp only []
    split
    · exact lt_of_le_of_lt (Nat.div_le_self _ _) h7
    · exact h3

theorem ref_divider_range_fst_lt {cs : calc_pll_clock_source} {s : pll_settings}
    {rr : Nat × Nat} (hcs : cs.is_u32) (hs : s.is_u32)
    (h : ref_divider_range cs s = .done rr) : rr.1 < 2 ^ 32 := by
  obtain ⟨h1, -, -, h4, -⟩ := hcs
  obtain ⟨-, -, -, -, -, h6, -⟩ := hs
  unfold ref_divider_range at h
  split at h
  · cases h; exact h6
  · obtain ⟨lo, hlo, h⟩ := Outcome.bind_eq_done.1 h
    obtain ⟨hi, -, h⟩ := Outcome.bind_eq_done.1 h
    obtain ⟨-, hlo⟩ := div_u64_eq_done.1 hlo
    cases h
    simp only []
    split
    · rw [hlo]; exact lt_of_le_of_lt (Nat.div_le_self _ _) h1
    · exact h4

theorem achieved_within_returned_tolerance_witness :
    solved_1080p.adjusted_pix_clk = (settings_for 148500 0 0).adjusted_pix_clk ∧
    |(solved_1080p.calculated_pix_clk : Int) - (solved_1080p.adjusted_pix_clk : Int)| ≤
      ((max (solved_1080p.adjusted_pix_clk * MAX_PLL_CALC_ERROR / 10000) 1 : Nat) : Int) :=
  achieved_within_returned_tolerance cs_1080p (settings_for 148500 0 0) solved_1080p (1, 2) 3
    MAX_PLL_CALC_ERROR (by decide) (by decide) (by rfl) (by decide) (by rfl)

/-- C5. A zero target is rejected before anything else: whatever the
constraint set, the record and the fuel (also none at all, so no pass is
run), the call returns `MAX_PLL_CALC_ERROR` and the record unchanged. -/
theorem zero_target_rejected (cs : calc_pll_clock_source) (s : pll_settings) (fuel : Nat)
    (h : s.adjusted_pix_clk = 0) :
    calculate_pixel_clock_pll_dividers cs s fuel = .done (MAX_PLL_CALC_ERROR, s) := by
  simp [calculate_pixel_clock_pll_dividers, h]

theorem zero_target_rejected_witness :
    calculate_pixel_clock_pll_dividers cs_1080p (settings_for 0 0 0) 0 =
      .done (MAX_PLL_CALC_ERROR, settings_for 0 0 0) :=
  zero_target_rejected cs_1080p (settings_for 0 0 0) 0 (by decide)

/-- C6, against the claim as written. Under `cs_zero_input` (lower PLL input
bound zero) the target 250000 with no pinned divider has the inverted derived
post-divider range `(1, 0)`, and the call does not return the sentinel: the
reference-divider range is derived before the ranges are checked, and its
division by `min_pll_input_freq_khz = 0` faults, for every fuel. -/
theorem inverted_range_faults_on_zero_input_bound :
    (settings_for 250000 0 0).adjusted_pix_clk ≠ 0 ∧
    post_divider_range cs_zero_input (settings_for 250000 0 0) = (1, 0) ∧
    ref_divider_range cs_zero_input (settings_for 250000 0 0) = .trap ∧
    ∀ fuel : Nat,
      calculate_pixel_clock_pll_dividers cs_zero_input (settings_for 250000 0 0) fuel =
        .trap := by
  refine ⟨by decide, by rfl, by rfl, fun fuel => ?_⟩
  have hr : ref_divider_range cs_zero_input (settings_for 250000 0 0) = .trap := rfl
  unfold calculate_pixel_clock_pll_dividers
  rw [hr]
  rfl

/-- C6, amended. With a nonzero target and a reference-divider range that
can be derived (the reference divider is pinned, or neither PLL
input-frequency bound is zero), both ranges are derived, and an inverted
post-divider or reference-divider range makes the call return
`MAX_PLL_CALC_ERROR` with the record unchanged, for every fuel (also none at
all, so no candidate is evaluated). -/
theorem inverted_range_rejected (cs : calc_pll_clock_source) (s : pll_settings)
    (ht : s.adjusted_pix_clk ≠ 0)
    (hdiv : s.reference_divider ≠ 0 ∨
      (cs.max_pll_input_freq_khz ≠ 0 ∧ cs.min_pll_input_freq_khz ≠ 0)) :
    ∃ rr, ref_divider_range cs s = .done rr ∧
      ((post_divider_range cs s).1 > (post_divider_range cs s).2 ∨ rr.1 > rr.2 →
        ∀ fuel : Nat,
          calculate_pixel_clock_pll_dividers cs s fuel = .done (MAX_PLL_CALC_ERROR, s)) := by
  have hex : ∃ rr, ref_divider_range cs s = .done rr := by
    by_cases hpin : s.reference_divider = 0
    · rcases hdiv with h | ⟨h1, h2⟩
      · exact absurd hpin h
      · exact ⟨(if cs.ref_freq_khz / cs.max_pll_input_freq_khz > cs.min_pll_ref_divider then
            cs.ref_freq_khz / cs.max_pll_input_freq_khz else cs.min_pll_ref_divider,
          if cs.ref_freq_khz / cs.min_pll_input_freq_khz < cs.max_pll_ref_divider then
            cs.ref_freq_khz / cs.min_pll_input_freq_khz else cs.max_pll_ref_divider),
          by simp [ref_divider_range, hpin, div_u64, h1, h2, Outcome.bind]⟩
    · exact ⟨(s.reference_divider, s.reference_divider), by simp [ref_divider_range, hpin]⟩
  obtain ⟨rr, hr⟩ := hex
  refine ⟨rr, hr, fun hinv fuel => ?_⟩
  unfold calculate_pixel_clock_pll_dividers
  simp only [ht, if_false, hr, Outcome.bind]
  rcases hinv with h | h
  · simp [h]
  · simp [h]

theorem inverted_range_rejected_witness :
    calculate_pixel_clock_pll_dividers cs_1080p (settings_for 250000 0 0) 0 =
      .done (MAX_PLL_CALC_ERROR, settings_for 250000 0 0) := by
  obtain ⟨rr, -, h⟩ := inverted_range_rejected cs_1080p (settings_for 250000 0 0) (by decide)
    (Or.inr ⟨by decide, by decide⟩)
  exact h (Or.inl (by decide)) 0

/-- C8. Pinned dividers are kept by a successful solve: past the guards, a
nonzero `pix_clk_post_divider` on entry is the post divider of the result and
a nonzero `reference_divider` on entry is its reference divider, whatever the
limits of the constraint set. -/
theorem pinned_dividers_honoured (cs : calc_pll_clock_source) (s s' : pll_settings)
    (rr : Nat × Nat) (fuel e : Nat)
    (hcs : cs.is_u32) (hs : s.is_u32)
    (ht : s.adjusted_pix_clk ≠ 0)
    (hp : (post_divider_range cs s).1 ≤ (post_divider_range cs s).2)
    (hr : ref_divider_range cs s = .done rr) (hrr : rr.1 ≤ rr.2)
    (h : calculate_pixel_clock_pll_dividers cs s fuel = .done (e, s')) :
    (s.pix_clk_post_divider ≠ 0 → s'.pix_clk_post_divider = s.pix_clk_post_divider) ∧
    (s.reference_divider ≠ 0 → s'.reference_divider = s.reference_divider) := by
  rw [calculate_pixel_clock_pll_dividers_eq_relax_loop ht hp hr hrr] at h
  obtain ⟨fuel', hpass⟩ := relax_loop_done _ _ _ _ _ h
  obtain ⟨p, r, hp1, hp2, hr1, hr2, hc⟩ :=
    calc_pll_dividers_in_range_true (ref_divider_range_fst_lt hcs hs hr) hrr
      (post_divider_range_snd_lt hcs hs) hpass
  obtain ⟨ok, fb, fr, actual, -, -, -, hs'⟩ := calc_fb_divider_checking_tolerance_true hc
  subst hs'
  constructor
  · intro hpin
    have hpr : post_divider_range cs s = (s.pix_clk_post_divider, s.pix_clk_post_divider) := by
      simp [post_divider_range, hpin]
    rw [hpr] at hp1 hp2
    simp only [] at hp1 hp2 ⊢
    omega
  · intro hpin
    have hrr' : ref_divider_range cs s = .done (s.reference_divider, s.reference_divider) := by
      simp [ref_divider_range, hpin]
    rw [hrr'] at hr
    cases hr
    simp only [] at hr1 hr2 ⊢
    omega

theorem pinned_dividers_honoured_witness :
    ((settings_for 148500 3 1).pix_clk_post_divider ≠ 0 →
      solved_1080p_pinned.pix_clk_post_divider = (settings_for 148500 3 1).pix_clk_post_divider) ∧
    ((settings_for 148500 3 1).reference_divider ≠ 0 →
      solved_1080p_pinned.reference_divider = (settings_for 148500 3 1).reference_divider) :=
  pinned_dividers_honoured cs_1080p (settings_for 148500 3 1) solved_1080p_pinned (3, 3) 3
    MAX_PLL_CALC_ERROR (by unfold calc_pll_clock_source.is_u32; decide)
    (by unfold pll_settings.is_u32; decide) (by decide) (by decide) (by rfl) (by decide) (by rfl)

/-! ## The derived divider ranges -/

theorem ceil_div_le_iff {m t p : Nat} (ht : 0 < t) : (m + t - 1) / t ≤ p ↔ m ≤ p * t := by
  rw [Nat.div_le_iff_le_mul_add_pred ht, Nat.mul_comm t p]
  omega

theorem floor_correction_eq_ceil (m t : Nat) (ht : 0 < t) :
    (if m / t * t < m then m / t + 1 else m / t) = (m + t - 1) / t := by
  have h1 : m / t * t ≤ m := Nat.div_mul_le_self m t
  have h2 : m < (m / t + 1) * t := by
    have := @Nat.lt_div_mul_add m t ht
    rw [Nat.add_mul]; omega
  have h3 : (m / t + 1) * t = m / t * t + t := by ring
  symm
  split
  · rename_i hlt
    apply Nat.le_antisymm
    · have : (m + t - 1) / t < m / t + 1 + 1 := by
        rw [Nat.div_lt_iff_lt_mul ht]
        have : (m / t + 1 + 1) * t = (m / t + 1) * t + t := by ring
        omega
      omega
    · rw [Nat.le_div_iff_mul_le ht]; omega
  · rename_i hge
    apply Nat.le_antisymm
    · rw [ceil_div_le_iff ht]; omega
    · rw [Nat.le_div_iff_mul_le ht]; omega

/-- C9. With a nonzero target `t`, no pinned post divider and the two 32-bit
products `min_post * t` and `max_post * t` not overflowing, the derived
post-divider range holds exactly the post dividers `p` within the limits of
the constraint set whose VCO frequency `p * t` lies in
`[min_vco_khz, max_vco_khz]`; the derived minimum is the ceiling of
`min_vco_khz / t` when the constraint floor is too small and the derived
maximum the floor of `max_vco_khz / t` when the constraint ceiling is too
large, and the ends of a non-inverted range are themselves admissible, hence
the least and the greatest admissible post divider. -/
theorem post_divider_range_admissible (cs : calc_pll_clock_source) (s : pll_settings)
    (ht : s.adjusted_pix_clk ≠ 0) (hpin : s.pix_clk_post_divider = 0)
    (hvco : cs.min_vco_khz < 2 ^ 32)
    (hmin : cs.min_pix_clock_pll_post_divider * s.adjusted_pix_clk < 2 ^ 32)
    (hmax : cs.max_pix_clock_pll_post_divider * s.adjusted_pix_clk < 2 ^ 32) :
    (∀ p : Nat,
      ((post_divider_range cs s).1 ≤ p ∧ p ≤ (post_divider_range cs s).2) ↔
      (cs.min_pix_clock_pll_post_divider ≤ p ∧ p ≤ cs.max_pix_clock_pll_post_divider ∧
        cs.min_vco_khz ≤ p * s.adjusted_pix_clk ∧ p * s.adjusted_pix_clk ≤ cs.max_vco_khz)) ∧
    (cs.min_pix_clock_pll_post_divider * s.adjusted_pix_clk < cs.min_vco_khz →
      (post_divider_range cs s).1 = (cs.min_vco_khz + s.adjusted_pix_clk - 1) / s.adjusted_pix_clk) ∧
    (cs.max_vco_khz < cs.max_pix_clock_pll_post_divider * s.adjusted_pix_clk →
      (post_divider_range cs s).2 = cs.max_vco_khz / s.adjusted_pix_clk) ∧
    ((post_divider_range cs s).1 ≤ (post_divider_range cs s).2 →
      ∀ p : Nat, p = (post_divider_range cs s).1 ∨ p = (post_divider_range cs s).2 →
        cs.min_pix_clock_pll_post_divider ≤ p ∧ p ≤ cs.max_pix_clock_pll_post_divider ∧
        cs.min_vco_khz ≤ p * s.adjusted_pix_clk ∧ p * s.adjusted_pix_clk ≤ cs.max_vco_khz) := by
  have htp : 0 < s.adjusted_pix_clk := Nat.pos_of_ne_zero ht
  have hq : cs.min_vco_khz / s.adjusted_pix_clk * s.adjusted_pix_clk ≤ cs.min_vco_khz :=
    Nat.div_mul_le_self _ _
  have hq1 : cs.min_vco_khz / s.adjusted_pix_clk ≤
      cs.min_vco_khz / s.adjusted_pix_clk * s.adjusted_pix_clk :=
    Nat.le_mul_of_pos_right _ htp
  -- the derived minimum
  have hlo : (post_divider_range cs s).1 =
      if cs.min_pix_clock_pll_post_divider * s.adjusted_pix_clk < cs.min_vco_khz then
        (cs.min_vco_khz + s.adjusted_pix_clk - 1) / s.adjusted_pix_clk
      else cs.min_pix_clock_pll_post_divider := by
    simp only [post_divider_range, hpin, ne_eq, not_true_eq_false, if_false]
    rw [u32_of_lt hmin, u32_of_lt (lt_of_le_of_lt hq hvco)]
    split
    · rw [← floor_correction_eq_ceil _ _ htp]
      split
      · exact u32_of_lt (by omega)
      · rfl
    · rfl
  -- the derived maximum
  have hhi : (post_divider_range cs s).2 =
      if cs.max_vco_khz < cs.max_pix_clock_pll_post_divider * s.adjusted_pix_clk then
        cs.max_vco_khz / s.adjusted_pix_clk
      else cs.max_pix_clock_pll_post_divider := by
    simp only [post_divider_range, hpin, ne_eq, not_true_eq_false, if_false]
    rw [u32_of_lt hmax]
  have key : ∀ p : Nat,
      ((post_divider_range cs s).1 ≤ p ∧ p ≤ (post_divider_range cs s).2) ↔
      (cs.min_pix_clock_pll_post_divider ≤ p ∧ p ≤ cs.max_pix_clock_pll_post_divider ∧
        cs.min_vco_khz ≤ p * s.adjusted_pix_clk ∧ p * s.adjusted_pix_clk ≤ cs.max_vco_khz) := by
    intro p
    rw [hlo, hhi]
    have lower : (if cs.min_pix_clock_pll_post_divider * s.adjusted_pix_clk < cs.min_vco_khz then
          (cs.min_vco_khz + s.adjusted_pix_clk - 1) / s.adjusted_pix_clk
        else cs.min_pix_clock_pll_post_divider) ≤ p ↔
        (cs.min_pix_clock_pll_post_divider ≤ p ∧ cs.min_vco_khz ≤ p * s.adjusted_pix_clk) := by
      split
      · rename_i hlt
        rw [ceil_div_le_iff htp]
        constructor
        · intro h
          refine ⟨?_, h⟩
          exact le_of_lt (Nat.lt_of_mul_lt_mul_right (lt_of_lt_of_le hlt h))
        · exact fun h => h.2
      · rename_i hge
        constructor
        · intro h
          exact ⟨h, le_trans (Nat.not_lt.1 hge) (Nat.mul_le_mul_right _ h)⟩
        · exact fun h => h.1
    have upper : p ≤ (if cs.max_vco_khz < cs.max_pix_clock_pll_post_divider * s.adjusted_pix_clk then
          cs.max_vco_khz / s.adjusted_pix_clk
        else cs.max_pix_clock_pll_post_divider) ↔
        (p ≤ cs.max_pix_clock_pll_post_divider ∧ p * s.adjusted_pix_clk ≤ cs.max_vco_khz) := by
      split
      · rename_i hlt
        rw [Nat.le_div_iff_mul_le htp]
        constructor
        · intro h
          refine ⟨?_, h⟩
          exact le_of_lt (Nat.lt_of_mul_lt_mul_right (lt_of_le_of_lt h hlt))
        · exact fun h => h.2
      · rename_i hge
        constructor
        · intro h
          exact ⟨h, le_trans (Nat.mul_le_mul_right _ h) (Nat.not_lt.1 hge)⟩
        · exact fun h => h.1
    rw [lower, upper]
    tauto
  refine ⟨key, fun h => by rw [hlo, if_pos h], fun h => by rw [hhi, if_pos h], ?_⟩
  intro hne p hp
  rcases hp with hp | hp
  · exact (key p).1 ⟨le_of_eq hp.symm, hp ▸ hne⟩
  · exact (key p).1 ⟨hp ▸ hne, le_of_eq hp⟩

/-! ## Behaviour at particular inputs -/

theorem post_divider_range_admissible_witness :
    ((post_divider_range cs_wide (settings_for 148500 0 0)).1 ≤ 6 ∧
      6 ≤ (post_divider_range cs_wide (settings_for 148500 0 0)).2) ↔
    (cs_wide.min_pix_clock_pll_post_divider ≤ 6 ∧ 6 ≤ cs_wide.max_pix_clock_pll_post_divider ∧
      cs_wide.min_vco_khz ≤ 6 * (settings_for 148500 0 0).adjusted_pix_clk ∧
      6 * (settings_for 148500 0 0).adjusted_pix_clk ≤ cs_wide.max_vco_khz) :=
  (post_divider_range_admissible cs_wide (settings_for 148500 0 0) (by decide) (by decide)
    (by decide) (by decide) (by decide)).1 6

/-- No basis-point tolerance gives an absolute tolerance above
`(2 ^ 32 - 1) / 10000`: the product is reduced to 32 bits first. -/
theorem abs_tolerance_le_ceiling (t e : Nat) : abs_tolerance t e ≤ 429496 := by
  unfold abs_tolerance CALC_PLL_CLK_SRC_ERR_TOLERANCE
  have h : u32 (t * e) / 10000 ≤ (2 ^ 32 - 1) / 10000 :=
    Nat.div_le_div_right (Nat.le_pred_of_lt (u32_lt _))
  norm_num at h
  simp only []
  split <;> omega

theorem overflow_candidate_rejected (tol : Nat) (h : tol ≤ 429496) :
    calc_fb_divider_checking_tolerance cs_overflow settings_overflow 4 1 tol =
      .done (false, settings_overflow) := by
  have e1 : calculate_fb_and_fractional_fb_divider cs_overflow
      settings_overflow.adjusted_pix_clk 4 1 = .done (false, 0, 0) := by rfl
  have e2 : actual_calculated_clock_khz cs_overflow 4 1 0 0 = .done 0 := by rfl
  have e3 : abs_err 0 settings_overflow.adjusted_pix_clk = 1073741824 := by rfl
  unfold calc_fb_divider_checking_tolerance
  rw [e1]
  simp only [Outcome.bind, e2, e3]
  rw [if_neg (by omega)]

theorem overflow_pass_fails (err fuel : Nat) :
    calc_pll_dividers_in_range cs_overflow settings_overflow 4 4 1 1 err fuel = .spin ∨
    calc_pll_dividers_in_range cs_overflow settings_overflow 4 4 1 1 err fuel =
      .done (false, settings_overflow) := by
  have hc := overflow_candidate_rejected _
    (abs_tolerance_le_ceiling settings_overflow.adjusted_pix_clk err)
  unfold calc_pll_dividers_in_range
  rcases fuel with _ | _ | _ | fuel
  · left; rfl
  · left; rfl
  · left
    simp [post_divider_loop, ref_divider_loop, hc, Outcome.bind]
  · right
    simp [post_divider_loop, ref_divider_loop, hc, Outcome.bind, u32]

/-- A relaxation loop none of whose passes succeeds exhausts every fuel. -/
theorem relax_loop_spin {cs : calc_pll_clock_source} {s : pll_settings}
    {minr maxr minp maxp : Nat}
    (hpass : ∀ err fuel,
      calc_pll_dividers_in_range cs s minr maxr minp maxp err fuel = .spin ∨
      calc_pll_dividers_in_range cs s minr maxr minp maxp err fuel = .done (false, s)) :
    ∀ fuel err, relax_loop cs minr maxr minp maxp fuel err s = .spin := by
  intro fuel
  induction fuel with
  | zero => intro err; rfl
  | succ n ih =>
    intro err
    rw [relax_loop]
    rcases hpass err n with h | h
    · rw [h]; rfl
    · rw [h]; simp [Outcome.bind, ih]

/-- C1, at the failing input. Constraint set `cs_overflow` (27 MHz crystal,
six decimal digits, post divider 1, reference divider 4, VCO 1.0 to 1.1 THz)
and target `2 ^ 30` kHz: both derived ranges are non-inverted, yet the call
returns for no fuel, that is the relaxation loop runs for ever.  The 32-bit
product `target * 4 * 1` wraps to zero, the only candidate is off by
`2 ^ 30` kHz, and no tolerance passes `(2 ^ 32 - 1) / 10000`. -/
theorem solve_spins_on_wrapped_product :
    settings_overflow.adjusted_pix_clk ≠ 0 ∧
    post_divider_range cs_overflow settings_overflow = (1, 1) ∧
    ref_divider_range cs_overflow settings_overflow = .done (4, 4) ∧
    ∀ fuel : Nat,
      calculate_pixel_clock_pll_dividers cs_overflow settings_overflow fuel = .spin := by
  refine ⟨by decide, by rfl, by rfl, fun fuel => ?_⟩
  have hr : ref_divider_range cs_overflow settings_overflow = .done (4, 4) := rfl
  rw [calculate_pixel_clock_pll_dividers_eq_relax_loop (by decide) (by decide) hr (by decide)]
  exact relax_loop_spin overflow_pass_fails fuel _

/-- C3, at the failing input. Under `cs_ref_1080` the solve for 148500 kHz
succeeds with feedback divider 5940 and stores `calculated_pix_clk = 41125`,
while the exact formula on the stored tuple gives 148500: the product
`feedback_divider * fract_fb_divider_factor` is formed in 32 bits. -/
theorem round_trip_fails_on_wrapped_product :
    calculate_pixel_clock_pll_dividers cs_ref_1080 (settings_for 148500 0 0) 3 =
      .done (MAX_PLL_CALC_ERROR, solved_ref_1080) ∧
    solved_ref_1080.calculated_pix_clk = 41125 ∧
    (solved_ref_1080.feedback_divider * cs_ref_1080.fract_fb_divider_factor +
        solved_ref_1080.fract_feedback_divider) * cs_ref_1080.ref_freq_khz /
      (solved_ref_1080.reference_divider * solved_ref_1080.pix_clk_post_divider *
        cs_ref_1080.fract_fb_divider_factor) = 148500 := by
  refine ⟨by rfl, by rfl, by rfl⟩

/-- C4, at the failing input. The 1080p solve passes all three guards, its
first pass succeeds and writes the dividers, and the value returned is
`MAX_PLL_CALC_ERROR`, the very value of the failure returns. -/
theorem first_pass_success_returns_sentinel :
    (settings_for 148500 0 0).adjusted_pix_clk ≠ 0 ∧
    post_divider_range cs_1080p (settings_for 148500 0 0) = (1, 1) ∧
    ref_divider_range cs_1080p (settings_for 148500 0 0) = .done (1, 2) ∧
    calculate_pixel_clock_pll_dividers cs_1080p (settings_for 148500 0 0) 3 =
      .done (MAX_PLL_CALC_ERROR, solved_1080p) ∧
    solved_1080p ≠ settings_for 148500 0 0 := by
  refine ⟨by decide, by rfl, by rfl, by rfl, by decide⟩

/-- C7, refuted as stated. Reference divider 3 is pinned, outside the bounds
`[1, 2]` of `cs_1080p`; the call does not fail at once (with no fuel it is
already inside the search loop) and its first pass writes reference divider 3
into the record. -/
theorem pinned_reference_divider_outside_bounds_is_searched :
    (settings_for 148500 3 0).adjusted_pix_clk ≠ 0 ∧
    (settings_for 148500 3 0).reference_divider ≠ 0 ∧
    cs_1080p.max_pll_ref_divider < (settings_for 148500 3 0).reference_divider ∧
    calculate_pixel_clock_pll_dividers cs_1080p (settings_for 148500 3 0) 0 = .spin ∧
    calculate_pixel_clock_pll_dividers cs_1080p (settings_for 148500 3 0) 3 =
      .done (MAX_PLL_CALC_ERROR, solved_1080p_ref_3) ∧
    solved_1080p_ref_3.reference_divider = 3 ∧
    ¬ ∀ fuel : Nat, calculate_pixel_clock_pll_dividers cs_1080p (settings_for 148500 3 0) fuel =
      .done (MAX_PLL_CALC_ERROR, settings_for 148500 3 0) := by
  refine ⟨by decide, by decide, by decide, by rfl, by rfl, by rfl, fun h => ?_⟩
  have h0 := h 0
  rw [show calculate_pixel_clock_pll_dividers cs_1080p (settings_for 148500 3 0) 0 = .spin
    from rfl] at h0
  cases h0

/-- C7, amended. A nonzero pinned reference divider `r` is not checked
against the bounds of the constraint set: with a nonzero target the derived
reference range is `[r, r]`, never inverted; the call returns
`MAX_PLL_CALC_ERROR` at once when the derived post-divider range is inverted,
and otherwise it is the relaxation loop over reference divider `r`. -/
theorem pinned_reference_divider_collapses_range (cs : calc_pll_clock_source)
    (s : pll_settings) (fuel : Nat)
    (ht : s.adjusted_pix_clk ≠ 0) (hpin : s.reference_divider ≠ 0) :
    ref_divider_range cs s = .done (s.reference_divider, s.reference_divider) ∧
    ((post_divider_range cs s).1 > (post_divider_range cs s).2 →
      calculate_pixel_clock_pll_dividers cs s fuel = .done (MAX_PLL_CALC_ERROR, s)) ∧
    ((post_divider_range cs s).1 ≤ (post_divider_range cs s).2 →
      calculate_pixel_clock_pll_dividers cs s fuel =
        relax_loop cs s.reference_divider s.reference_divider (post_divider_range cs s).1
          (post_divider_range cs s).2 fuel MAX_PLL_CALC_ERROR s) := by
  have hr : ref_divider_range cs s = .done (s.reference_divider, s.reference_divider) := by
    simp [ref_divider_range, hpin]
  refine ⟨hr, fun h => ?_, fun h => ?_⟩
  · unfold calculate_pixel_clock_pll_dividers
    simp [ht, hr, Outcome.bind, h]
  · exact calculate_pixel_clock_pll_dividers_eq_relax_loop ht h hr (le_refl _) fuel

theorem pinned_reference_divider_collapses_range_witness :
    ref_divider_range cs_1080p (settings_for 148500 3 0) = .done (3, 3) ∧
    calculate_pixel_clock_pll_dividers cs_1080p (settings_for 148500 3 0) 3 =
      relax_loop cs_1080p 3 3 1 1 3 MAX_PLL_CALC_ERROR (settings_for 148500 3 0) :=
  have h := pinned_reference_divider_collapses_range cs_1080p (settings_for 148500 3 0) 3
    (by decide) (by decide)
  ⟨h.1, h.2.2 (by decide)⟩

/-- C10, at the failing input. With a 27 MHz crystal and PLL input bounds of
1 MHz and 10 MHz the derived reference range is `[2, 27]`; reference divider
2 gives a PLL input of 13.5 MHz, above the maximum, and the solve selects it.
The lower end is the floor of `ref_freq_khz / max_pll_input_freq_khz`, not
its ceiling. -/
theorem ref_divider_range_floor_exceeds_max_input :
    ref_divider_range cs_input_10mhz (settings_for 148500 0 0) = .done (2, 27) ∧
    cs_input_10mhz.max_pll_input_freq_khz * 2 < cs_input_10mhz.ref_freq_khz ∧
    calculate_pixel_clock_pll_dividers cs_input_10mhz (settings_for 148500 0 0) 3 =
      .done (MAX_PLL_CALC_ERROR, solved_input_10mhz) ∧
    solved_input_10mhz.reference_divider = 2 := by
  refine ⟨by rfl, by decide, by rfl, by rfl⟩

/-! ## Claims about the candidate evaluation -/

/-- C11, at the failing input. Target `2 ^ 30` kHz, reference divider 4, post
divider 1 under `cs_1080p` (27 MHz crystal, `factor = 10 ^ 6`, precision
factor 1): the function stores feedback divider 0 and fractional part 0 and
returns false, while the round-half-up quantisation of the exact quotient is
159072862815.  The product `target * ref * post` is formed in 32 bits and
wraps to zero. -/
theorem feedback_divider_lost_on_wrapped_product :
    calculate_fb_and_fractional_fb_divider cs_1080p 1073741824 4 1 = .done (false, 0, 0) ∧
    cs_1080p.fract_fb_divider_precision_factor *
      ((2 * (1073741824 * 4 * 1 * cs_1080p.fract_fb_divider_factor) +
          cs_1080p.ref_freq_khz * cs_1080p.fract_fb_divider_precision_factor) /
        (2 * (cs_1080p.ref_freq_khz * cs_1080p.fract_fb_divider_precision_factor))) =
      159072862815 ∧
    0 * cs_1080p.fract_fb_divider_factor + 0 ≠ 159072862815 := by
  refine ⟨by rfl, by rfl, by decide⟩

/-- C12, refuted as stated. Under `cs_tenths` the candidate (reference divider
1, post divider 2) for the target `2 ^ 31 - 1` kHz is accepted at tolerance
1000 with achieved frequency 2147484150; the record then holds
`vco_freq = 1004`, not `2147484150 * 2`. -/
theorem accepted_candidate_vco_freq_wraps :
    calc_fb_divider_checking_tolerance cs_tenths (settings_for 2147483647 0 0) 1 2 1000 =
      .done (true, accepted_tenths) ∧
    accepted_tenths.calculated_pix_clk = 2147484150 ∧
    accepted_tenths.vco_freq = 1004 ∧
    accepted_tenths.vco_freq ≠ accepted_tenths.calculated_pix_clk * 2 := by
  refine ⟨by rfl, by rfl, by rfl, by decide⟩

/-- C12, amended. When the feedback dividers and the achieved frequency are
computed, `calc_fb_divider_checking_tolerance` returns true exactly when
`|achieved - adjusted_pix_clk| ≤ tolerance`; it then writes the reference
frequency, both dividers, the computed feedback dividers, the achieved
frequency and `vco_freq = achieved * post_divider` reduced to 32 bits (the
product itself when that is below `2 ^ 32`), every other field unchanged;
otherwise it returns false with the record unchanged. -/
theorem candidate_accepted_iff_within_tolerance (cs : calc_pll_clock_source) (s : pll_settings)
    (ref_divider post_divider tolerance fb fr achieved : Nat) (ok : Bool)
    (hfb : calculate_fb_and_fractional_fb_divider cs s.adjusted_pix_clk ref_divider
      post_divider = .done (ok, fb, fr))
    (hach : actual_calculated_clock_khz cs ref_divider post_divider fb fr = .done achieved) :
    ((∃ s', calc_fb_divider_checking_tolerance cs s ref_divider post_divider tolerance =
        .done (true, s')) ↔
      |(achieved : Int) - (s.adjusted_pix_clk : Int)| ≤ (tolerance : Int)) ∧
    (|(achieved : Int) - (s.adjusted_pix_clk : Int)| ≤ (tolerance : Int) →
      calc_fb_divider_checking_tolerance cs s ref_divider post_divider tolerance =
        .done (true,
          { s with
            reference_freq := cs.ref_freq_khz
            reference_divider := ref_divider
            feedback_divider := fb
            fract_feedback_divider := fr
            pix_clk_post_divider := post_divider
            calculated_pix_clk := achieved
            vco_freq := achieved * post_divider % 2 ^ 32 })) ∧
    (¬ |(achieved : Int) - (s.adjusted_pix_clk : Int)| ≤ (tolerance : Int) →
      calc_fb_divider_checking_tolerance cs s ref_divider post_divider tolerance =
        .done (false, s)) ∧
    (achieved * post_divider < 2 ^ 32 →
      achieved * post_divider % 2 ^ 32 = achieved * post_divider) := by
  have hiff : |(achieved : Int) - (s.adjusted_pix_clk : Int)| ≤ (tolerance : Int) ↔
      abs_err achieved s.adjusted_pix_clk ≤ tolerance := by
    rw [← abs_err_eq_abs]; exact Int.ofNat_le
  have hyes : abs_err achieved s.adjusted_pix_clk ≤ tolerance →
      calc_fb_divider_checking_tolerance cs s ref_divider post_divider tolerance =
        .done (true,
          { s with
            reference_freq := cs.ref_freq_khz
            reference_divider := ref_divider
            feedback_divider := fb
            fract_feedback_divider := fr
            pix_clk_post_divider := post_divider
            calculated_pix_clk := achieved
            vco_freq := achieved * post_divider % 2 ^ 32 }) := by
    intro h
    simp [calc_fb_divider_checking_tolerance, hfb, hach, Outcome.bind, h, u32]
  have hno : ¬ abs_err achieved s.adjusted_pix_clk ≤ tolerance →
      calc_fb_divider_checking_tolerance cs s ref_divider post_divider tolerance =
        .done (false, s) := by
    intro h
    simp [calc_fb_divider_checking_tolerance, hfb, hach, Outcome.bind, h]
  refine ⟨?_, fun h => hyes (hiff.1 h), fun h => hno (fun h' => h (hiff.2 h')),
    fun h => Nat.mod_eq_of_lt h⟩
  rw [hiff]
  constructor
  · rintro ⟨s', hs'⟩
    by_contra hcon
    rw [hno hcon] at hs'
    cases hs'
  · exact fun h => ⟨_, hyes h⟩

theorem candidate_accepted_iff_within_tolerance_witness :
    calc_fb_divider_checking_tolerance cs_1080p (settings_for 148500 0 0) 1 1 1 =
      .done (true, solved_1080p) :=
  (candidate_accepted_iff_within_tolerance cs_1080p (settings_for 148500 0 0) 1 1 1 5 500000
    148500 true (by rfl) (by rfl)).2.1 (by decide)

/-- C13. A candidate evaluation that returns false returns the record it was
given, and so does a call of `calc_pll_dividers_in_range` that returns
false. -/
theorem rejected_candidate_leaves_no_trace (cs : calc_pll_clock_source) (s s1 s2 : pll_settings)
    (ref_divider post_divider tolerance : Nat)
    (min_ref max_ref min_post max_post err_tolerance fuel : Nat) :
    (calc_fb_divider_checking_tolerance cs s ref_divider post_divider tolerance =
        .done (false, s1) → s1 = s) ∧
    (calc_pll_dividers_in_range cs s min_ref max_ref min_post max_post err_tolerance fuel =
        .done (false, s2) → s2 = s) :=
  ⟨calc_fb_divider_checking_tolerance_false, calc_pll_dividers_in_range_false⟩

theorem rejected_candidate_leaves_no_trace_witness :
    settings_overflow = settings_overflow ∧ settings_overflow = settings_overflow :=
  ⟨(rejected_candidate_leaves_no_trace cs_overflow settings_overflow settings_overflow
      settings_overflow 4 1 1 4 4 1 1 25 3).1 (by rfl),
   (rejected_candidate_leaves_no_trace cs_overflow settings_overflow settings_overflow
      settings_overflow 4 1 1 4 4 1 1 25 3).2 (by rfl)⟩

/-! ## The 1080p scenario -/

/-- C16. The 1080p scenario: 27 MHz crystal, `factor = 10 ^ 6`, precision
factor 1, post-divider limits `[1, 1]`, reference-divider limits `[1, 2]`, PLL
input bounds `[13500, 27000]`, `min_vco_khz ≤ 148500 ≤ max_vco_khz`, target
148500 kHz and no pinned divider.  With fuel 3 or more the call returns after
its first pass, with reference divider 1, post divider 1, feedback divider 5,
fractional feedback divider 500000 and achieved frequency 148500, every other
field of the record unchanged; the value returned is the initial tolerance
`MAX_PLL_CALC_ERROR`. -/
theorem solve_1080p_scenario (cs : calc_pll_clock_source) (s : pll_settings) (fuel : Nat)
    (href : cs.ref_freq_khz = 27000)
    (hfactor : cs.fract_fb_divider_factor = 1000000)
    (hpf : cs.fract_fb_divider_precision_factor = 1)
    (hminp : cs.min_pix_clock_pll_post_divider = 1)
    (hmaxp : cs.max_pix_clock_pll_post_divider = 1)
    (hminr : cs.min_pll_ref_divider = 1)
    (hmaxr : cs.max_pll_ref_divider = 2)
    (hmini : cs.min_pll_input_freq_khz = 13500)
    (hmaxi : cs.max_pll_input_freq_khz = 27000)
    (hminv : cs.min_vco_khz ≤ 148500)
    (hmaxv : 148500 ≤ cs.max_vco_khz)
    (ht : s.adjusted_pix_clk = 148500)
    (hpr : s.reference_divider = 0)
    (hpp : s.pix_clk_post_divider = 0)
    (hfuel : 3 ≤ fuel) :
    calculate_pixel_clock_pll_dividers cs s fuel =
      .done (MAX_PLL_CALC_ERROR,
        { s with
          reference_freq := 27000
          reference_divider := 1
          feedback_divider := 5
          fract_feedback_divider := 500000
          pix_clk_post_divider := 1
          calculated_pix_clk := 148500
          vco_freq := 148500 }) ∧
    |((148500 : Nat) : Int) - (s.adjusted_pix_clk : Int)| ≤ 1 := by
  obtain ⟨n, rfl⟩ : ∃ n, fuel = n + 3 := ⟨fuel - 3, by omega⟩
  have hpost : post_divider_range cs s = (1, 1) := by
    simp [post_divider_range, hpp, hminp, hmaxp, ht, u32, Nat.not_lt.2 hminv, Nat.not_lt.2 hmaxv]
  have hrr : ref_divider_range cs s = .done (1, 2) := by
    simp [ref_divider_range, hpr, href, hmini, hmaxi, hminr, hmaxr, div_u64, Outcome.bind]
  have hfb : calculate_fb_and_fractional_fb_divider cs s.adjusted_pix_clk 1 1 =
      .done (true, 5, 500000) := by
    simp [calculate_fb_and_fractional_fb_divider, ht, href, hfactor, hpf, u32, u64, div_u64,
      div_u64_rem, Outcome.bind]
  have hact : actual_calculated_clock_khz cs 1 1 5 500000 = .done 148500 := by
    simp [actual_calculated_clock_khz, href, hfactor, u32, u64, div_u64, Outcome.bind]
  have htol : abs_tolerance s.adjusted_pix_clk MAX_PLL_CALC_ERROR = 429481 := by
    rw [ht]; rfl
  have hcand : calc_fb_divider_checking_tolerance cs s 1 1 429481 =
      .done (true,
        { s with
          reference_freq := 27000
          reference_divider := 1
          feedback_divider := 5
          fract_feedback_divider := 500000
          pix_clk_post_divider := 1
          calculated_pix_clk := 148500
          vco_freq := 148500 }) := by
    rw [ht] at hfb
    simp [calc_fb_divider_checking_tolerance, hfb, hact, Outcome.bind, ht, abs_err, href, u32]
  constructor
  · rw [calculate_pixel_clock_pll_dividers_eq_relax_loop (by rw [ht]; decide)
      (by rw [hpost]) hrr (by decide)]
    rw [hpost]
    simp [relax_loop, calc_pll_dividers_in_range, post_divider_loop, ref_divider_loop, htol,
      hcand, Outcome.bind]
  · rw [ht]; decide

theorem solve_1080p_scenario_witness :
    calculate_pixel_clock_pll_dividers cs_1080p (settings_for 148500 0 0) 3 =
      .done (MAX_PLL_CALC_ERROR, solved_1080p) ∧
    |((148500 : Nat) : Int) - ((settings_for 148500 0 0).adjusted_pix_clk : Int)| ≤ 1 :=
  solve_1080p_scenario cs_1080p (settings_for 148500 0 0) 3 rfl rfl rfl rfl rfl rfl rfl rfl rfl
    (by decide) (by decide) rfl rfl rfl (by decide)

/-! ## Selection of a capability entry -/

theorem ss_entry_scan_eq_none {pix : Nat} :
    ∀ l : List spread_spectrum_data,
      ss_entry_scan pix l = none ↔ ∀ e ∈ l, e.freq_range_khz < pix := by
  intro l
  induction l with
  | nil => simp [ss_entry_scan]
  | cons a rest ih =>
    rw [ss_entry_scan]
    split
    · rename_i h
      simp only [List.mem_cons, forall_eq_or_imp]
      constructor
      · intro h'; cases h'
      · intro h'
        have := h'.1
        omega
    · rename_i h
      rw [ih]
      simp only [List.mem_cons, forall_eq_or_imp]
      constructor
      · exact fun h' => ⟨by omega, h'⟩
      · exact fun h' => h'.2

theorem ss_entry_scan_eq_some {pix : Nat} :
    ∀ (l : List spread_spectrum_data) (e : spread_spectrum_data),
      ss_entry_scan pix l = some e →
      ∃ i : Nat, l[i]? = some e ∧ pix ≤ e.freq_range_khz ∧
        ∀ (j : Nat) (e' : spread_spectrum_data), j < i → l[j]? = some e' →
          e'.freq_range_khz < pix := by
  intro l
  induction l with
  | nil => intro e h; simp [ss_entry_scan] at h
  | cons a rest ih =>
    intro e h
    rw [ss_entry_scan] at h
    split at h
    · rename_i hge
      cases h
      exact ⟨0, by simp, hge, fun j e' hj => absurd hj (Nat.not_lt_zero j)⟩
    · rename_i hlt
      obtain ⟨i, h1, h2, h3⟩ := ih e h
      refine ⟨i + 1, by simpa using h1, h2, ?_⟩
      intro j e' hj hje
      cases j with
      | zero =>
        simp at hje
        subst hje
        omega
      | succ k =>
        simp at hje
        exact h3 k e' (by omega) hje

theorem ss_entry_scan_least_bound {pix : Nat} :
    ∀ (l : List spread_spectrum_data) (e : spread_spectrum_data),
      l.Pairwise (fun a b => a.freq_range_khz ≤ b.freq_range_khz) →
      ss_entry_scan pix l = some e →
      ∀ e' ∈ l, pix ≤ e'.freq_range_khz → e.freq_range_khz ≤ e'.freq_range_khz := by
  intro l
  induction l with
  | nil => intro e _ h; simp [ss_entry_scan] at h
  | cons a rest ih =>
    intro e hs h e' he' hpix
    rw [List.pairwise_cons] at hs
    rw [ss_entry_scan] at h
    split at h
    · cases h
      rcases List.mem_cons.1 he' with rfl | hmem
      · exact le_refl _
      · exact hs.1 e' hmem
    · rename_i hlt
      rcases List.mem_cons.1 he' with rfl | hmem
      · omega
      · exact ih e hs.2 h e' hmem hpix

/-- C17. `get_ss_data_entry` returns the first fitting entry of the table the
signal type selects (an absent table counting as empty): the result is none
exactly when no entry has a bound at least the target; a returned entry sits
at the least index whose bound is at least the target; and on a table sorted
ascending by bound no entry with a bound at least the target has a smaller
bound than the returned one. -/
theorem get_ss_data_entry_first_fit (clk_src : dce110_clk_src) (signal : signal_type)
    (pix_clk_khz : Nat) :
    (get_ss_data_entry clk_src signal pix_clk_khz = none ↔
      ∀ e ∈ (ss_params_of_signal clk_src signal).getD [], e.freq_range_khz < pix_clk_khz) ∧
    (∀ e, get_ss_data_entry clk_src signal pix_clk_khz = some e →
      ∃ i : Nat, ((ss_params_of_signal clk_src signal).getD [])[i]? = some e ∧
        pix_clk_khz ≤ e.freq_range_khz ∧
        ∀ (j : Nat) (e' : spread_spectrum_data), j < i →
          ((ss_params_of_signal clk_src signal).getD [])[j]? = some e' →
          e'.freq_range_khz < pix_clk_khz) ∧
    (((ss_params_of_signal clk_src signal).getD []).Pairwise
        (fun a b => a.freq_range_khz ≤ b.freq_range_khz) →
      ∀ e, get_ss_data_entry clk_src signal pix_clk_khz = some e →
        ∀ e' ∈ (ss_params_of_signal clk_src signal).getD [],
          pix_clk_khz ≤ e'.freq_range_khz → e.freq_range_khz ≤ e'.freq_range_khz) := by
  unfold get_ss_data_entry
  cases htab : ss_params_of_signal clk_src signal with
  | none =>
    simp
  | some l =>
    simp only [Option.getD_some]
    exact ⟨ss_entry_scan_eq_none l, ss_entry_scan_eq_some l,
      fun hs e h => ss_entry_scan_least_bound l e hs h⟩

theorem get_ss_data_entry_first_fit_witness :
    ∀ e' ∈ (ss_params_of_signal clk_src_hdmi .SIGNAL_TYPE_HDMI_TYPE_A).getD [],
      148500 ≤ e'.freq_range_khz → (ss_entry 200000).freq_range_khz ≤ e'.freq_range_khz :=
  (get_ss_data_entry_first_fit clk_src_hdmi .SIGNAL_TYPE_HDMI_TYPE_A 148500).2.2
    (by decide) (ss_entry 200000) (by rfl)

/-! ## Monotonicity of the search in the tolerance -/

/-- An accepted candidate is accepted, with the same record, at every larger
absolute tolerance. -/
theorem calc_fb_divider_checking_tolerance_mono_true {cs : calc_pll_clock_source}
    {s s1 : pll_settings} {r p tol tol' : Nat} (hle : tol ≤ tol')
    (h : calc_fb_divider_checking_tolerance cs s r p tol = .done (true, s1)) :
    calc_fb_divider_checking_tolerance cs s r p tol' = .done (true, s1) := by
  obtain ⟨ok, fb, fr, actual, hfb, hact, herr, hs⟩ := calc_fb_divider_checking_tolerance_true h
  subst hs
  simp [calc_fb_divider_checking_tolerance, hfb, hact, Outcome.bind, le_trans herr hle]

/-- A rejected candidate is, at a larger absolute tolerance, rejected again
or accepted. -/
theorem calc_fb_divider_checking_tolerance_mono_false {cs : calc_pll_clock_source}
    {s s' : pll_settings} {r p tol : Nat} (tol' : Nat)
    (h : calc_fb_divider_checking_tolerance cs s r p tol = .done (false, s')) :
    calc_fb_divider_checking_tolerance cs s r p tol' = .done (false, s) ∨
    ∃ s2, calc_fb_divider_checking_tolerance cs s r p tol' = .done (true, s2) := by
  unfold calc_fb_divider_checking_tolerance at h ⊢
  obtain ⟨a, ha, h⟩ := Outcome.bind_eq_done.1 h
  obtain ⟨b, hb, -⟩ := Outcome.bind_eq_done.1 h
  simp only [ha, hb, Outcome.bind]
  split
  · exact Or.inr ⟨_, rfl⟩
  · exact Or.inl rfl

/-- The dividers an accepted candidate writes. -/
theorem calc_fb_divider_checking_tolerance_dividers {cs : calc_pll_clock_source}
    {s s1 : pll_settings} {r p tol : Nat}
    (h : calc_fb_divider_checking_tolerance cs s r p tol = .done (true, s1)) :
    s1.reference_divider = r ∧ s1.pix_clk_post_divider = p := by
  obtain ⟨ok, fb, fr, actual, -, -, -, hs⟩ := calc_fb_divider_checking_tolerance_true h
  subst hs
  exact ⟨rfl, rfl⟩

theorem ref_divider_loop_mono {cs : calc_pll_clock_source} {p maxr tol tol' : Nat}
    (hle : tol ≤ tol') :
    ∀ (fuel r : Nat) (s : pll_settings), r < 2 ^ 32 →
      (∀ s1, ref_divider_loop cs p maxr tol fuel r s = .done (true, s1) →
        ∃ s2, ref_divider_loop cs p maxr tol' fuel r s = .done (true, s2) ∧
          s2.pix_clk_post_divider = p ∧ s1.pix_clk_post_divider = p ∧
          s2.reference_divider ≤ s1.reference_divider) ∧
      (∀ s', ref_divider_loop cs p maxr tol fuel r s = .done (false, s') →
        ref_divider_loop cs p maxr tol' fuel r s = .done (false, s) ∨
        ∃ s2, ref_divider_loop cs p maxr tol' fuel r s = .done (true, s2)) := by
  intro fuel
  induction fuel with
  | zero =>
    intro r s _
    constructor <;> intro s1 h <;> simp [ref_divider_loop] at h
  | succ n ih =>
    intro r s hr
    constructor
    · intro s1 h
      obtain ⟨r1, hr1, -, hc1⟩ := ref_divider_loop_true _ _ _ _ hr h
      have hd1 := calc_fb_divider_checking_tolerance_dividers hc1
      rw [ref_divider_loop] at h ⊢
      split at h
      · rename_i hin
        rw [if_pos hin]
        obtain ⟨⟨ok, t⟩, ha, hk⟩ := Outcome.bind_eq_done.1 h
        clear h
        cases ok with
        | true =>
          simp at hk
          subst hk
          rw [calc_fb_divider_checking_tolerance_mono_true hle ha]
          have hd := calc_fb_divider_checking_tolerance_dividers ha
          exact ⟨t, by simp [Outcome.bind], hd.2, hd.2, le_refl _⟩
        | false =>
          simp at hk
          have ht := calc_fb_divider_checking_tolerance_false ha
          subst ht
          rcases calc_fb_divider_checking_tolerance_mono_false tol' ha with h2 | ⟨s2, h2⟩
          · rw [h2]
            simp only [Outcome.bind, Bool.false_eq_true, if_false]
            exact (ih _ _ (u32_lt _)).1 s1 hk
          · rw [h2]
            have hd := calc_fb_divider_checking_tolerance_dividers h2
            refine ⟨s2, by simp [Outcome.bind], hd.2, hd1.2, ?_⟩
            rw [hd.1, hd1.1]
            exact hr1
      · simp at h
    · intro s' h
      rw [ref_divider_loop] at h ⊢
      split at h
      · rename_i hin
        rw [if_pos hin]
        obtain ⟨⟨ok, t⟩, ha, hk⟩ := Outcome.bind_eq_done.1 h
        clear h
        cases ok with
        | true => simp at hk
        | false =>
          simp at hk
          have ht := calc_fb_divider_checking_tolerance_false ha
          subst ht
          rcases calc_fb_divider_checking_tolerance_mono_false tol' ha with h2 | ⟨s2, h2⟩
          · rw [h2]
            simp only [Outcome.bind, Bool.false_eq_true, if_false]
            exact (ih _ _ (u32_lt _)).2 s' hk
          · rw [h2]
            exact Or.inr ⟨s2, by simp [Outcome.bind]⟩
      · rename_i hout
        rw [if_neg hout]
        exact Or.inl rfl

theorem post_divider_loop_mono {cs : calc_pll_clock_source} {minr maxr minp tol tol' : Nat}
    (hle : tol ≤ tol') (hminr : minr < 2 ^ 32) :
    ∀ (fuel p : Nat) (s : pll_settings), p < 2 ^ 32 →
      (∀ s1, post_divider_loop cs minr maxr minp tol fuel p s = .done (true, s1) →
        ∃ s2, post_divider_loop cs minr maxr minp tol' fuel p s = .done (true, s2) ∧
          (s1.pix_clk_post_divider < s2.pix_clk_post_divider ∨
            (s2.pix_clk_post_divider = s1.pix_clk_post_divider ∧
              s2.reference_divider ≤ s1.reference_divider))) ∧
      (∀ s', post_divider_loop cs minr maxr minp tol fuel p s = .done (false, s') →
        post_divider_loop cs minr maxr minp tol' fuel p s = .done (false, s) ∨
        ∃ s2, post_divider_loop cs minr maxr minp tol' fuel p s = .done (true, s2)) := by
  intro fuel
  induction fuel with
  | zero =>
    intro p s _
    constructor <;> intro s1 h <;> simp [post_divider_loop] at h
  | succ n ih =>
    intro p s hp
    constructor
    · intro s1 h
      rw [post_divider_loop] at h ⊢
      split at h
      · rename_i hin
        rw [if_pos hin]
        obtain ⟨⟨ok, t⟩, ha, hk⟩ := Outcome.bind_eq_done.1 h
        clear h
        cases ok with
        | true =>
          simp at hk
          subst hk
          obtain ⟨s2, h2, hp2, hp1, hrr⟩ := (ref_divider_loop_mono hle _ _ _ hminr).1 t ha
          rw [h2]
          exact ⟨s2, by simp [Outcome.bind], Or.inr ⟨by rw [hp2, hp1], hrr⟩⟩
        | false =>
          simp at hk
          have ht := ref_divider_loop_false _ _ _ _ ha
          subst ht
          rcases (ref_divider_loop_mono hle _ _ _ hminr).2 t ha with h2 | ⟨s2, h2⟩
          · rw [h2]
            simp only [Outcome.bind, Bool.false_eq_true, if_false]
            exact (ih _ _ (u32_lt _)).1 s1 hk
          · rw [h2]
            obtain ⟨r2, hr2a, hr2b, hc2⟩ := ref_divider_loop_true _ _ _ _ hminr h2
            have hd2 := calc_fb_divider_checking_tolerance_dividers hc2
            have hrange : minr ≤ maxr := le_trans hr2a hr2b
            have hp0 : p ≠ 0 := by
              intro h0
              subst h0
              exact ref_divider_loop_post_zero hrange _ _ _ ha
            have hpred := u32_pred hp0 hp
            norm_num at hpred
            rw [hpred] at hk
            obtain ⟨p1, r1, -, hp1, -, -, hc1⟩ :=
              post_divider_loop_true hminr hrange _ _ _ _ (by omega) hk
            have hd1 := calc_fb_divider_checking_tolerance_dividers hc1
            refine ⟨s2, by simp [Outcome.bind], Or.inl ?_⟩
            rw [hd1.2, hd2.2]
            omega
      · simp at h
    · intro s' h
      rw [post_divider_loop] at h ⊢
      split at h
      · rename_i hin
        rw [if_pos hin]
        obtain ⟨⟨ok, t⟩, ha, hk⟩ := Outcome.bind_eq_done.1 h
        clear h
        cases ok with
        | true => simp at hk
        | false =>
          simp at hk
          have ht := ref_divider_loop_false _ _ _ _ ha
          subst ht
          rcases (ref_divider_loop_mono hle _ _ _ hminr).2 t ha with h2 | ⟨s2, h2⟩
          · rw [h2]
            simp only [Outcome.bind, Bool.false_eq_true, if_false]
            exact (ih _ _ (u32_lt _)).2 s' hk
          · rw [h2]
            exact Or.inr ⟨s2, by simp [Outcome.bind]⟩
      · rename_i hout
        rw [if_neg hout]
        exact Or.inl rfl

/-- Without 32-bit overflow the absolute tolerance grows with the basis-point
tolerance. -/
theorem abs_tolerance_mono {t e e' : Nat} (hlt : e < e') (hov : t * e' < 2 ^ 32) :
    abs_tolerance t e ≤ abs_tolerance t e' := by
  have h1 : t * e ≤ t * e' := Nat.mul_le_mul_left t (le_of_lt hlt)
  have h2 : t * e / 10000 ≤ t * e' / 10000 := Nat.div_le_div_right h1
  unfold abs_tolerance CALC_PLL_CLK_SRC_ERR_TOLERANCE
  rw [u32_of_lt hov, u32_of_lt (lt_of_le_of_lt h1 hov)]
  simp only []
  split <;> split <;> omega

/-- C15, refuted as stated. Under `cs_coarse` with target 149000 kHz and the
single candidate (reference divider 1, post divider 1), whose achieved
frequency is 148500, the search succeeds at `err_tolerance = 40` (absolute
tolerance 596) and fails at the larger `err_tolerance = 28826`: the 32-bit
product `149000 * 28826` wraps and leaves an absolute tolerance of 10. -/
theorem search_not_monotone_on_wrapped_tolerance :
    (40 : Nat) < 28826 ∧
    calc_pll_dividers_in_range cs_coarse (settings_for 149000 0 0) 1 1 1 1 40 3 =
      .done (true, accepted_coarse) ∧
    calc_pll_dividers_in_range cs_coarse (settings_for 149000 0 0) 1 1 1 1 28826 3 =
      .done (false, settings_for 149000 0 0) ∧
    (∀ fuel s2, calc_pll_dividers_in_range cs_coarse (settings_for 149000 0 0) 1 1 1 1 28826
      fuel ≠ .done (true, s2)) ∧
    abs_tolerance 149000 40 = 596 ∧ abs_tolerance 149000 28826 = 10 := by
  refine ⟨by decide, by rfl, by rfl, ?_, by rfl, by rfl⟩
  intro fuel s2 h
  have hf := calc_pll_dividers_in_range_true (by decide) (by decide) (by decide) h
  obtain ⟨p', r', hp1, hp2, hr1, hr2, hc'⟩ := hf
  have hp' : p' = 1 := by omega
  have hr' : r' = 1 := by omega
  subst hp' hr'
  rw [show calc_fb_divider_checking_tolerance cs_coarse (settings_for 149000 0 0) 1 1
    (abs_tolerance (settings_for 149000 0 0).adjusted_pix_clk 28826) =
    .done (false, settings_for 149000 0 0) from rfl] at hc'
  cases hc'

/-- C15, amended. For 32-bit ranges and basis-point tolerances `T < T'` whose
32-bit product `adjusted_pix_clk * T'` does not wrap, a search that succeeds
with `T` succeeds with `T'` on the same fuel, and the pair selected with `T'`
is at the same position or earlier in the (descending post divider, ascending
reference divider) order than the pair selected with `T`. -/
theorem search_monotone_without_wrap (cs : calc_pll_clock_source) (s s1 : pll_settings)
    (min_ref max_ref min_post max_post T T' fuel : Nat)
    (hminr : min_ref < 2 ^ 32) (hmaxp : max_post < 2 ^ 32)
    (hlt : T < T') (hov : s.adjusted_pix_clk * T' < 2 ^ 32)
    (h : calc_pll_dividers_in_range cs s min_ref max_ref min_post max_post T fuel =
      .done (true, s1)) :
    ∃ s2, calc_pll_dividers_in_range cs s min_ref max_ref min_post max_post T' fuel =
        .done (true, s2) ∧
      (s1.pix_clk_post_divider < s2.pix_clk_post_divider ∨
        (s2.pix_clk_post_divider = s1.pix_clk_post_divider ∧
          s2.reference_divider ≤ s1.reference_divider)) :=
  (post_divider_loop_mono (abs_tolerance_mono hlt hov) hminr _ _ _ hmaxp).1 s1 h

theorem search_monotone_without_wrap_witness :
    ∃ s2, calc_pll_dividers_in_range cs_1080p (settings_for 148500 0 0) 1 2 1 1 50 3 =
        .done (true, s2) ∧
      (solved_1080p.pix_clk_post_divider < s2.pix_clk_post_divider ∨
        (s2.pix_clk_post_divider = solved_1080p.pix_clk_post_divider ∧
          s2.reference_divider ≤ solved_1080p.reference_divider)) :=
  search_monotone_without_wrap cs_1080p (settings_for 148500 0 0) solved_1080p 1 2 1 1 25 50 3
    (by decide) (by decide) (by decide) (by decide) (by rfl)

/-! ## The search order of `calc_pll_dividers_in_range` -/

/-- The inner loop over a range whose candidates all return: either every
candidate from `r` on is rejected and the loop returns false, or it returns
the record of the first accepted one.  Fuel above `n` is enough when at most
`n` reference dividers are left. -/
theorem ref_divider_loop_first {cs : calc_pll_clock_source} {p maxr tol : Nat}
    {s : pll_settings} (hmaxr : maxr < 2 ^ 32 - 1) :
    ∀ (n r : Nat), maxr + 1 - r ≤ n → r ≤ maxr + 1 →
      (∀ r', r ≤ r' → r' ≤ maxr →
        ∃ x, calc_fb_divider_checking_tolerance cs s r' p tol = .done x) →
      ((∀ fuel, n < fuel → ref_divider_loop cs p maxr tol fuel r s = .done (false, s)) ∧
        ∀ r', r ≤ r' → r' ≤ maxr →
          calc_fb_divider_checking_tolerance cs s r' p tol = .done (false, s)) ∨
      (∃ r1 s1, r ≤ r1 ∧ r1 ≤ maxr ∧
        calc_fb_divider_checking_tolerance cs s r1 p tol = .done (true, s1) ∧
        (∀ r', r ≤ r' → r' < r1 →
          calc_fb_divider_checking_tolerance cs s r' p tol = .done (false, s)) ∧
        ∀ fuel, n < fuel → ref_divider_loop cs p maxr tol fuel r s = .done (true, s1)) := by
  intro n
  induction n with
  | zero =>
    intro r hn hr _
    left
    refine ⟨fun fuel hf => ?_, fun r' h1 h2 => by omega⟩
    obtain ⟨f, rfl⟩ : ∃ f, fuel = f + 1 := ⟨fuel - 1, by omega⟩
    rw [ref_divider_loop, if_neg (by omega)]
  | succ n ih =>
    intro r hn hr hret
    by_cases hin : r ≤ maxr
    · obtain ⟨⟨ok, t⟩, hx⟩ := hret r (le_refl _) hin
      cases ok with
      | true =>
        right
        refine ⟨r, t, le_refl _, hin, hx, fun r' h1 h2 => by omega, fun fuel hf => ?_⟩
        obtain ⟨f, rfl⟩ : ∃ f, fuel = f + 1 := ⟨fuel - 1, by omega⟩
        rw [ref_divider_loop, if_pos hin, hx]
        simp [Outcome.bind]
      | false =>
        have ht := calc_fb_divider_checking_tolerance_false hx
        subst ht
        have hstep : ∀ fuel, ref_divider_loop cs p maxr tol (fuel + 1) r t =
            ref_divider_loop cs p maxr tol fuel (r + 1) t := by
          intro fuel
          rw [ref_divider_loop, if_pos hin, hx]
          simp only [Outcome.bind, Bool.false_eq_true, if_false]
          rw [u32_of_lt (by omega)]
        rcases ih (r + 1) (by omega) (by omega)
          (fun r' h1 h2 => hret r' (by omega) h2) with ⟨h1, h2⟩ | ⟨r1, s1, h1, h2, h3, h4, h5⟩
        · left
          refine ⟨fun fuel hf => ?_, fun r' ha hb => ?_⟩
          · obtain ⟨f, rfl⟩ : ∃ f, fuel = f + 1 := ⟨fuel - 1, by omega⟩
            rw [hstep]
            exact h1 f (by omega)
          · by_cases he : r' = r
            · subst he; exact hx
            · exact h2 r' (by omega) hb
        · right
          refine ⟨r1, s1, by omega, h2, h3, fun r' ha hb => ?_, fun fuel hf => ?_⟩
          · by_cases he : r' = r
            · subst he; exact hx
            · exact h4 r' (by omega) hb
          · obtain ⟨f, rfl⟩ : ∃ f, fuel = f + 1 := ⟨fuel - 1, by omega⟩
            rw [hstep]
            exact h5 f (by omega)
    · left
      refine ⟨fun fuel hf => ?_, fun r' h1 h2 => by omega⟩
      obtain ⟨f, rfl⟩ : ∃ f, fuel = f + 1 := ⟨fuel - 1, by omega⟩
      rw [ref_divider_loop, if_neg hin]

/-- The outer loop over ranges whose candidates all return: either every
candidate is rejected and the loop returns false, or it returns the record of
the first accepted candidate in the order of descending post divider and
ascending reference divider. -/
theorem post_divider_loop_first {cs : calc_pll_clock_source} {minr maxr minp tol : Nat}
    {s : pll_settings} (hminp : 1 ≤ minp) (hmaxr : maxr < 2 ^ 32 - 1) (hrange : minr ≤ maxr) :
    ∀ (n p : Nat), p + 1 - minp ≤ n → minp ≤ p + 1 → p < 2 ^ 32 →
      (∀ p' r', minp ≤ p' → p' ≤ p → minr ≤ r' → r' ≤ maxr →
        ∃ x, calc_fb_divider_checking_tolerance cs s r' p' tol = .done x) →
      ((∀ fuel, n + (maxr + 1 - minr) + 1 < fuel →
          post_divider_loop cs minr maxr minp tol fuel p s = .done (false, s)) ∧
        ∀ p' r', minp ≤ p' → p' ≤ p → minr ≤ r' → r' ≤ maxr →
          calc_fb_divider_checking_tolerance cs s r' p' tol = .done (false, s)) ∨
      (∃ p1 r1 s1, minp ≤ p1 ∧ p1 ≤ p ∧ minr ≤ r1 ∧ r1 ≤ maxr ∧
        calc_fb_divider_checking_tolerance cs s r1 p1 tol = .done (true, s1) ∧
        (∀ p' r', p1 < p' → p' ≤ p → minr ≤ r' → r' ≤ maxr →
          calc_fb_divider_checking_tolerance cs s r' p' tol = .done (false, s)) ∧
        (∀ r', minr ≤ r' → r' < r1 →
          calc_fb_divider_checking_tolerance cs s r' p1 tol = .done (false, s)) ∧
        ∀ fuel, n + (maxr + 1 - minr) + 1 < fuel →
          post_divider_loop cs minr maxr minp tol fuel p s = .done (true, s1)) := by
  intro n
  induction n with
  | zero =>
    intro p hn hp _ _
    left
    refine ⟨fun fuel hf => ?_, fun p' r' h1 h2 => by omega⟩
    obtain ⟨f, rfl⟩ : ∃ f, fuel = f + 1 := ⟨fuel - 1, by omega⟩
    rw [post_divider_loop, if_neg (by omega)]
  | succ n ih =>
    intro p hn hp hp32 hret
    by_cases hin : p ≥ minp
    · rcases ref_divider_loop_first hmaxr (maxr + 1 - minr) minr (le_refl _) (by omega)
        (fun r' h1 h2 => hret p r' hin (le_refl _) h1 h2) with
        ⟨h1, h2⟩ | ⟨r1, s1, h1, h2, h3, h4, h5⟩
      · have hstep : ∀ fuel, maxr + 1 - minr < fuel →
            post_divider_loop cs minr maxr minp tol (fuel + 1) p s =
            post_divider_loop cs minr maxr minp tol fuel (p - 1) s := by
          intro fuel hf
          rw [post_divider_loop, if_pos hin, h1 fuel hf]
          simp only [Outcome.bind, Bool.false_eq_true, if_false]
          rw [u32_pred (by omega : p ≠ 0) hp32]
        rcases ih (p - 1) (by omega) (by omega) (by omega)
          (fun p' r' ha hb hc hd => hret p' r' ha (by omega) hc hd) with
          ⟨g1, g2⟩ | ⟨p1, r1, s1, g1, g2, g3, g4, g5, g6, g7, g8⟩
        · left
          refine ⟨fun fuel hf => ?_, fun p' r' ha hb hc hd => ?_⟩
          · obtain ⟨f, rfl⟩ : ∃ f, fuel = f + 1 := ⟨fuel - 1, by omega⟩
            rw [hstep f (by omega)]
            exact g1 f (by omega)
          · by_cases he : p' = p
            · subst he; exact h2 r' hc hd
            · exact g2 p' r' ha (by omega) hc hd
        · right
          refine ⟨p1, r1, s1, g1, by omega, g3, g4, g5, fun p' r' ha hb hc hd => ?_, g7,
            fun fuel hf => ?_⟩
          · by_cases he : p' = p
            · subst he; exact h2 r' hc hd
            · exact g6 p' r' ha (by omega) hc hd
          · obtain ⟨f, rfl⟩ : ∃ f, fuel = f + 1 := ⟨fuel - 1, by omega⟩
            rw [hstep f (by omega)]
            exact g8 f (by omega)
      · right
        refine ⟨p, r1, s1, hin, le_refl _, h1, h2, h3, fun p' r' ha hb => by omega, h4,
          fun fuel hf => ?_⟩
        obtain ⟨f, rfl⟩ : ∃ f, fuel = f + 1 := ⟨fuel - 1, by omega⟩
        rw [post_divider_loop, if_pos hin, h5 f (by omega)]
        simp [Outcome.bind]
    · left
      refine ⟨fun fuel hf => ?_, fun p' r' h1 h2 => by omega⟩
      obtain ⟨f, rfl⟩ : ∃ f, fuel = f + 1 := ⟨fuel - 1, by omega⟩
      rw [post_divider_loop, if_neg hin]

/-- A candidate evaluation returns as soon as none of its four divisors is
zero. -/
theorem calc_fb_divider_checking_tolerance_returns {cs : calc_pll_clock_source}
    (s : pll_settings) {r p : Nat} (tol : Nat)
    (href : cs.ref_freq_khz ≠ 0) (hpf : u32 (cs.fract_fb_divider_precision_factor * 10) ≠ 0)
    (hfactor : cs.fract_fb_divider_factor ≠ 0)
    (hdiv : u32 (u32 (r * p) * cs.fract_fb_divider_factor) ≠ 0) :
    ∃ x, calc_fb_divider_checking_tolerance cs s r p tol = .done x := by
  simp only [calc_fb_divider_checking_tolerance, calculate_fb_and_fractional_fb_divider,
    actual_calculated_clock_khz, div_u64, div_u64_rem, href, hpf, hfactor, hdiv, if_false,
    Outcome.bind]
  split
  · exact ⟨_, rfl⟩
  · exact ⟨_, rfl⟩

/-- C14, refuted as stated. Range: post dividers `[1, 1]`, reference dividers
`[0, 1]` (so `1 ≤ min_post ≤ max_post` and `min_ref ≤ max_ref < 2 ^ 32 - 1`),
under `cs_1080p` with target 148500 kHz.  The pair (post 1, reference 1)
passes the candidate evaluation at the effective tolerance, but the search
never returns true: it reaches reference divider 0 first and divides by
`ref * post * factor = 0`. -/
theorem search_faults_on_zero_reference_divider :
    calc_fb_divider_checking_tolerance cs_1080p (settings_for 148500 0 0) 1 1
      (abs_tolerance (settings_for 148500 0 0).adjusted_pix_clk MAX_PLL_CALC_ERROR) =
      .done (true, solved_1080p) ∧
    calc_pll_dividers_in_range cs_1080p (settings_for 148500 0 0) 0 1 1 1 MAX_PLL_CALC_ERROR 2 =
      .trap ∧
    ∀ fuel x, calc_pll_dividers_in_range cs_1080p (settings_for 148500 0 0) 0 1 1 1
      MAX_PLL_CALC_ERROR fuel ≠ .done x := by
  refine ⟨by rfl, by rfl, ?_⟩
  intro fuel x h
  have hc : calc_fb_divider_checking_tolerance cs_1080p (settings_for 148500 0 0) 0 1
      (abs_tolerance (settings_for 148500 0 0).adjusted_pix_clk MAX_PLL_CALC_ERROR) = .trap := by
    rfl
  unfold calc_pll_dividers_in_range at h
  rcases fuel with _ | _ | fuel
  · simp [post_divider_loop] at h
  · simp [post_divider_loop, ref_divider_loop, Outcome.bind] at h
  · simp [post_divider_loop, ref_divider_loop, hc, Outcome.bind] at h

/-- C14, amended. For a range with `1 ≤ min_post ≤ max_post < 2 ^ 32` and
`min_ref ≤ max_ref < 2 ^ 32 - 1` in which every candidate evaluation returns
(no division by zero), `calc_pll_dividers_in_range` returns, with one and the
same result for all fuel above the size of the range.  It returns true exactly
when some pair of the range passes the candidate evaluation at the effective
tolerance; the record then is the one written by a passing pair `(p, r)`, and
every passing pair of the range has a smaller post divider than `p`, or post
divider `p` and a reference divider at least `r`.  It returns false with the
record unchanged otherwise. -/
theorem search_returns_first_passing_candidate (cs : calc_pll_clock_source) (s : pll_settings)
    (min_ref max_ref min_post max_post err_tolerance : Nat)
    (hminp : 1 ≤ min_post) (hpost : min_post ≤ max_post) (hmaxp : max_post < 2 ^ 32)
    (href : min_ref ≤ max_ref) (hmaxr : max_ref < 2 ^ 32 - 1)
    (hret : ∀ p r, min_post ≤ p → p ≤ max_post → min_ref ≤ r → r ≤ max_ref →
      ∃ x, calc_fb_divider_checking_tolerance cs s r p
        (abs_tolerance s.adjusted_pix_clk err_tolerance) = .done x) :
    ∃ (b : Bool) (s' : pll_settings),
      (∀ fuel, (max_post + 1 - min_post) + (max_ref + 1 - min_ref) + 1 < fuel →
        calc_pll_dividers_in_range cs s min_ref max_ref min_post max_post err_tolerance fuel =
          .done (b, s')) ∧
      (b = true ↔ ∃ p r s'', min_post ≤ p ∧ p ≤ max_post ∧ min_ref ≤ r ∧ r ≤ max_ref ∧
        calc_fb_divider_checking_tolerance cs s r p
          (abs_tolerance s.adjusted_pix_clk err_tolerance) = .done (true, s'')) ∧
      (b = true → ∃ p r, min_post ≤ p ∧ p ≤ max_post ∧ min_ref ≤ r ∧ r ≤ max_ref ∧
        calc_fb_divider_checking_tolerance cs s r p
          (abs_tolerance s.adjusted_pix_clk err_tolerance) = .done (true, s') ∧
        s'.pix_clk_post_divider = p ∧ s'.reference_divider = r ∧
        ∀ p' r' s'', min_post ≤ p' → p' ≤ max_post → min_ref ≤ r' → r' ≤ max_ref →
          calc_fb_divider_checking_tolerance cs s r' p'
            (abs_tolerance s.adjusted_pix_clk err_tolerance) = .done (true, s'') →
          p' < p ∨ (p' = p ∧ r ≤ r')) ∧
      (b = false → s' = s) := by
  rcases post_divider_loop_first hminp hmaxr href (max_post + 1 - min_post) max_post
    (le_refl _) (by omega) hmaxp hret with ⟨h1, h2⟩ | ⟨p1, r1, s1, h1, h2, h3, h4, h5, h6, h7, h8⟩
  · refine ⟨false, s, h1, ?_, by simp, fun _ => rfl⟩
    constructor
    · intro h; cases h
    · rintro ⟨p, r, s'', ha, hb, hc, hd, he⟩
      rw [h2 p r ha hb hc hd] at he
      cases he
  · have hd := calc_fb_divider_checking_tolerance_dividers h5
    refine ⟨true, s1, h8, ?_, fun _ => ?_, by simp⟩
    · constructor
      · exact fun _ => ⟨p1, r1, s1, h1, h2, h3, h4, h5⟩
      · exact fun _ => rfl
    · refine ⟨p1, r1, h1, h2, h3, h4, h5, hd.2, hd.1, ?_⟩
      intro p' r' s'' ha hb hc hd' he
      by_cases hlt : p' < p1
      · exact Or.inl hlt
      · right
        by_cases hgt : p1 < p'
        · rw [h6 p' r' hgt hb hc hd'] at he
          cases he
        · have hpe : p' = p1 := by omega
          subst hpe
          refine ⟨rfl, ?_⟩
          by_contra hcon
          rw [h7 r' hc (by omega)] at he
          cases he

theorem search_returns_first_passing_candidate_witness :
    ∃ (b : Bool) (s' : pll_settings),
      (∀ fuel, (1 + 1 - 1) + (2 + 1 - 1) + 1 < fuel →
        calc_pll_dividers_in_range cs_1080p (settings_for 148500 0 0) 1 2 1 1 25 fuel =
          .done (b, s')) ∧
      (b = true ↔ ∃ p r s'', 1 ≤ p ∧ p ≤ 1 ∧ 1 ≤ r ∧ r ≤ 2 ∧
        calc_fb_divider_checking_tolerance cs_1080p (settings_for 148500 0 0) r p
          (abs_tolerance (settings_for 148500 0 0).adjusted_pix_clk 25) = .done (true, s'')) ∧
      (b = true → ∃ p r, 1 ≤ p ∧ p ≤ 1 ∧ 1 ≤ r ∧ r ≤ 2 ∧
        calc_fb_divider_checking_tolerance cs_1080p (settings_for 148500 0 0) r p
          (abs_tolerance (settings_for 148500 0 0).adjusted_pix_clk 25) = .done (true, s') ∧
        s'.pix_clk_post_divider = p ∧ s'.reference_divider = r ∧
        ∀ p' r' s'', 1 ≤ p' → p' ≤ 1 → 1 ≤ r' → r' ≤ 2 →
          calc_fb_divider_checking_tolerance cs_1080p (settings_for 148500 0 0) r' p'
            (abs_tolerance (settings_for 148500 0 0).adjusted_pix_clk 25) = .done (true, s'') →
          p' < p ∨ (p' = p ∧ r ≤ r')) ∧
      (b = false → s' = settings_for 148500 0 0) :=
  search_returns_first_passing_candidate cs_1080p (settings_for 148500 0 0) 1 2 1 1 25
    (by decide) (by decide) (by decide) (by decide) (by decide)
    (fun p r h1 h2 h3 h4 =>
      calc_fb_divider_checking_tolerance_returns _ _ (by decide) (by decide) (by decide)
        (by
          have hp : p = 1 := by omega
          subst hp
          have hr : r = 1 ∨ r = 2 := by omega
          rcases hr with rfl | rfl <;> decide))

/-! ## Claims about `calculate_ss` -/

theorem round_down_conventional : round_down.conventional :=
  fun _ _ _ => Or.inl rfl

theorem round_nearest_conventional : round_nearest.conventional :=
  fun _ _ _ => Or.inr rfl

theorem round_down_faithful : round_down.faithful := by
  intro n d _
  exact ⟨le_refl _, Nat.div_le_div_right (by omega)⟩

/-- With all three records present and a nonzero percentage, `calculate_ss`
reaches its last line: it returns true and writes the four fields. -/
theorem calculate_ss_eq (r : rounding_rule) (s : pll_settings) (e : spread_spectrum_data)
    (ds : delta_sigma_data) (hp : e.percentage ≠ 0) :
    calculate_ss r (some s) (some e) (some ds) =
      (true, some
        { feedback_amount := dal_fixed32_32_floor (ss_amount r s e)
          nfrac_amount := dal_fixed32_32_floor (dal_fixed32_32_mul_int
            (dal_fixed32_32_sub (ss_amount r s e)
              (dal_fixed32_32_from_int (dal_fixed32_32_floor (ss_amount r s e)))) 10)
          ds_frac_size := dal_fixed32_32_floor (dal_fixed32_32_mul_int
            (dal_fixed32_32_div r (ss_amount r s e) (modulation_time r s e)) (65536 * 10))
          ds_frac_amount := dal_fixed32_32_floor (dal_fixed32_32_mul_int
            (dal_fixed32_32_sub
              (dal_fixed32_32_mul_int (dal_fixed32_32_sub (ss_amount r s e)
                (dal_fixed32_32_from_int (dal_fixed32_32_floor (ss_amount r s e)))) 10)
              (dal_fixed32_32_from_int (dal_fixed32_32_floor (dal_fixed32_32_mul_int
                (dal_fixed32_32_sub (ss_amount r s e)
                  (dal_fixed32_32_from_int (dal_fixed32_32_floor (ss_amount r s e)))) 10))))
            65536) }) := by
  simp only [calculate_ss, hp, if_false]

/-- A call that returns true had a nonzero percentage and wrote the four
fields of `calculate_ss_eq`. -/
theorem calculate_ss_true_inv {r : rounding_rule} {s : pll_settings} {e : spread_spectrum_data}
    {ds ds' : delta_sigma_data}
    (h : calculate_ss r (some s) (some e) (some ds) = (true, some ds')) :
    e.percentage ≠ 0 ∧
    ds'.feedback_amount = dal_fixed32_32_floor (ss_amount r s e) ∧
    ds'.nfrac_amount = dal_fixed32_32_floor (dal_fixed32_32_mul_int
      (dal_fixed32_32_sub (ss_amount r s e)
        (dal_fixed32_32_from_int (dal_fixed32_32_floor (ss_amount r s e)))) 10) ∧
    ds'.ds_frac_size = dal_fixed32_32_floor (dal_fixed32_32_mul_int
      (dal_fixed32_32_div r (ss_amount r s e) (modulation_time r s e)) (65536 * 10)) ∧
    ds'.ds_frac_amount = dal_fixed32_32_floor (dal_fixed32_32_mul_int
      (dal_fixed32_32_sub
        (dal_fixed32_32_mul_int (dal_fixed32_32_sub (ss_amount r s e)
          (dal_fixed32_32_from_int (dal_fixed32_32_floor (ss_amount r s e)))) 10)
        (dal_fixed32_32_from_int (dal_fixed32_32_floor (dal_fixed32_32_mul_int
          (dal_fixed32_32_sub (ss_amount r s e)
            (dal_fixed32_32_from_int (dal_fixed32_32_floor (ss_amount r s e)))) 10))))
      65536) := by
  by_cases hp : e.percentage = 0
  · simp [calculate_ss, hp] at h
  · rw [calculate_ss_eq r s e ds hp] at h
    simp only [Prod.mk.injEq, true_and, Option.some.injEq] at h
    subst h
    exact ⟨hp, rfl, rfl, rfl, rfl⟩

/-- C18. Whatever the rounding rule of the fixed-point helpers: when the
capability entry is absent, or its percentage is zero, or the settings record
is absent, `calculate_ss` returns false and the output record (present or
not) is as on entry; when the settings record, the capability entry and the
output record are all present and the percentage is not zero, it returns
true. -/
theorem calculate_ss_fails_untouched_or_succeeds (r : rounding_rule)
    (settings : Option pll_settings) (ss_data : Option spread_spectrum_data)
    (ds_data : Option delta_sigma_data) :
    ((ss_data = none ∨ (∃ e, ss_data = some e ∧ e.percentage = 0) ∨ settings = none) →
      calculate_ss r settings ss_data ds_data = (false, ds_data)) ∧
    (∀ s e ds, settings = some s → ss_data = some e → ds_data = some ds →
      e.percentage ≠ 0 →
      ∃ ds', calculate_ss r settings ss_data ds_data = (true, some ds')) := by
  constructor
  · intro h
    cases ds_data with
    | none => rfl
    | some ds =>
      cases ss_data with
      | none => rfl
      | some e =>
        by_cases hp : e.percentage = 0
        · simp [calculate_ss, hp]
        · rcases h with h | ⟨e', he, hp'⟩ | h
          · cases h
          · cases he; exact absurd hp' hp
          · subst h
            simp [calculate_ss, hp]
  · intro s e ds hs he hds hp
    subst hs he hds
    exact ⟨_, calculate_ss_eq r s e ds hp⟩

theorem calculate_ss_fails_untouched_or_succeeds_witness :
    calculate_ss round_nearest (some (settings_fb 60)) none (some ds_zero) =
      (false, some ds_zero) ∧
    ∃ ds', calculate_ss round_nearest (some (settings_fb 60)) (some (ss_entry_pct 50 100))
      (some ds_zero) = (true, some ds') :=
  ⟨(calculate_ss_fails_untouched_or_succeeds round_nearest (some (settings_fb 60)) none
      (some ds_zero)).1 (Or.inl rfl),
   (calculate_ss_fails_untouched_or_succeeds round_nearest (some (settings_fb 60))
      (some (ss_entry_pct 50 100)) (some ds_zero)).2 (settings_fb 60) (ss_entry_pct 50 100)
      ds_zero rfl rfl rfl (by decide)⟩

theorem cast_div_sub_floor (a b : Nat) (hb : 0 < b) :
    ((a : ℚ) / (b : ℚ) - ((a / b : Nat) : ℚ)) = ((a % b : Nat) : ℚ) / (b : ℚ) := by
  have hb' : (b : ℚ) ≠ 0 := by exact_mod_cast (Nat.pos_iff_ne_zero.1 hb)
  have h : ((b * (a / b) + a % b : Nat) : ℚ) = (a : ℚ) := by
    rw [Nat.div_add_mod]
  push_cast at h
  field_simp
  linarith

/-- Taking the integer part away from a 64-bit fixed-point value leaves its
fraction. -/
theorem sub_from_int_floor (W : Nat) :
    dal_fixed32_32_sub ⟨W⟩ (dal_fixed32_32_from_int (dal_fixed32_32_floor ⟨W⟩)) =
      ⟨W % 2 ^ 32⟩ := by
  simp only [dal_fixed32_32_sub, dal_fixed32_32_from_int, dal_fixed32_32_floor, u64]
  congr 1
  norm_num
  omega

theorem mul_int_fraction (F k : Nat) (hF : F < 2 ^ 32) (hk : k ≤ 2 ^ 32) :
    dal_fixed32_32_mul_int ⟨F⟩ k = ⟨F * k⟩ := by
  simp only [dal_fixed32_32_mul_int, u64]
  congr 1
  apply Nat.mod_eq_of_lt
  calc F * k ≤ F * 2 ^ 32 := Nat.mul_le_mul_left F hk
    _ < 2 ^ 32 * 2 ^ 32 := Nat.mul_lt_mul_of_pos_right hF (by norm_num)
    _ = 2 ^ 64 := by norm_num

/-- The three digits `calculate_ss` takes from a 64-bit spread amount `V`:
its integer part, the first decimal digit of its fraction and 16 further
binary digits. -/
theorem spread_amount_split (V : Nat) :
    dal_fixed32_32_floor ⟨V⟩ = V / 2 ^ 32 ∧
    dal_fixed32_32_floor (dal_fixed32_32_mul_int (dal_fixed32_32_sub ⟨V⟩
      (dal_fixed32_32_from_int (dal_fixed32_32_floor ⟨V⟩))) 10) = V % 2 ^ 32 * 10 / 2 ^ 32 ∧
    dal_fixed32_32_floor (dal_fixed32_32_mul_int (dal_fixed32_32_sub
      (dal_fixed32_32_mul_int (dal_fixed32_32_sub ⟨V⟩
        (dal_fixed32_32_from_int (dal_fixed32_32_floor ⟨V⟩))) 10)
      (dal_fixed32_32_from_int (dal_fixed32_32_floor (dal_fixed32_32_mul_int
        (dal_fixed32_32_sub ⟨V⟩ (dal_fixed32_32_from_int (dal_fixed32_32_floor ⟨V⟩)))
        10)))) 65536) =
      V % 2 ^ 32 * 10 % 2 ^ 32 * 65536 / 2 ^ 32 := by
  have hF : V % 2 ^ 32 < 2 ^ 32 := Nat.mod_lt _ (by norm_num)
  have h1 : dal_fixed32_32_mul_int (dal_fixed32_32_sub ⟨V⟩
      (dal_fixed32_32_from_int (dal_fixed32_32_floor ⟨V⟩))) 10 = ⟨V % 2 ^ 32 * 10⟩ := by
    rw [sub_from_int_floor V, mul_int_fraction _ _ hF (by norm_num)]
  refine ⟨rfl, ?_, ?_⟩
  · rw [h1]; rfl
  · rw [h1, sub_from_int_floor _,
      mul_int_fraction _ _ (Nat.mod_lt _ (by norm_num)) (by norm_num)]
    rfl

/-- C19, refuted as stated. Feedback divider 60, percentage 50 over divider
100: the exact spread amount is `3 / 10`, whose first decimal digit is 3; the
call returns `nfrac_amount = 2` (and `ds_frac_amount = 65535`), whether the
helpers round their quotients down or to nearest, because `50 / 10000` is not
a multiple of `2 ^ (-32)`. -/
theorem spread_split_differs_from_exact_rational :
    calculate_ss round_down (some (settings_fb 60)) (some (ss_entry_pct 50 100))
        (some ds_zero) =
      (true, some
        { feedback_amount := 0, nfrac_amount := 2, ds_frac_size := 873,
          ds_frac_amount := 65535 }) ∧
    calculate_ss round_nearest (some (settings_fb 60)) (some (ss_entry_pct 50 100))
        (some ds_zero) =
      (true, some
        { feedback_amount := 0, nfrac_amount := 2, ds_frac_size := 873,
          ds_frac_amount := 65535 }) ∧
    ((60 : ℚ) + 0 / 10 ^ 6) * 50 / (100 * 100) = 3 / 10 ∧
    ⌊(((60 : ℚ) + 0 / 10 ^ 6) * 50 / (100 * 100) - 0) * 10⌋₊ = 3 := by
  refine ⟨by rfl, by rfl, by norm_num, ?_⟩
  have h : (((60 : ℚ) + 0 / 10 ^ 6) * 50 / (100 * 100) - 0) * 10 = ((3 : Nat) : ℚ) := by
    norm_num
  rw [h, Nat.floor_natCast]

/-- C19, amended. For every successful call and every rounding rule of the
helpers, with `S` the 32.32 fixed-point spread amount the code computes (a
64-bit value read as a multiple of `2 ^ (-32)`: the fixed-point product of
`feedback_divider` plus the helper's quotient `fract_feedback_divider / 10 ^ 6`
and the helper's quotient `percentage / (100 * percentage_divider)`), the
output has `feedback_amount = ⌊S⌋`,
`nfrac_amount = ⌊(S - feedback_amount) * 10⌋` and
`ds_frac_amount = ⌊((S - feedback_amount) * 10 - nfrac_amount) * 65536⌋`. -/
theorem spread_amount_digits (r : rounding_rule) (s : pll_settings) (e : spread_spectrum_data)
    (ds ds' : delta_sigma_data)
    (h : calculate_ss r (some s) (some e) (some ds) = (true, some ds')) :
    (ss_amount r s e).value =
      u64 (r.quotient (u64 (u64 (r.quotient (s.fract_feedback_divider * 2 ^ 32) 1000000) +
        s.feedback_divider * 2 ^ 32) *
        u64 (r.quotient (e.percentage * 2 ^ 32) (u32 (100 * e.percentage_divider))))
        (2 ^ 32)) ∧
    ds'.feedback_amount = ⌊((ss_amount r s e).value : ℚ) / 2 ^ 32⌋₊ ∧
    ds'.nfrac_amount =
      ⌊(((ss_amount r s e).value : ℚ) / 2 ^ 32 - ds'.feedback_amount) * 10⌋₊ ∧
    ds'.ds_frac_amount =
      ⌊((((ss_amount r s e).value : ℚ) / 2 ^ 32 - ds'.feedback_amount) * 10 -
        ds'.nfrac_amount) * 65536⌋₊ := by
  obtain ⟨-, h1, h2, -, h4⟩ := calculate_ss_true_inv h
  refine ⟨rfl, ?_⟩
  generalize ss_amount r s e = S at h1 h2 h4 ⊢
  obtain ⟨V⟩ := S
  obtain ⟨e1, e2, e3⟩ := spread_amount_split V
  rw [h1, h2, h4, e3, e2, e1]
  dsimp only
  have hpow : ((2 : ℚ) ^ 32) = (((2 ^ 32 : Nat)) : ℚ) := by norm_num
  have f1 : ⌊(V : ℚ) / 2 ^ 32⌋₊ = V / 2 ^ 32 := by
    rw [hpow, Nat.floor_div_eq_div]
  have g1 : ((V : ℚ) / 2 ^ 32 - ((V / 2 ^ 32 : Nat) : ℚ)) * 10 =
      ((V % 2 ^ 32 * 10 : Nat) : ℚ) / ((2 ^ 32 : Nat) : ℚ) := by
    rw [hpow, cast_div_sub_floor V (2 ^ 32) (by norm_num)]
    push_cast
    ring
  have f2 : ⌊((V : ℚ) / 2 ^ 32 - ((V / 2 ^ 32 : Nat) : ℚ)) * 10⌋₊ =
      V % 2 ^ 32 * 10 / 2 ^ 32 := by
    rw [g1, Nat.floor_div_eq_div]
  have g2 : (((V : ℚ) / 2 ^ 32 - ((V / 2 ^ 32 : Nat) : ℚ)) * 10 -
      ((V % 2 ^ 32 * 10 / 2 ^ 32 : Nat) : ℚ)) * 65536 =
      ((V % 2 ^ 32 * 10 % 2 ^ 32 * 65536 : Nat) : ℚ) / ((2 ^ 32 : Nat) : ℚ) := by
    rw [g1, cast_div_sub_floor (V % 2 ^ 32 * 10) (2 ^ 32) (by norm_num)]
    push_cast
    ring
  have f3 : ⌊(((V : ℚ) / 2 ^ 32 - ((V / 2 ^ 32 : Nat) : ℚ)) * 10 -
      ((V % 2 ^ 32 * 10 / 2 ^ 32 : Nat) : ℚ)) * 65536⌋₊ =
      V % 2 ^ 32 * 10 % 2 ^ 32 * 65536 / 2 ^ 32 := by
    rw [g2, Nat.floor_div_eq_div]
  exact ⟨f1.symm, f2.symm, f3.symm⟩

theorem spread_amount_digits_witness :
    (ss_amount round_nearest (settings_fb 25) (ss_entry_pct 400 100)).value =
      u64 (round_nearest.quotient (u64 (u64 (round_nearest.quotient
        ((settings_fb 25).fract_feedback_divider * 2 ^ 32) 1000000) +
        (settings_fb 25).feedback_divider * 2 ^ 32) *
        u64 (round_nearest.quotient ((ss_entry_pct 400 100).percentage * 2 ^ 32)
          (u32 (100 * (ss_entry_pct 400 100).percentage_divider)))) (2 ^ 32)) ∧
    (1 : Nat) =
      ⌊((ss_amount round_nearest (settings_fb 25) (ss_entry_pct 400 100)).value : ℚ) /
        2 ^ 32⌋₊ ∧
    (0 : Nat) =
      ⌊(((ss_amount round_nearest (settings_fb 25) (ss_entry_pct 400 100)).value : ℚ) / 2 ^ 32 -
        ((1 : Nat) : ℚ)) * 10⌋₊ ∧
    (0 : Nat) =
      ⌊((((ss_amount round_nearest (settings_fb 25) (ss_entry_pct 400 100)).value : ℚ) / 2 ^ 32 -
        ((1 : Nat) : ℚ)) * 10 - ((0 : Nat) : ℚ)) * 65536⌋₊ :=
  spread_amount_digits round_nearest (settings_fb 25) (ss_entry_pct 400 100) ds_zero
    { feedback_amount := 1, nfrac_amount := 0, ds_frac_size := 2912, ds_frac_amount := 0 }
    (by rfl)

/-- A faithful quotient by a nonzero denominator lies within one of the exact
quotient. -/
theorem faithful_quotient_near {r : rounding_rule} (hr : r.faithful) (n d : Nat) (hd : d ≠ 0) :
    (n : ℚ) / (d : ℚ) - 1 < (r.quotient n d : ℚ) ∧
      (r.quotient n d : ℚ) < (n : ℚ) / (d : ℚ) + 1 := by
  obtain ⟨hlo, hhi⟩ := hr n d hd
  have hdpos : 0 < d := Nat.pos_of_ne_zero hd
  have hdq : (0 : ℚ) < (d : ℚ) := by exact_mod_cast hdpos
  have h1 : n < (r.quotient n d + 1) * d := by
    have h2 : n < (n / d + 1) * d := by
      have := @Nat.lt_div_mul_add n d hdpos
      rw [Nat.add_mul]; omega
    exact lt_of_lt_of_le h2 (Nat.mul_le_mul_right _ (by omega))
  have h3 : r.quotient n d * d < n + d := by
    have h4 : (n + d - 1) / d * d ≤ n + d - 1 := Nat.div_mul_le_self _ _
    have h5 : r.quotient n d * d ≤ (n + d - 1) / d * d := Nat.mul_le_mul_right _ hhi
    omega
  have h1q : (n : ℚ) < ((r.quotient n d : ℚ) + 1) * (d : ℚ) := by exact_mod_cast h1
  have h3q : (r.quotient n d : ℚ) * (d : ℚ) < (n : ℚ) + (d : ℚ) := by exact_mod_cast h3
  constructor
  · rw [sub_lt_iff_lt_add, div_lt_iff₀ hdq]
    exact h1q
  · rw [← sub_lt_iff_lt_add, lt_div_iff₀ hdq]
    linarith

/-- C20, refuted as stated. Feedback divider 45, percentage 100 over divider
1, 27 MHz reference, reference divider 1, 30 kHz centre-spread modulation: the
spread amount is 45 and the modulation period `(27000 * 1000 / 30000) / 4` is
225, so `S / P * 65536 * 10` is 131072; the call returns
`ds_frac_size = 131071`, whether the helpers round their quotients down or to
nearest, because `45 / 225` is not a multiple of `2 ^ (-32)`. -/
theorem step_size_differs_from_exact_rational :
    calculate_ss round_down (some (settings_fb 45)) (some (ss_entry_pct 100 1))
        (some ds_zero) =
      (true, some
        { feedback_amount := 45, nfrac_amount := 0, ds_frac_size := 131071,
          ds_frac_amount := 0 }) ∧
    calculate_ss round_nearest (some (settings_fb 45)) (some (ss_entry_pct 100 1))
        (some ds_zero) =
      (true, some
        { feedback_amount := 45, nfrac_amount := 0, ds_frac_size := 131071,
          ds_frac_amount := 0 }) ∧
    ((45 : ℚ) + 0 / 10 ^ 6) * 100 / (100 * 1) = 45 ∧
    ((27000 : ℚ) * 1000 / (1 * 30000)) / 4 = 225 ∧
    ⌊(45 : ℚ) / 225 * 65536 * 10⌋₊ = 131072 := by
  refine ⟨by rfl, by rfl, by norm_num, by norm_num, ?_⟩
  have h : (45 : ℚ) / 225 * 65536 * 10 = ((131072 : Nat) : ℚ) := by norm_num
  rw [h, Nat.floor_natCast]

/-- C20, amended. For every successful call and every rounding rule of the
helpers, with `S` the fixed-point spread amount and `P` the fixed-point
modulation time (the helper's quotient of the 32-bit products
`reference_freq * 1000` and `reference_divider * modulation_freq_hz`, divided
by the helper by 4 for centre spread and by 2 otherwise), `ds_frac_size` is
the integer part of the 64-bit product of 655360 and the helper's quotient
`Q` of `S` by `P`; when that product does not overflow 64 bits this is
`⌊Q * 65536 * 10⌋`, and if moreover the rule is faithful and `P` is not zero,
`ds_frac_size` lies between `S / P * 65536 * 10 - 1 - 5 / 32768` and
`S / P * 65536 * 10 + 5 / 32768`. -/
theorem dither_step_size_fixed_point (r : rounding_rule) (s : pll_settings)
    (e : spread_spectrum_data) (ds ds' : delta_sigma_data)
    (h : calculate_ss r (some s) (some e) (some ds) = (true, some ds')) :
    (modulation_time r s e).value =
      u64 (r.quotient (u64 (r.quotient (u32 (s.reference_freq * 1000) * 2 ^ 32)
        (u32 (s.reference_divider * e.modulation_freq_hz))))
        (if e.flags.CENTER_SPREAD then 4 else 2)) ∧
    ds'.ds_frac_size =
      u64 (u64 (r.quotient ((ss_amount r s e).value * 2 ^ 32) (modulation_time r s e).value) *
        655360) / 2 ^ 32 ∧
    (r.quotient ((ss_amount r s e).value * 2 ^ 32) (modulation_time r s e).value * 655360 <
        2 ^ 64 →
      ds'.ds_frac_size =
        ⌊((r.quotient ((ss_amount r s e).value * 2 ^ 32) (modulation_time r s e).value : Nat) :
          ℚ) / 2 ^ 32 * 65536 * 10⌋₊ ∧
      (r.faithful → (modulation_time r s e).value ≠ 0 →
        ((ss_amount r s e).value : ℚ) / ((modulation_time r s e).value : ℚ) * 65536 * 10 -
            1 - 5 / 32768 < (ds'.ds_frac_size : ℚ) ∧
        (ds'.ds_frac_size : ℚ) <
          ((ss_amount r s e).value : ℚ) / ((modulation_time r s e).value : ℚ) * 65536 * 10 +
            5 / 32768)) := by
  obtain ⟨-, -, -, h3, -⟩ := calculate_ss_true_inv h
  have hmt : (modulation_time r s e).value =
      u64 (r.quotient (u64 (r.quotient (u32 (s.reference_freq * 1000) * 2 ^ 32)
        (u32 (s.reference_divider * e.modulation_freq_hz))))
        (if e.flags.CENTER_SPREAD then 4 else 2)) := by
    unfold modulation_time
    by_cases hc : e.flags.CENTER_SPREAD = true
    · simp only [hc, if_true]; rfl
    · simp only [hc]; rfl
  have hsize : ds'.ds_frac_size =
      u64 (u64 (r.quotient ((ss_amount r s e).value * 2 ^ 32) (modulation_time r s e).value) *
        655360) / 2 ^ 32 := by
    rw [h3]; rfl
  refine ⟨hmt, hsize, fun hov => ?_⟩
  generalize (ss_amount r s e).value = S at hsize hov ⊢
  generalize (modulation_time r s e).value = P at hsize hov ⊢
  have hq : r.quotient (S * 2 ^ 32) P < 2 ^ 64 := by
    have : r.quotient (S * 2 ^ 32) P ≤ r.quotient (S * 2 ^ 32) P * 655360 :=
      Nat.le_mul_of_pos_right _ (by norm_num)
    omega
  rw [u64, u64, Nat.mod_eq_of_lt hq, Nat.mod_eq_of_lt hov] at hsize
  have f2 : ((r.quotient (S * 2 ^ 32) P : Nat) : ℚ) / 2 ^ 32 * 65536 * 10 =
      ((r.quotient (S * 2 ^ 32) P * 655360 : Nat) : ℚ) / ((2 ^ 32 : Nat) : ℚ) := by
    push_cast
    ring
  constructor
  · rw [f2, Nat.floor_div_eq_div]
    exact hsize
  · intro hr hP
    obtain ⟨hlo, hhi⟩ := faithful_quotient_near hr (S * 2 ^ 32) P hP
    have hPq : (P : ℚ) ≠ 0 := by exact_mod_cast hP
    have hx : (S : ℚ) / (P : ℚ) * 65536 * 10 =
        ((S * 2 ^ 32 : Nat) : ℚ) / (P : ℚ) * (5 / 32768) := by
      push_cast
      field_simp
      ring
    have d1 : ds'.ds_frac_size * 2 ^ 32 ≤ r.quotient (S * 2 ^ 32) P * 655360 := by
      rw [hsize]; exact Nat.div_mul_le_self _ _
    have d2 : r.quotient (S * 2 ^ 32) P * 655360 < (ds'.ds_frac_size + 1) * 2 ^ 32 := by
      rw [hsize]
      have := @Nat.lt_div_mul_add (r.quotient (S * 2 ^ 32) P * 655360) (2 ^ 32) (by norm_num)
      rw [Nat.add_mul]; omega
    have d1q : (ds'.ds_frac_size : ℚ) * 4294967296 ≤
        (r.quotient (S * 2 ^ 32) P : ℚ) * 655360 := by exact_mod_cast d1
    have d2q : (r.quotient (S * 2 ^ 32) P : ℚ) * 655360 <
        ((ds'.ds_frac_size : ℚ) + 1) * 4294967296 := by exact_mod_cast d2
    rw [hx]
    generalize ((S * 2 ^ 32 : Nat) : ℚ) / (P : ℚ) = X at hlo hhi ⊢
    generalize (r.quotient (S * 2 ^ 32) P : ℚ) = q at hlo hhi d1q d2q
    constructor <;> linarith

theorem dither_step_size_fixed_point_witness :
    (modulation_time round_down (settings_fb 60) (ss_entry_pct 50 100)).value =
      u64 (round_down.quotient (u64 (round_down.quotient
        (u32 ((settings_fb 60).reference_freq * 1000) * 2 ^ 32)
        (u32 ((settings_fb 60).reference_divider * (ss_entry_pct 50 100).modulation_freq_hz))))
        (if (ss_entry_pct 50 100).flags.CENTER_SPREAD then 4 else 2)) ∧
    (873 : Nat) =
      u64 (u64 (round_down.quotient
        ((ss_amount round_down (settings_fb 60) (ss_entry_pct 50 100)).value * 2 ^ 32)
        (modulation_time round_down (settings_fb 60) (ss_entry_pct 50 100)).value) *
        655360) / 2 ^ 32 ∧
    (873 : Nat) =
      ⌊((round_down.quotient
        ((ss_amount round_down (settings_fb 60) (ss_entry_pct 50 100)).value * 2 ^ 32)
        (modulation_time round_down (settings_fb 60) (ss_entry_pct 50 100)).value : Nat) :
        ℚ) / 2 ^ 32 * 65536 * 10⌋₊ ∧
    ((ss_amount round_down (settings_fb 60) (ss_entry_pct 50 100)).value : ℚ) /
        ((modulation_time round_down (settings_fb 60) (ss_entry_pct 50 100)).value : ℚ) *
        65536 * 10 - 1 - 5 / 32768 < ((873 : Nat) : ℚ) ∧
    ((873 : Nat) : ℚ) <
      ((ss_amount round_down (settings_fb 60) (ss_entry_pct 50 100)).value : ℚ) /
        ((modulation_time round_down (settings_fb 60) (ss_entry_pct 50 100)).value : ℚ) *
        65536 * 10 + 5 / 32768 :=
  have h := dither_step_size_fixed_point round_down (settings_fb 60) (ss_entry_pct 50 100)
    ds_zero
    { feedback_amount := 0, nfrac_amount := 2, ds_frac_size := 873, ds_frac_amount := 65535 }
    (by rfl)
  ⟨h.1, h.2.1, (h.2.2 (by decide)).1,
    (h.2.2 (by decide)).2 round_down_faithful (by decide)⟩

/-! ## The delta-sigma outputs as digits of the spread amount -/

/-- C21, refuted as stated. In the scenario (feedback divider 60, no
fractional part, reference divider 1, 27 MHz reference; percentage 50 over
divider 100, 30 kHz centre spread) the call succeeds with
`feedback_amount = 0`, whether the helpers round their quotients down or to
nearest: the spread amount is `60 * 50 / 10000 = 0.3`, whose integer part is
zero. -/
theorem scenario_feedback_amount_is_zero :
    calculate_ss round_down (some (settings_fb 60)) (some (ss_entry_pct 50 100))
        (some ds_zero) =
      (true, some
        { feedback_amount := 0, nfrac_amount := 2, ds_frac_size := 873,
          ds_frac_amount := 65535 }) ∧
    calculate_ss round_nearest (some (settings_fb 60)) (some (ss_entry_pct 50 100))
        (some ds_zero) =
      (true, some
        { feedback_amount := 0, nfrac_amount := 2, ds_frac_size := 873,
          ds_frac_amount := 65535 }) ∧
    (¬ ∃ ds', calculate_ss round_down (some (settings_fb 60)) (some (ss_entry_pct 50 100))
        (some ds_zero) = (true, some ds') ∧ ds'.feedback_amount ≠ 0) ∧
    ¬ ∃ ds', calculate_ss round_nearest (some (settings_fb 60)) (some (ss_entry_pct 50 100))
        (some ds_zero) = (true, some ds') ∧ ds'.feedback_amount ≠ 0 := by
  have h1 : calculate_ss round_down (some (settings_fb 60)) (some (ss_entry_pct 50 100))
      (some ds_zero) =
      (true, some
        { feedback_amount := 0, nfrac_amount := 2, ds_frac_size := 873,
          ds_frac_amount := 65535 }) := by rfl
  have h2 : calculate_ss round_nearest (some (settings_fb 60)) (some (ss_entry_pct 50 100))
      (some ds_zero) =
      (true, some
        { feedback_amount := 0, nfrac_amount := 2, ds_frac_size := 873,
          ds_frac_amount := 65535 }) := by rfl
  refine ⟨h1, h2, ?_, ?_⟩
  · rintro ⟨ds', h', hne⟩
    rw [h1] at h'
    cases h'
    exact hne rfl
  · rintro ⟨ds', h', hne⟩
    rw [h2] at h'
    cases h'
    exact hne rfl

/-- C21, amended. For every conventional rounding rule of the helpers (each
quotient rounded down or to nearest), every settings record with feedback
divider 60, no fractional part, reference divider 1 and a 27 MHz reference,
every capability entry with percentage 50 over divider 100, 30 kHz modulation
and centre spread, and every output record, `calculate_ss` returns true with
`feedback_amount = 0`, `nfrac_amount = 2`, `ds_frac_amount = 65535` and
`ds_frac_size = 873`. -/
theorem scenario_delta_sigma_values (r : rounding_rule) (hr : r.conventional)
    (s : pll_settings) (e : spread_spectrum_data) (ds : delta_sigma_data)
    (hfb : s.feedback_divider = 60) (hfr : s.fract_feedback_divider = 0)
    (hrd : s.reference_divider = 1) (hrf : s.reference_freq = 27000)
    (hp : e.percentage = 50) (hpd : e.percentage_divider = 100)
    (hm : e.modulation_freq_hz = 30000) (hc : e.flags.CENTER_SPREAD = true) :
    calculate_ss r (some s) (some e) (some ds) =
      (true, some
        { feedback_amount := 0, nfrac_amount := 2, ds_frac_size := 873,
          ds_frac_amount := 65535 }) := by
  have hA : dal_fixed32_32_from_fraction r s.fract_feedback_divider 1000000 = ⟨0⟩ := by
    unfold dal_fixed32_32_from_fraction
    rw [hfr]
    rcases hr (0 * 2 ^ 32) 1000000 (by decide) with h | h <;> rw [h] <;> rfl
  have hB : dal_fixed32_32_from_fraction r e.percentage (u32 (100 * e.percentage_divider)) =
      ⟨21474836⟩ := by
    unfold dal_fixed32_32_from_fraction
    rw [hp, hpd]
    rcases hr (50 * 2 ^ 32) (u32 (100 * 100)) (by decide) with h | h <;> rw [h] <;> rfl
  have hM : dal_fixed32_32_mul r (dal_fixed32_32_add_int ⟨0⟩ 60) ⟨21474836⟩ =
      ⟨1288490160⟩ := by
    unfold dal_fixed32_32_mul
    rcases hr ((dal_fixed32_32_add_int ⟨0⟩ 60).value * 21474836) (2 ^ 32) (by decide)
      with h | h <;> rw [h] <;> rfl
  have hS : ss_amount r s e = ⟨1288490160⟩ := by
    unfold ss_amount
    rw [hA, hB, hfb]
    exact hM
  have hT : dal_fixed32_32_from_fraction r (u32 (s.reference_freq * 1000))
      (u32 (s.reference_divider * e.modulation_freq_hz)) = ⟨3865470566400⟩ := by
    unfold dal_fixed32_32_from_fraction
    rw [hrf, hrd, hm]
    rcases hr (u32 (27000 * 1000) * 2 ^ 32) (u32 (1 * 30000)) (by decide) with h | h <;>
      rw [h] <;> rfl
  have hD : dal_fixed32_32_div_int r ⟨3865470566400⟩ 4 = ⟨966367641600⟩ := by
    unfold dal_fixed32_32_div_int
    rcases hr 3865470566400 4 (by decide) with h | h <;> rw [h] <;> rfl
  have hP : modulation_time r s e = ⟨966367641600⟩ := by
    unfold modulation_time
    simp only [hT, hc, if_true, hD]
  have hQ : dal_fixed32_32_div r ⟨1288490160⟩ ⟨966367641600⟩ = ⟨5726622⟩ ∨
      dal_fixed32_32_div r ⟨1288490160⟩ ⟨966367641600⟩ = ⟨5726623⟩ := by
    unfold dal_fixed32_32_div
    rcases hr (1288490160 * 2 ^ 32) 966367641600 (by decide) with h | h
    · left; rw [h]; rfl
    · right; rw [h]; rfl
  have hpct : e.percentage ≠ 0 := by rw [hp]; decide
  rw [calculate_ss_eq r s e ds hpct, hS, hP]
  rcases hQ with h | h <;> rw [h] <;> rfl

theorem scenario_delta_sigma_values_witness :
    calculate_ss round_nearest (some (settings_fb 60)) (some (ss_entry_pct 50 100))
        (some ds_zero) =
      (true, some
        { feedback_amount := 0, nfrac_amount := 2, ds_frac_size := 873,
          ds_frac_amount := 65535 }) :=
  scenario_delta_sigma_values round_nearest round_nearest_conventional (settings_fb 60)
    (ss_entry_pct 50 100) ds_zero rfl rfl rfl rfl rfl rfl rfl rfl

/-- C30. For every successful call and every rounding rule of the helpers,
with `s` the fixed-point spread amount the call computes, `nfrac_amount ≤ 9`,
`ds_frac_amount ≤ 65535` and
`feedback_amount + nfrac_amount / 10 + ds_frac_amount / 655360 ≤ s <
feedback_amount + nfrac_amount / 10 + (ds_frac_amount + 1) / 655360`. -/
theorem delta_sigma_outputs_are_digits (r : rounding_rule) (s : pll_settings)
    (e : spread_spectrum_data) (ds ds' : delta_sigma_data)
    (h : calculate_ss r (some s) (some e) (some ds) = (true, some ds')) :
    ds'.nfrac_amount ≤ 9 ∧ ds'.ds_frac_amount ≤ 65535 ∧
    (ds'.feedback_amount : ℚ) + (ds'.nfrac_amount : ℚ) / 10 +
        (ds'.ds_frac_amount : ℚ) / 655360 ≤ ((ss_amount r s e).value : ℚ) / 2 ^ 32 ∧
    ((ss_amount r s e).value : ℚ) / 2 ^ 32 <
      (ds'.feedback_amount : ℚ) + (ds'.nfrac_amount : ℚ) / 10 +
        ((ds'.ds_frac_amount : ℚ) + 1) / 655360 := by
  obtain ⟨-, h1, h2, -, h4⟩ := calculate_ss_true_inv h
  generalize ss_amount r s e = S at h1 h2 h4 ⊢
  obtain ⟨V⟩ := S
  obtain ⟨e1, e2, e3⟩ := spread_amount_split V
  rw [h1, h2, h4, e3, e2, e1]
  dsimp only
  -- the three digits, in natural numbers
  have hF : V % 2 ^ 32 < 2 ^ 32 := Nat.mod_lt _ (by norm_num)
  have hV : V = 2 ^ 32 * (V / 2 ^ 32) + V % 2 ^ 32 := (Nat.div_add_mod V (2 ^ 32)).symm
  have hF10 : V % 2 ^ 32 * 10 =
      2 ^ 32 * (V % 2 ^ 32 * 10 / 2 ^ 32) + V % 2 ^ 32 * 10 % 2 ^ 32 :=
    (Nat.div_add_mod _ (2 ^ 32)).symm
  have hG : V % 2 ^ 32 * 10 % 2 ^ 32 < 2 ^ 32 := Nat.mod_lt _ (by norm_num)
  have hG16 : V % 2 ^ 32 * 10 % 2 ^ 32 * 65536 =
      2 ^ 32 * (V % 2 ^ 32 * 10 % 2 ^ 32 * 65536 / 2 ^ 32) +
        V % 2 ^ 32 * 10 % 2 ^ 32 * 65536 % 2 ^ 32 :=
    (Nat.div_add_mod _ (2 ^ 32)).symm
  have hH : V % 2 ^ 32 * 10 % 2 ^ 32 * 65536 % 2 ^ 32 < 2 ^ 32 := Nat.mod_lt _ (by norm_num)
  generalize V / 2 ^ 32 = a at hV ⊢
  generalize V % 2 ^ 32 * 10 / 2 ^ 32 = n at hF10 ⊢
  generalize V % 2 ^ 32 * 10 % 2 ^ 32 * 65536 / 2 ^ 32 = d at hG16 ⊢
  generalize V % 2 ^ 32 * 10 % 2 ^ 32 * 65536 % 2 ^ 32 = r3 at hG16 hH
  generalize V % 2 ^ 32 * 10 % 2 ^ 32 = g at hF10 hG hG16
  generalize V % 2 ^ 32 = f at hV hF hF10
  norm_num at hF hG hH hV hF10 hG16
  refine ⟨by omega, by omega, ?_, ?_⟩
  · have key : 655360 * a * 4294967296 + 65536 * n * 4294967296 + d * 4294967296 ≤
        655360 * V := by omega
    have keyq : (655360 * a * 4294967296 + 65536 * n * 4294967296 + d * 4294967296 : ℚ) ≤
        655360 * V := by exact_mod_cast key
    have hval : ((a : ℚ) + (n : ℚ) / 10 + (d : ℚ) / 655360) * 2 ^ 32 =
        (655360 * a * 4294967296 + 65536 * n * 4294967296 + d * 4294967296) / 655360 := by
      field_simp
      ring
    rw [le_div_iff₀ (by norm_num), hval, div_le_iff₀ (by norm_num)]
    linarith
  · have key : 655360 * V <
        655360 * a * 4294967296 + 65536 * n * 4294967296 + (d + 1) * 4294967296 := by omega
    have keyq : (655360 * V : ℚ) <
        655360 * a * 4294967296 + 65536 * n * 4294967296 + (d + 1) * 4294967296 := by
      exact_mod_cast key
    have hval : ((a : ℚ) + (n : ℚ) / 10 + ((d : ℚ) + 1) / 655360) * 2 ^ 32 =
        (655360 * a * 4294967296 + 65536 * n * 4294967296 + (d + 1) * 4294967296) / 655360 := by
      field_simp
      ring
    rw [div_lt_iff₀ (by norm_num), hval, lt_div_iff₀ (by norm_num)]
    linarith

theorem delta_sigma_outputs_are_digits_witness :
    (2 : Nat) ≤ 9 ∧ (65535 : Nat) ≤ 65535 ∧
    ((0 : Nat) : ℚ) + ((2 : Nat) : ℚ) / 10 + ((65535 : Nat) : ℚ) / 655360 ≤
      ((ss_amount round_down (settings_fb 60) (ss_entry_pct 50 100)).value : ℚ) / 2 ^ 32 ∧
    ((ss_amount round_down (settings_fb 60) (ss_entry_pct 50 100)).value : ℚ) / 2 ^ 32 <
      ((0 : Nat) : ℚ) + ((2 : Nat) : ℚ) / 10 + (((65535 : Nat) : ℚ) + 1) / 655360 :=
  delta_sigma_outputs_are_digits round_down (settings_fb 60) (ss_entry_pct 50 100) ds_zero
    { feedback_amount := 0, nfrac_amount := 2, ds_frac_size := 873, ds_frac_amount := 65535 }
    (by rfl)

/-! ## Claims about `calc_pll_max_vco_construct` -/

/-- The multiplication loop computes the power of ten modulo `2 ^ 32`. -/
theorem times_ten_loop_eq : ∀ (count value : Nat), value < 2 ^ 32 →
    times_ten_loop count value = value * 10 ^ count % 2 ^ 32 := by
  intro count
  induction count with
  | zero =>
    intro value h
    rw [times_ten_loop, pow_zero, Nat.mul_one, Nat.mod_eq_of_lt h]
  | succ n ih =>
    intro value _
    rw [times_ten_loop, ih _ (u32_lt _), u32, Nat.mod_mul_mod, pow_succ]
    congr 1
    ring

theorem pow_ten_lt_of_le_nine {d : Nat} (h : d ≤ 9) : 10 ^ d < 2 ^ 32 :=
  lt_of_le_of_lt (Nat.pow_le_pow_right (by norm_num) h) (by norm_num)

/-- C22, refuted as stated. Ten decimal points with precision 1 are accepted,
and the constraint set built has `fract_fb_divider_factor = 1410065408`
(`10 ^ 10` reduced to 32 bits), which is not `10 ^ 10` and which the
precision factor `10 ^ 9` does not divide. -/
theorem construct_factor_wraps_at_ten_digits :
    calc_pll_max_vco_construct (some cs_1080p) (some (init_data_for 10 1)) =
      (true, some (cs_built 10 1 1410065408 1000000000)) ∧
    (cs_built 10 1 1410065408 1000000000).fract_fb_divider_factor ≠ 10 ^ 10 ∧
    ¬ (cs_built 10 1 1410065408 1000000000).fract_fb_divider_precision_factor ∣
      (cs_built 10 1 1410065408 1000000000).fract_fb_divider_factor := by
  refine ⟨by rfl, by decide, ?_⟩
  show ¬ (1000000000 ∣ 1410065408)
  omega

/-- C22, amended. With firmware data available, construction is rejected when
the number of decimal points is 0, the precision is 0 or the precision exceeds
the number of decimal points.  Otherwise it is accepted and the constraint
set has `fract_fb_divider_factor = 10 ^ d mod 2 ^ 32` and
`fract_fb_divider_precision_factor = 10 ^ (d - p) mod 2 ^ 32`; for `d ≤ 9`
these are `10 ^ d` and `10 ^ (d - p)`, and the precision factor divides the
factor.  A nonzero input-frequency override replaces the firmware bound, a
zero override keeps it; the crystal frequency, the VCO bounds and the divider
limits are taken over. -/
theorem construct_establishes_factors (cs : calc_pll_clock_source)
    (init_data : calc_pll_clock_source_init_data) (fw : firmware_info)
    (hbp : init_data.bp = some { get_firmware_info := some fw }) :
    ((init_data.num_fract_fb_divider_decimal_point = 0 ∨
        init_data.num_fract_fb_divider_decimal_point_precision = 0 ∨
        init_data.num_fract_fb_divider_decimal_point_precision >
          init_data.num_fract_fb_divider_decimal_point) →
      (calc_pll_max_vco_construct (some cs) (some init_data)).1 = false) ∧
    (¬ (init_data.num_fract_fb_divider_decimal_point = 0 ∨
        init_data.num_fract_fb_divider_decimal_point_precision = 0 ∨
        init_data.num_fract_fb_divider_decimal_point_precision >
          init_data.num_fract_fb_divider_decimal_point) →
      ∃ cs', calc_pll_max_vco_construct (some cs) (some init_data) = (true, some cs') ∧
        cs'.fract_fb_divider_factor =
          10 ^ init_data.num_fract_fb_divider_decimal_point % 2 ^ 32 ∧
        cs'.fract_fb_divider_precision_factor =
          10 ^ (init_data.num_fract_fb_divider_decimal_point -
            init_data.num_fract_fb_divider_decimal_point_precision) % 2 ^ 32 ∧
        (init_data.num_fract_fb_divider_decimal_point ≤ 9 →
          cs'.fract_fb_divider_factor = 10 ^ init_data.num_fract_fb_divider_decimal_point ∧
          cs'.fract_fb_divider_precision_factor =
            10 ^ (init_data.num_fract_fb_divider_decimal_point -
              init_data.num_fract_fb_divider_decimal_point_precision) ∧
          cs'.fract_fb_divider_precision_factor ∣ cs'.fract_fb_divider_factor) ∧
        cs'.max_pll_input_freq_khz =
          (if init_data.max_override_input_pxl_clk_pll_freq_khz ≠ 0 then
            init_data.max_override_input_pxl_clk_pll_freq_khz
          else fw.pll_info.max_input_pxl_clk_pll_frequency) ∧
        cs'.min_pll_input_freq_khz =
          (if init_data.min_override_input_pxl_clk_pll_freq_khz ≠ 0 then
            init_data.min_override_input_pxl_clk_pll_freq_khz
          else fw.pll_info.min_input_pxl_clk_pll_frequency) ∧
        cs'.ref_freq_khz = fw.pll_info.crystal_frequency ∧
        cs'.min_vco_khz = fw.pll_info.min_output_pxl_clk_pll_frequency ∧
        cs'.max_vco_khz = fw.pll_info.max_output_pxl_clk_pll_frequency ∧
        cs'.min_pix_clock_pll_post_divider = init_data.min_pix_clk_pll_post_divider ∧
        cs'.max_pix_clock_pll_post_divider = init_data.max_pix_clk_pll_post_divider ∧
        cs'.min_pll_ref_divider = init_data.min_pll_ref_divider ∧
        cs'.max_pll_ref_divider = init_data.max_pll_ref_divider) := by
  constructor
  · intro h
    simp only [calc_pll_max_vco_construct, hbp]
    rcases h with h | h | h
    · simp [h]
    · by_cases h1 : init_data.num_fract_fb_divider_decimal_point = 0 ∨
          init_data.num_fract_fb_divider_decimal_point_precision >
            init_data.num_fract_fb_divider_decimal_point
      · rw [if_pos h1]
      · rw [if_neg h1, if_pos h]
    · rw [if_pos (Or.inr h)]
  · intro h
    have h1 : ¬ (init_data.num_fract_fb_divider_decimal_point = 0 ∨
        init_data.num_fract_fb_divider_decimal_point_precision >
          init_data.num_fract_fb_divider_decimal_point) := fun h' =>
      h (h'.elim Or.inl (fun x => Or.inr (Or.inr x)))
    have h2 : ¬ init_data.num_fract_fb_divider_decimal_point_precision = 0 := fun h' =>
      h (Or.inr (Or.inl h'))
    simp only [calc_pll_max_vco_construct, hbp, if_neg h1, if_neg h2]
    refine ⟨_, rfl, ?_, ?_, ?_, rfl, rfl, rfl, rfl, rfl, rfl, rfl, rfl, rfl⟩
    · show times_ten_loop _ 1 = _
      rw [times_ten_loop_eq _ _ (by norm_num), Nat.one_mul]
    · show times_ten_loop _ 1 = _
      rw [times_ten_loop_eq _ _ (by norm_num), Nat.one_mul]
    · intro hd
      have e1 : times_ten_loop init_data.num_fract_fb_divider_decimal_point 1 =
          10 ^ init_data.num_fract_fb_divider_decimal_point := by
        rw [times_ten_loop_eq _ _ (by norm_num), Nat.one_mul,
          Nat.mod_eq_of_lt (pow_ten_lt_of_le_nine hd)]
      have e2 : times_ten_loop (init_data.num_fract_fb_divider_decimal_point -
          init_data.num_fract_fb_divider_decimal_point_precision) 1 =
          10 ^ (init_data.num_fract_fb_divider_decimal_point -
            init_data.num_fract_fb_divider_decimal_point_precision) := by
        rw [times_ten_loop_eq _ _ (by norm_num), Nat.one_mul,
          Nat.mod_eq_of_lt (pow_ten_lt_of_le_nine (by omega))]
      refine ⟨e1, e2, ?_⟩
      show times_ten_loop _ 1 ∣ times_ten_loop _ 1
      rw [e1, e2]
      exact pow_dvd_pow 10 (Nat.sub_le _ _)

theorem construct_establishes_factors_witness :
    ∃ cs', calc_pll_max_vco_construct (some cs_1080p) (some (init_data_for 6 6)) =
        (true, some cs') ∧
      cs'.fract_fb_divider_factor = 10 ^ 6 % 2 ^ 32 ∧
      cs'.fract_fb_divider_precision_factor = 10 ^ (6 - 6) % 2 ^ 32 ∧
      ((6 : Nat) ≤ 9 →
        cs'.fract_fb_divider_factor = 10 ^ 6 ∧
        cs'.fract_fb_divider_precision_factor = 10 ^ (6 - 6) ∧
        cs'.fract_fb_divider_precision_factor ∣ cs'.fract_fb_divider_factor) ∧
      cs'.max_pll_input_freq_khz = 27000 ∧
      cs'.min_pll_input_freq_khz = 1000 ∧
      cs'.ref_freq_khz = 27000 ∧
      cs'.min_vco_khz = 600000 ∧
      cs'.max_vco_khz = 1200000 ∧
      cs'.min_pix_clock_pll_post_divider = 1 ∧
      cs'.max_pix_clock_pll_post_divider = 127 ∧
      cs'.min_pll_ref_divider = 1 ∧
      cs'.max_pll_ref_divider = 1023 :=
  (construct_establishes_factors cs_1080p (init_data_for 6 6) fw_27mhz rfl).2 (by decide)

/-! ## The tolerance and its relaxation -/

/-- C24, refuted as stated. For the target 148500 kHz and the initial
tolerance `0xFFFFFFFF` the absolute tolerance is 429481, while
`148500 * 0xFFFFFFFF / 10000` is 63780264330; for the target 149000 kHz and
the tolerance 28826 the absolute tolerance is 10, while
`149000 * 28826 / 10000` is 429507.  The product is a 32-bit product. -/
theorem abs_tolerance_differs_from_exact_product :
    abs_tolerance 148500 MAX_PLL_CALC_ERROR = 429481 ∧
    max (148500 * MAX_PLL_CALC_ERROR / 10000) 1 = 63780264330 ∧
    abs_tolerance 149000 28826 = 10 ∧
    max (149000 * 28826 / 10000) 1 = 429507 := by
  refine ⟨by rfl, by rfl, by rfl, by rfl⟩

/-- C24, amended. The absolute tolerance that `calc_pll_dividers_in_range`
passes to the candidate evaluation is
`max (adjusted_pix_clk * err_tolerance mod 2 ^ 32 / 10000) 1`; it equals
`max (adjusted_pix_clk * err_tolerance / 10000) 1` with the exact product
whenever that product is below `2 ^ 32`. -/
theorem abs_tolerance_exact_without_wrap (cs : calc_pll_clock_source) (s : pll_settings)
    (min_ref max_ref min_post max_post err_tolerance fuel : Nat) :
    calc_pll_dividers_in_range cs s min_ref max_ref min_post max_post err_tolerance fuel =
      post_divider_loop cs min_ref max_ref min_post
        (max (s.adjusted_pix_clk * err_tolerance % 2 ^ 32 / 10000) 1) fuel max_post s ∧
    (s.adjusted_pix_clk * err_tolerance < 2 ^ 32 →
      abs_tolerance s.adjusted_pix_clk err_tolerance =
        max (s.adjusted_pix_clk * err_tolerance / 10000) 1) := by
  have h : abs_tolerance s.adjusted_pix_clk err_tolerance =
      max (s.adjusted_pix_clk * err_tolerance % 2 ^ 32 / 10000) 1 := by
    unfold abs_tolerance CALC_PLL_CLK_SRC_ERR_TOLERANCE u32
    simp only []
    split
    · rw [max_eq_right (by omega)]
    · rw [max_eq_left (by omega)]
  refine ⟨?_, fun hlt => ?_⟩
  · unfold calc_pll_dividers_in_range
    rw [h]
  · rw [h, Nat.mod_eq_of_lt hlt]

theorem abs_tolerance_exact_without_wrap_witness :
    abs_tolerance (settings_for 148500 0 0).adjusted_pix_clk 25 =
      max ((settings_for 148500 0 0).adjusted_pix_clk * 25 / 10000) 1 :=
  (abs_tolerance_exact_without_wrap cs_1080p (settings_for 148500 0 0) 1 2 1 1 25 3).2
    (by decide)

/-- C25, refuted as stated. At the input of `cs_overflow` the first pass, run
with the initial tolerance `MAX_PLL_CALC_ERROR`, fails, and the next pass runs
with the tolerance 429496728: the 32-bit sum wraps, so the next tolerance is
neither `0xFFFFFFFF + 0xFFFFFFFF / 10` nor greater than the previous one. -/
theorem first_relaxation_wraps :
    calc_pll_dividers_in_range cs_overflow settings_overflow 4 4 1 1 MAX_PLL_CALC_ERROR 3 =
      .done (false, settings_overflow) ∧
    relax_loop cs_overflow 4 4 1 1 4 MAX_PLL_CALC_ERROR settings_overflow =
      relax_loop cs_overflow 4 4 1 1 3 429496728 settings_overflow ∧
    next_err_tolerance MAX_PLL_CALC_ERROR = 429496728 ∧
    MAX_PLL_CALC_ERROR + max (MAX_PLL_CALC_ERROR / 10) 1 = 4724464024 ∧
    ¬ MAX_PLL_CALC_ERROR < next_err_tolerance MAX_PLL_CALC_ERROR := by
  refine ⟨by rfl, by rfl, by rfl, by rfl, by decide⟩

/-- C25, amended. After a failed full-range pass the loop goes on with the
tolerance `next_err_tolerance`, which is the previous tolerance plus
`max (previous / 10) 1` reduced to 32 bits; whenever that sum is below
`2 ^ 32` the next tolerance equals the sum and is strictly greater than the
previous tolerance. -/
theorem relaxation_increases_without_wrap (cs : calc_pll_clock_source) (s s' : pll_settings)
    (min_ref max_ref min_post max_post err_tolerance fuel : Nat)
    (hfail : calc_pll_dividers_in_range cs s min_ref max_ref min_post max_post err_tolerance
      fuel = .done (false, s')) :
    relax_loop cs min_ref max_ref min_post max_post (fuel + 1) err_tolerance s =
      relax_loop cs min_ref max_ref min_post max_post fuel
        (next_err_tolerance err_tolerance) s ∧
    next_err_tolerance err_tolerance =
      (err_tolerance + max (err_tolerance / 10) 1) % 2 ^ 32 ∧
    (err_tolerance + max (err_tolerance / 10) 1 < 2 ^ 32 →
      next_err_tolerance err_tolerance = err_tolerance + max (err_tolerance / 10) 1 ∧
      err_tolerance < next_err_tolerance err_tolerance) := by
  have hs : s' = s := calc_pll_dividers_in_range_false hfail
  subst hs
  have hstep : (if err_tolerance > 10 then err_tolerance / 10 else 1) =
      max (err_tolerance / 10) 1 := by
    split
    · rw [max_eq_left (by omega)]
    · rw [max_eq_right (by omega)]
  have hnext : next_err_tolerance err_tolerance =
      (err_tolerance + max (err_tolerance / 10) 1) % 2 ^ 32 := by
    unfold next_err_tolerance u32
    rw [hstep]
  refine ⟨?_, hnext, fun hlt => ?_⟩
  · rw [relax_loop, hfail]
    simp [Outcome.bind]
  · rw [hnext, Nat.mod_eq_of_lt hlt]
    refine ⟨rfl, ?_⟩
    have : 1 ≤ max (err_tolerance / 10) 1 := le_max_right _ _
    omega

theorem relaxation_increases_without_wrap_witness :
    relax_loop cs_coarse 1 1 1 1 (3 + 1) 28826 (settings_for 149000 0 0) =
      relax_loop cs_coarse 1 1 1 1 3 (next_err_tolerance 28826) (settings_for 149000 0 0) ∧
    next_err_tolerance 28826 = (28826 + max (28826 / 10) 1) % 2 ^ 32 ∧
    (28826 + max (28826 / 10) 1 < 2 ^ 32 →
      next_err_tolerance 28826 = 28826 + max (28826 / 10) 1 ∧
      28826 < next_err_tolerance 28826) :=
  relaxation_increases_without_wrap cs_coarse (settings_for 149000 0 0)
    (settings_for 149000 0 0) 1 1 1 1 28826 3 (by rfl)

/-- C26, at the failing input. Under `cs_low_vco` the solve for 13500 kHz
takes reference divider 1 and post divider 1, for which
`calculate_fb_and_fractional_fb_divider` returns false with feedback divider 0
(and fractional part 500000); the candidate is accepted all the same, even at
tolerance 1, and the solve stores `feedback_divider = 0`. -/
theorem zero_feedback_divider_is_accepted :
    calculate_fb_and_fractional_fb_divider cs_low_vco 13500 1 1 = .done (false, 0, 500000) ∧
    calc_fb_divider_checking_tolerance cs_low_vco (settings_for 13500 0 0) 1 1 1 =
      .done (true, solved_low_vco) ∧
    calculate_pixel_clock_pll_dividers cs_low_vco (settings_for 13500 0 0) 3 =
      .done (MAX_PLL_CALC_ERROR, solved_low_vco) ∧
    solved_low_vco.feedback_divider = 0 := by
  refine ⟨by rfl, by rfl, by rfl, by rfl⟩

/-! ## The feedback dividers -/

/-- The shape of a returning call of `calculate_fb_and_fractional_fb_divider`:
the rounded value `fd4 / (10 * pf) * pf` split by `factor`, for some 64-bit
`fd4`. -/
theorem calculate_fb_and_fractional_fb_divider_shape (cs : calc_pll_clock_source)
    (t r p : Nat) (href : cs.ref_freq_khz ≠ 0)
    (hpf : u32 (cs.fract_fb_divider_precision_factor * 10) ≠ 0)
    (hfactor : cs.fract_fb_divider_factor ≠ 0) :
    ∃ fd4, fd4 < 2 ^ 64 ∧
      calculate_fb_and_fractional_fb_divider cs t r p =
        .done (decide (u32 (u64 (fd4 / u32 (cs.fract_fb_divider_precision_factor * 10) *
              cs.fract_fb_divider_precision_factor) / cs.fract_fb_divider_factor) ≠ 0),
          u32 (u64 (fd4 / u32 (cs.fract_fb_divider_precision_factor * 10) *
              cs.fract_fb_divider_precision_factor) / cs.fract_fb_divider_factor),
          u64 (fd4 / u32 (cs.fract_fb_divider_precision_factor * 10) *
              cs.fract_fb_divider_precision_factor) % cs.fract_fb_divider_factor) := by
  refine ⟨u64 (u64 (u64 (u32 (u32 (t * r) * p) * 10) * cs.fract_fb_divider_factor) /
    cs.ref_freq_khz + u32 (5 * cs.fract_fb_divider_precision_factor)),
    Nat.mod_lt _ (by norm_num), ?_⟩
  simp only [calculate_fb_and_fractional_fb_divider, div_u64, div_u64_rem, href, hpf, hfactor,
    if_false, Outcome.bind]

/-- The C return value of `calculate_fb_and_fractional_fb_divider` says
whether the feedback divider it stored is nonzero. -/
theorem calculate_fb_and_fractional_fb_divider_flag {cs : calc_pll_clock_source}
    {t r p fb fr : Nat} {ok : Bool}
    (h : calculate_fb_and_fractional_fb_divider cs t r p = .done (ok, fb, fr)) :
    ok = true ↔ fb ≠ 0 := by
  unfold calculate_fb_and_fractional_fb_divider at h
  obtain ⟨a, -, h⟩ := Outcome.bind_eq_done.1 h
  obtain ⟨b, -, h⟩ := Outcome.bind_eq_done.1 h
  obtain ⟨c, -, h⟩ := Outcome.bind_eq_done.1 h
  simp only [Outcome.done.injEq, Prod.mk.injEq] at h
  obtain ⟨h1, h2, -⟩ := h
  rw [← h1, ← h2]
  simp

theorem pow_ten_precision {d p : Nat} (hp : 1 ≤ p) (hpd : p ≤ d) :
    10 ^ (d - p) * 10 ≤ 10 ^ d ∧ 10 ^ (d - p) ∣ 10 ^ d ∧ 0 < 10 ^ (d - p) := by
  refine ⟨?_, pow_dvd_pow 10 (Nat.sub_le _ _), by positivity⟩
  rw [← pow_succ]
  exact Nat.pow_le_pow_right (by norm_num) (by omega)

/-- C27. For a constraint set with `factor = 10 ^ d` (a 32-bit value),
`precision_factor = 10 ^ (d - p)`, `1 ≤ p ≤ d` and a nonzero reference
frequency, and for every target, reference divider and post divider,
`calculate_fb_and_fractional_fb_divider` returns, and the fractional feedback
divider it stores is below `factor` and a multiple of `precision_factor`. -/
theorem fract_feedback_divider_quantised (cs : calc_pll_clock_source) (d p t r post : Nat)
    (hfactor : cs.fract_fb_divider_factor = 10 ^ d)
    (hpf : cs.fract_fb_divider_precision_factor = 10 ^ (d - p))
    (hp : 1 ≤ p) (hpd : p ≤ d) (h32 : cs.fract_fb_divider_factor < 2 ^ 32)
    (href : 0 < cs.ref_freq_khz) :
    ∃ ok fb fr, calculate_fb_and_fractional_fb_divider cs t r post = .done (ok, fb, fr) ∧
      fr < cs.fract_fb_divider_factor ∧ cs.fract_fb_divider_precision_factor ∣ fr := by
  obtain ⟨h10, hdvd, hpos⟩ := pow_ten_precision hp hpd
  rw [← hfactor, ← hpf] at h10 hdvd
  rw [← hpf] at hpos
  have hfpos : 0 < cs.fract_fb_divider_factor := by rw [hfactor]; exact by positivity
  have hu : u32 (cs.fract_fb_divider_precision_factor * 10) =
      cs.fract_fb_divider_precision_factor * 10 := u32_of_lt (lt_of_le_of_lt h10 h32)
  obtain ⟨fd4, hfd4, hcall⟩ := calculate_fb_and_fractional_fb_divider_shape cs t r post
    (by omega) (by rw [hu]; omega) (by omega)
  rw [hu] at hcall
  have hfd6 : u64 (fd4 / (cs.fract_fb_divider_precision_factor * 10) *
      cs.fract_fb_divider_precision_factor) =
      fd4 / (cs.fract_fb_divider_precision_factor * 10) *
        cs.fract_fb_divider_precision_factor := by
    apply Nat.mod_eq_of_lt
    have h1 : fd4 / (cs.fract_fb_divider_precision_factor * 10) *
        (cs.fract_fb_divider_precision_factor * 10) ≤ fd4 := Nat.div_mul_le_self _ _
    have h2 : fd4 / (cs.fract_fb_divider_precision_factor * 10) *
        cs.fract_fb_divider_precision_factor ≤
        fd4 / (cs.fract_fb_divider_precision_factor * 10) *
          (cs.fract_fb_divider_precision_factor * 10) :=
      Nat.mul_le_mul_left _ (Nat.le_mul_of_pos_right _ (by norm_num))
    omega
  rw [hfd6] at hcall
  refine ⟨_, _, _, hcall, Nat.mod_lt _ hfpos, ?_⟩
  rw [Nat.dvd_mod_iff hdvd]
  exact Dvd.intro_left _ rfl

theorem fract_feedback_divider_quantised_witness :
    ∃ ok fb fr, calculate_fb_and_fractional_fb_divider cs_coarse 149000 1 1 =
        .done (ok, fb, fr) ∧
      fr < cs_coarse.fract_fb_divider_factor ∧
      cs_coarse.fract_fb_divider_precision_factor ∣ fr :=
  fract_feedback_divider_quantised cs_coarse 6 1 149000 1 1 (by rfl) (by rfl) (by decide)
    (by decide) (by decide) (by decide)

/-- The value of `calculate_fb_and_fractional_fb_divider` when none of its
intermediate values leaves its C type: the scaled quotient, rounded at the
precision boundary, split by `factor`. -/
theorem calculate_fb_and_fractional_fb_divider_exact (cs : calc_pll_clock_source)
    (t r p : Nat) (href : 0 < cs.ref_freq_khz)
    (hpf : 0 < cs.fract_fb_divider_precision_factor)
    (hpf10 : cs.fract_fb_divider_precision_factor * 10 < 2 ^ 32)
    (hfactor : 0 < cs.fract_fb_divider_factor)
    (hX : t * r * p < 2 ^ 32)
    (hov : t * r * p * 10 * cs.fract_fb_divider_factor +
      5 * cs.fract_fb_divider_precision_factor < 2 ^ 64) :
    calculate_fb_and_fractional_fb_divider cs t r p =
      .done (decide (u32 ((t * r * p * 10 * cs.fract_fb_divider_factor / cs.ref_freq_khz +
              5 * cs.fract_fb_divider_precision_factor) /
              (cs.fract_fb_divider_precision_factor * 10) *
              cs.fract_fb_divider_precision_factor / cs.fract_fb_divider_factor) ≠ 0),
        u32 ((t * r * p * 10 * cs.fract_fb_divider_factor / cs.ref_freq_khz +
              5 * cs.fract_fb_divider_precision_factor) /
              (cs.fract_fb_divider_precision_factor * 10) *
              cs.fract_fb_divider_precision_factor / cs.fract_fb_divider_factor),
        (t * r * p * 10 * cs.fract_fb_divider_factor / cs.ref_freq_khz +
              5 * cs.fract_fb_divider_precision_factor) /
              (cs.fract_fb_divider_precision_factor * 10) *
              cs.fract_fb_divider_precision_factor % cs.fract_fb_divider_factor) := by
  have e0 : u32 (u32 (t * r) * p) = t * r * p := by
    unfold u32
    rw [Nat.mod_mul_mod]
    exact Nat.mod_eq_of_lt hX
  have hle : t * r * p * 10 ≤ t * r * p * 10 * cs.fract_fb_divider_factor :=
    Nat.le_mul_of_pos_right _ hfactor
  have e1 : u64 (t * r * p * 10) = t * r * p * 10 := Nat.mod_eq_of_lt (by omega)
  have e2 : u64 (t * r * p * 10 * cs.fract_fb_divider_factor) =
      t * r * p * 10 * cs.fract_fb_divider_factor := Nat.mod_eq_of_lt (by omega)
  have e3 : u32 (5 * cs.fract_fb_divider_precision_factor) =
      5 * cs.fract_fb_divider_precision_factor := u32_of_lt (by omega)
  have e4 : u32 (cs.fract_fb_divider_precision_factor * 10) =
      cs.fract_fb_divider_precision_factor * 10 := u32_of_lt hpf10
  have hdiv : t * r * p * 10 * cs.fract_fb_divider_factor / cs.ref_freq_khz ≤
      t * r * p * 10 * cs.fract_fb_divider_factor := Nat.div_le_self _ _
  have e5 : u64 (t * r * p * 10 * cs.fract_fb_divider_factor / cs.ref_freq_khz +
      5 * cs.fract_fb_divider_precision_factor) =
      t * r * p * 10 * cs.fract_fb_divider_factor / cs.ref_freq_khz +
      5 * cs.fract_fb_divider_precision_factor := Nat.mod_eq_of_lt (by omega)
  have e6 : u64 ((t * r * p * 10 * cs.fract_fb_divider_factor / cs.ref_freq_khz +
      5 * cs.fract_fb_divider_precision_factor) /
      (cs.fract_fb_divider_precision_factor * 10) * cs.fract_fb_divider_precision_factor) =
      (t * r * p * 10 * cs.fract_fb_divider_factor / cs.ref_freq_khz +
      5 * cs.fract_fb_divider_precision_factor) /
      (cs.fract_fb_divider_precision_factor * 10) * cs.fract_fb_divider_precision_factor := by
    apply Nat.mod_eq_of_lt
    have ha : t * r * p * 10 * cs.fract_fb_divider_factor / cs.ref_freq_khz +
      5 * cs.fract_fb_divider_precision_factor < 2 ^ 64 := by omega
    generalize t * r * p * 10 * cs.fract_fb_divider_factor / cs.ref_freq_khz +
      5 * cs.fract_fb_divider_precision_factor = a at ha ⊢
    have h1 : a / (cs.fract_fb_divider_precision_factor * 10) *
        (cs.fract_fb_divider_precision_factor * 10) ≤ a := Nat.div_mul_le_self _ _
    have h2 : a / (cs.fract_fb_divider_precision_factor * 10) *
        cs.fract_fb_divider_precision_factor ≤
        a / (cs.fract_fb_divider_precision_factor * 10) *
          (cs.fract_fb_divider_precision_factor * 10) :=
      Nat.mul_le_mul_left _ (Nat.le_mul_of_pos_right _ (by norm_num))
    omega
  simp only [calculate_fb_and_fractional_fb_divider, div_u64, div_u64_rem, Outcome.bind,
    e0, e1, e2, e3, e4, e5, e6, Nat.ne_of_gt href, Nat.ne_of_gt hfactor,
    Nat.ne_of_gt (Nat.mul_pos hpf (by norm_num : 0 < 10)), if_false]

/-- The rounded quotient reaches `factor` once the scaled target reaches
the reference frequency, and stays below `(x + 1) * factor`. -/
theorem rounded_quotient_bounds {x F P R : Nat} (hR : 0 < R) (hP : 0 < P) (hdvd : P ∣ F)
    (hP10 : P * 10 ≤ F) (hRx : R ≤ x) :
    F ≤ (x * 10 * F / R + 5 * P) / (P * 10) * P ∧
      (x * 10 * F / R + 5 * P) / (P * 10) * P < (x + 1) * F := by
  have hA : F * 10 ≤ x * 10 * F / R := by
    rw [Nat.le_div_iff_mul_le hR]
    calc F * 10 * R ≤ F * 10 * x := Nat.mul_le_mul_left _ hRx
      _ = x * 10 * F := by ring
  have hA2 : x * 10 * F / R ≤ x * 10 * F := Nat.div_le_self _ _
  generalize x * 10 * F / R = A at hA hA2
  have h1 : (A + 5 * P) / (P * 10) * (P * 10) ≤ A + 5 * P := Nat.div_mul_le_self _ _
  have h2 : F / P ≤ (A + 5 * P) / (P * 10) := by
    rw [Nat.le_div_iff_mul_le (Nat.mul_pos hP (by norm_num))]
    calc F / P * (P * 10) = F / P * P * 10 := by ring
      _ = F * 10 := by rw [Nat.div_mul_cancel hdvd]
      _ ≤ A + 5 * P := by omega
  constructor
  · calc F = F / P * P := (Nat.div_mul_cancel hdvd).symm
      _ ≤ (A + 5 * P) / (P * 10) * P := Nat.mul_le_mul_right _ h2
  · have h3 : (A + 5 * P) / (P * 10) * P * 10 ≤ A + 5 * P := by
      calc (A + 5 * P) / (P * 10) * P * 10 = (A + 5 * P) / (P * 10) * (P * 10) := by ring
        _ ≤ A + 5 * P := h1
    have h4 : (x + 1) * F * 10 = x * 10 * F + F * 10 := by ring
    generalize (A + 5 * P) / (P * 10) * P = Q at h3 ⊢
    generalize (x + 1) * F = Z at h4 ⊢
    omega

/-- C29, against the claim as written. With nine decimal digits, reference
frequency 27000 and target 1844674408 (reference and post divider 1) the
scaled target is at least the reference frequency and below `2 ^ 32`, yet
`calculate_fb_and_fractional_fb_divider` returns false with feedback divider
0: the product `target * 10 * factor` leaves 64 bits. -/
theorem feedback_divider_zero_on_wrapped_64_bit_product :
    cs_nine_digits.fract_fb_divider_factor = 10 ^ 9 ∧
    cs_nine_digits.fract_fb_divider_precision_factor = 10 ^ (9 - 9) ∧
    0 < cs_nine_digits.ref_freq_khz ∧
    cs_nine_digits.ref_freq_khz ≤ 1844674408 * 1 * 1 ∧
    1844674408 * 1 * 1 < 2 ^ 32 ∧
    calculate_fb_and_fractional_fb_divider cs_nine_digits 1844674408 1 1 =
      .done (false, 0, 23298) := by
  refine ⟨by rfl, by rfl, by decide, by decide, by decide, ?_⟩
  simp [calculate_fb_and_fractional_fb_divider, cs_nine_digits, cs_1080p, div_u64,
    div_u64_rem, Outcome.bind, u32, u64]

/-- C29, amended. For a constraint set with `factor = 10 ^ d` (a 32-bit
value), `precision_factor = 10 ^ (d - p)`, `1 ≤ p ≤ d`, a nonzero reference
frequency, and a target, reference divider and post divider with
`ref_freq_khz ≤ target * ref * post < 2 ^ 32` and
`target * ref * post * 10 * factor + 5 * precision_factor < 2 ^ 64`,
`calculate_fb_and_fractional_fb_divider` returns true with a feedback divider
of at least 1; and whenever it returns, on any input, it returns true exactly
when the feedback divider it stored is nonzero. -/
theorem feedback_divider_nonzero_without_wrap (cs : calc_pll_clock_source) (d p t r post : Nat)
    (hfactor : cs.fract_fb_divider_factor = 10 ^ d)
    (hpf : cs.fract_fb_divider_precision_factor = 10 ^ (d - p))
    (hp : 1 ≤ p) (hpd : p ≤ d) (h32 : cs.fract_fb_divider_factor < 2 ^ 32)
    (href : 0 < cs.ref_freq_khz)
    (hle : cs.ref_freq_khz ≤ t * r * post) (hX : t * r * post < 2 ^ 32)
    (hov : t * r * post * 10 * cs.fract_fb_divider_factor +
      5 * cs.fract_fb_divider_precision_factor < 2 ^ 64) :
    (∃ fb fr, calculate_fb_and_fractional_fb_divider cs t r post = .done (true, fb, fr) ∧
      1 ≤ fb) ∧
    ∀ (t' r' post' fb fr : Nat) (ok : Bool),
      calculate_fb_and_fractional_fb_divider cs t' r' post' = .done (ok, fb, fr) →
        (ok = true ↔ fb ≠ 0) := by
  refine ⟨?_, fun _ _ _ _ _ _ h => calculate_fb_and_fractional_fb_divider_flag h⟩
  obtain ⟨h10, hdvd, hpos⟩ := pow_ten_precision hp hpd
  rw [← hfactor, ← hpf] at h10 hdvd
  rw [← hpf] at hpos
  have hfpos : 0 < cs.fract_fb_divider_factor := by rw [hfactor]; positivity
  have hcall := calculate_fb_and_fractional_fb_divider_exact cs t r post href hpos
    (lt_of_le_of_lt h10 h32) hfpos hX hov
  obtain ⟨hlo, hhi⟩ := rounded_quotient_bounds (x := t * r * post) href hpos hdvd h10 hle
  generalize (t * r * post * 10 * cs.fract_fb_divider_factor / cs.ref_freq_khz +
    5 * cs.fract_fb_divider_precision_factor) /
    (cs.fract_fb_divider_precision_factor * 10) *
    cs.fract_fb_divider_precision_factor = Q at hcall hlo hhi
  have h1 : 1 ≤ Q / cs.fract_fb_divider_factor := by
    rw [Nat.le_div_iff_mul_le hfpos]; omega
  have h2 : Q / cs.fract_fb_divider_factor < t * r * post + 1 := by
    rw [Nat.div_lt_iff_lt_mul hfpos]; exact hhi
  have h3 : u32 (Q / cs.fract_fb_divider_factor) = Q / cs.fract_fb_divider_factor :=
    u32_of_lt (by omega)
  rw [h3] at hcall
  refine ⟨Q / cs.fract_fb_divider_factor, Q % cs.fract_fb_divider_factor, ?_, h1⟩
  rw [hcall]
  simp only [Outcome.done.injEq, Prod.mk.injEq, and_true, decide_eq_true_eq]
  omega

theorem feedback_divider_nonzero_without_wrap_witness :
    (∃ fb fr, calculate_fb_and_fractional_fb_divider cs_1080p 148500 1 1 =
        .done (true, fb, fr) ∧ 1 ≤ fb) ∧
    ∀ (t' r' post' fb fr : Nat) (ok : Bool),
      calculate_fb_and_fractional_fb_divider cs_1080p t' r' post' = .done (ok, fb, fr) →
        (ok = true ↔ fb ≠ 0) :=
  feedback_divider_nonzero_without_wrap cs_1080p 6 6 148500 1 1 (by rfl) (by rfl) (by decide)
    (by decide) (by decide) (by decide) (by decide) (by decide) (by decide)

/-! ## The VCO frequency of the result -/

/-- Every post divider of the derived range puts the VCO frequency of the
target, `p * adjusted_pix_clk`, inside the VCO limits. -/
theorem post_divider_range_mem_vco {cs : calc_pll_clock_source} {s : pll_settings} {p : Nat}
    (ht : s.adjusted_pix_clk ≠ 0) (hpin : s.pix_clk_post_divider = 0)
    (hvco : cs.min_vco_khz < 2 ^ 32)
    (hmin : cs.min_pix_clock_pll_post_divider * s.adjusted_pix_clk < 2 ^ 32)
    (hmax : cs.max_pix_clock_pll_post_divider * s.adjusted_pix_clk < 2 ^ 32)
    (h1 : (post_divider_range cs s).1 ≤ p) (h2 : p ≤ (post_divider_range cs s).2) :
    cs.min_vco_khz ≤ p * s.adjusted_pix_clk ∧ p * s.adjusted_pix_clk ≤ cs.max_vco_khz := by
  have htp : 0 < s.adjusted_pix_clk := Nat.pos_of_ne_zero ht
  have hq : cs.min_vco_khz / s.adjusted_pix_clk * s.adjusted_pix_clk ≤ cs.min_vco_khz :=
    Nat.div_mul_le_self _ _
  have hq1 : cs.min_vco_khz / s.adjusted_pix_clk ≤
      cs.min_vco_khz / s.adjusted_pix_clk * s.adjusted_pix_clk :=
    Nat.le_mul_of_pos_right _ htp
  have hq2 : cs.min_vco_khz <
      (cs.min_vco_khz / s.adjusted_pix_clk + 1) * s.adjusted_pix_clk := by
    have := @Nat.lt_div_mul_add cs.min_vco_khz s.adjusted_pix_clk htp
    rw [Nat.add_mul]; omega
  simp only [post_divider_range, hpin, ne_eq, not_true_eq_false, if_false] at h1 h2
  rw [u32_of_lt hmin, u32_of_lt (lt_of_le_of_lt hq hvco)] at h1
  rw [u32_of_lt hmax] at h2
  constructor
  · split at h1
    · split at h1
      · rw [u32_of_lt (by omega)] at h1
        exact le_trans (le_of_lt hq2) (Nat.mul_le_mul_right _ h1)
      · rename_i hge
        exact le_trans (Nat.not_lt.1 hge) (Nat.mul_le_mul_right _ h1)
    · rename_i hge
      exact le_trans (Nat.not_lt.1 hge) (Nat.mul_le_mul_right _ h1)
  · split at h2
    · exact (Nat.le_div_iff_mul_le htp).1 h2
    · rename_i hge
      exact le_trans (Nat.mul_le_mul_right _ h2) (Nat.not_lt.1 hge)

/-- C23, against the claim as written. Under `cs_vco_edge` (VCO range
`[600000, 1200000]`, post dividers 1 to 4) the target 150000 with no pinned
divider is solved with post divider 4 and achieved frequency 149999, and the
stored `vco_freq = 149999 * 4 = 599996` lies below `min_vco_khz`. -/
theorem solved_vco_freq_below_min_vco :
    (settings_for 150000 0 0).pix_clk_post_divider = 0 ∧
    post_divider_range cs_vco_edge (settings_for 150000 0 0) = (4, 4) ∧
    calculate_pixel_clock_pll_dividers cs_vco_edge (settings_for 150000 0 0) 3 =
      .done (MAX_PLL_CALC_ERROR, solved_vco_edge) ∧
    solved_vco_edge.vco_freq =
      solved_vco_edge.calculated_pix_clk * solved_vco_edge.pix_clk_post_divider ∧
    solved_vco_edge.vco_freq < cs_vco_edge.min_vco_khz := by
  refine ⟨by rfl, by rfl, by rfl, by rfl, by decide⟩

/-- C23, amended. For a successful solve with a nonzero target, no pinned
post divider and the two 32-bit products `min_post * target` and
`max_post * target` not overflowing, the selected post divider puts the VCO
frequency of the target, `pix_clk_post_divider * adjusted_pix_clk`, inside
`[min_vco_khz, max_vco_khz]`; the stored `vco_freq` is the 32-bit product
`calculated_pix_clk * pix_clk_post_divider` of the achieved frequency, which
is within the absolute tolerance of the successful pass of the target. -/
theorem selected_post_divider_vco_admissible (cs : calc_pll_clock_source) (s s' : pll_settings)
    (rr : Nat × Nat) (fuel e : Nat)
    (hcs : cs.is_u32) (hs : s.is_u32)
    (ht : s.adjusted_pix_clk ≠ 0) (hpin : s.pix_clk_post_divider = 0)
    (hmin : cs.min_pix_clock_pll_post_divider * s.adjusted_pix_clk < 2 ^ 32)
    (hmax : cs.max_pix_clock_pll_post_divider * s.adjusted_pix_clk < 2 ^ 32)
    (hp : (post_divider_range cs s).1 ≤ (post_divider_range cs s).2)
    (hr : ref_divider_range cs s = .done rr) (hrr : rr.1 ≤ rr.2)
    (h : calculate_pixel_clock_pll_dividers cs s fuel = .done (e, s')) :
    cs.min_vco_khz ≤ s'.pix_clk_post_divider * s.adjusted_pix_clk ∧
    s'.pix_clk_post_divider * s.adjusted_pix_clk ≤ cs.max_vco_khz ∧
    s'.vco_freq = u32 (s'.calculated_pix_clk * s'.pix_clk_post_divider) ∧
    abs_err s'.calculated_pix_clk s.adjusted_pix_clk ≤ abs_tolerance s.adjusted_pix_clk e := by
  rw [calculate_pixel_clock_pll_dividers_eq_relax_loop ht hp hr hrr] at h
  obtain ⟨fuel', hpass⟩ := relax_loop_done _ _ _ _ _ h
  obtain ⟨p, r, hp1, hp2, hr1, hr2, hc⟩ :=
    calc_pll_dividers_in_range_true (ref_divider_range_fst_lt hcs hs hr) hrr
      (post_divider_range_snd_lt hcs hs) hpass
  obtain ⟨ok, fb, fr, actual, -, -, herr, hs'⟩ := calc_fb_divider_checking_tolerance_true hc
  subst hs'
  obtain ⟨hlo, hhi⟩ := post_divider_range_mem_vco ht hpin hcs.2.2.2.2.2.1 hmin hmax hp1 hp2
  exact ⟨hlo, hhi, rfl, herr⟩

theorem selected_post_divider_vco_admissible_witness :
    cs_vco_edge.min_vco_khz ≤
      solved_vco_edge.pix_clk_post_divider * (settings_for 150000 0 0).adjusted_pix_clk ∧
    solved_vco_edge.pix_clk_post_divider * (settings_for 150000 0 0).adjusted_pix_clk ≤
      cs_vco_edge.max_vco_khz ∧
    solved_vco_edge.vco_freq =
      u32 (solved_vco_edge.calculated_pix_clk * solved_vco_edge.pix_clk_post_divider) ∧
    abs_err solved_vco_edge.calculated_pix_clk (settings_for 150000 0 0).adjusted_pix_clk ≤
      abs_tolerance (settings_for 150000 0 0).adjusted_pix_clk MAX_PLL_CALC_ERROR :=
  selected_post_divider_vco_admissible cs_vco_edge (settings_for 150000 0 0) solved_vco_edge
    (1, 2) 3 MAX_PLL_CALC_ERROR (by unfold calc_pll_clock_source.is_u32; decide)
    (by unfold pll_settings.is_u32; decide) (by decide) (by rfl) (by decide) (by decide)
    (by decide) (by rfl) (by decide) (by rfl)

/-! ## The first pass under a full-precision configuration -/

/-- Rounding the scaled quotient to an integer and dividing back loses at
most one unit of the target when the reference frequency is below twice
`factor`. -/
theorem back_calculation_bounds {t r p F R : Nat} (hR : 0 < R) (hRF : R < 2 * F)
    (hr : 1 ≤ r) (hp : 1 ≤ p) :
    (t * r * p * 10 * F / R + 5) / 10 * R < (t + 1) * (r * p * F) ∧
      t * (r * p * F) < (t * r * p * 10 * F / R + 5) / 10 * R + r * p * F := by
  have hA1 : t * r * p * 10 * F / R * R ≤ t * r * p * 10 * F := Nat.div_mul_le_self _ _
  have hA2 : t * r * p * 10 * F < t * r * p * 10 * F / R * R + R := by
    have := @Nat.lt_div_mul_add (t * r * p * 10 * F) R hR
    omega
  generalize t * r * p * 10 * F / R = A at hA1 hA2
  have hQ1 : (A + 5) / 10 * 10 ≤ A + 5 := Nat.div_mul_le_self _ _
  have hQ2 : A + 5 < (A + 5) / 10 * 10 + 10 := @Nat.lt_div_mul_add (A + 5) 10 (by norm_num)
  generalize (A + 5) / 10 = Q at hQ1 hQ2
  have h1 : Q * 10 * R ≤ (A + 5) * R := Nat.mul_le_mul_right _ hQ1
  have h2 : (A + 5 + 1) * R ≤ (Q * 10 + 10) * R := Nat.mul_le_mul_right _ hQ2
  have e1 : Q * 10 * R = 10 * (Q * R) := by ring
  have e2 : (A + 5) * R = A * R + 5 * R := by ring
  have e3 : (A + 5 + 1) * R = A * R + 6 * R := by ring
  have e4 : (Q * 10 + 10) * R = 10 * (Q * R) + 10 * R := by ring
  have e5 : t * r * p * 10 * F = 10 * (t * (r * p * F)) := by ring
  have e6 : (t + 1) * (r * p * F) = t * (r * p * F) + r * p * F := by ring
  have hD : F ≤ r * p * F := Nat.le_mul_of_pos_left _ (Nat.mul_pos hr hp)
  rw [e1, e2] at h1
  rw [e3, e4] at h2
  rw [e5] at hA1 hA2
  rw [e6]
  generalize t * (r * p * F) = T at *
  generalize r * p * F = D at *
  generalize Q * R = QR at *
  generalize A * R = AR at *
  constructor <;> omega

/-- Under a full-precision configuration whose reference frequency is below
twice `factor`, a candidate with nonzero dividers whose products stay within
their C types is accepted at every tolerance of at least 1, with an achieved
frequency equal to the target or one below it. -/
theorem candidate_accepted_near_target {cs : calc_pll_clock_source} {s : pll_settings}
    {r p tol : Nat}
    (hpf : cs.fract_fb_divider_precision_factor = 1)
    (hR : 0 < cs.ref_freq_khz) (hRF : cs.ref_freq_khz < 2 * cs.fract_fb_divider_factor)
    (hr : 1 ≤ r) (hp : 1 ≤ p)
    (hX : s.adjusted_pix_clk * r * p < 2 ^ 32)
    (hD : r * p * cs.fract_fb_divider_factor < 2 ^ 32)
    (hov : s.adjusted_pix_clk * r * p * 10 * cs.fract_fb_divider_factor + 5 < 2 ^ 64)
    (hfb : ∀ (ok : Bool) (fb fr : Nat),
      calculate_fb_and_fractional_fb_divider cs s.adjusted_pix_clk r p = .done (ok, fb, fr) →
        fb * cs.fract_fb_divider_factor < 2 ^ 32)
    (htol : 1 ≤ tol) :
    ∃ s1, calc_fb_divider_checking_tolerance cs s r p tol = .done (true, s1) ∧
      s1.pix_clk_post_divider = p ∧ s1.reference_divider = r ∧
      (s1.calculated_pix_clk = s.adjusted_pix_clk ∨
        s1.calculated_pix_clk = s.adjusted_pix_clk - 1) := by
  have hF : 0 < cs.fract_fb_divider_factor := by omega
  have hrp : 0 < r * p := Nat.mul_pos hr hp
  have hDF : cs.fract_fb_divider_factor ≤ r * p * cs.fract_fb_divider_factor :=
    Nat.le_mul_of_pos_left _ hrp
  have ht32 : s.adjusted_pix_clk < 2 ^ 32 := by
    have : s.adjusted_pix_clk ≤ s.adjusted_pix_clk * (r * p) := Nat.le_mul_of_pos_right _ hrp
    rw [← Nat.mul_assoc] at this
    omega
  have hcall := calculate_fb_and_fractional_fb_divider_exact cs s.adjusted_pix_clk r p hR
    (by omega) (by omega) hF hX (by omega)
  rw [hpf] at hcall
  simp only [Nat.mul_one, Nat.one_mul] at hcall
  obtain ⟨hhi, hlo⟩ := back_calculation_bounds (t := s.adjusted_pix_clk) hR hRF hr hp
  have hQle : (s.adjusted_pix_clk * r * p * 10 * cs.fract_fb_divider_factor / cs.ref_freq_khz + 5)
      / 10 ≤ s.adjusted_pix_clk * r * p * cs.fract_fb_divider_factor := by
    have h1 : s.adjusted_pix_clk * r * p * 10 * cs.fract_fb_divider_factor / cs.ref_freq_khz ≤
        s.adjusted_pix_clk * r * p * 10 * cs.fract_fb_divider_factor := Nat.div_le_self _ _
    have h2 : s.adjusted_pix_clk * r * p * 10 * cs.fract_fb_divider_factor =
        10 * (s.adjusted_pix_clk * r * p * cs.fract_fb_divider_factor) := by ring
    omega
  generalize (s.adjusted_pix_clk * r * p * 10 * cs.fract_fb_divider_factor / cs.ref_freq_khz + 5)
      / 10 = Q at hcall hhi hlo hQle
  have hQF : Q / cs.fract_fb_divider_factor ≤ s.adjusted_pix_clk * r * p :=
    Nat.div_le_of_le_mul (by rw [Nat.mul_comm]; exact hQle)
  have hu : u32 (Q / cs.fract_fb_divider_factor) = Q / cs.fract_fb_divider_factor :=
    u32_of_lt (by omega)
  rw [hu] at hcall
  have hfb1 := hfb _ _ _ hcall
  have hsplit : Q / cs.fract_fb_divider_factor * cs.fract_fb_divider_factor +
      Q % cs.fract_fb_divider_factor = Q := Nat.div_add_mod' _ _
  have hmod : Q % cs.fract_fb_divider_factor < cs.fract_fb_divider_factor := Nat.mod_lt _ hF
  have hQR : Q * cs.ref_freq_khz < 2 ^ 64 := by
    have h1 : (s.adjusted_pix_clk + 1) * (r * p * cs.fract_fb_divider_factor) ≤
        2 ^ 32 * (r * p * cs.fract_fb_divider_factor) := Nat.mul_le_mul_right _ (by omega)
    have h2 : 2 ^ 32 * (r * p * cs.fract_fb_divider_factor) < 2 ^ 32 * 2 ^ 32 :=
      Nat.mul_lt_mul_of_pos_left hD (by norm_num)
    have h3 : (2 : Nat) ^ 32 * 2 ^ 32 = 2 ^ 64 := by norm_num
    omega
  have hden : u32 (u32 (r * p) * cs.fract_fb_divider_factor) =
      r * p * cs.fract_fb_divider_factor := by
    unfold u32
    rw [Nat.mod_mul_mod]
    exact Nat.mod_eq_of_lt hD
  have hq1 : Q * cs.ref_freq_khz / (r * p * cs.fract_fb_divider_factor) <
      s.adjusted_pix_clk + 1 := by
    rw [Nat.div_lt_iff_lt_mul (by omega)]; exact hhi
  have hq2 : s.adjusted_pix_clk - 1 ≤
      Q * cs.ref_freq_khz / (r * p * cs.fract_fb_divider_factor) := by
    rw [Nat.le_div_iff_mul_le (by omega), Nat.sub_mul]
    omega
  have hact : actual_calculated_clock_khz cs r p (Q / cs.fract_fb_divider_factor)
      (Q % cs.fract_fb_divider_factor) =
      .done (Q * cs.ref_freq_khz / (r * p * cs.fract_fb_divider_factor)) := by
    have ha0 : u64 (u32 (Q / cs.fract_fb_divider_factor * cs.fract_fb_divider_factor) +
        Q % cs.fract_fb_divider_factor) = Q := by
      rw [u32_of_lt hfb1, hsplit]
      exact Nat.mod_eq_of_lt (by omega)
    have ha1 : u64 (Q * cs.ref_freq_khz) = Q * cs.ref_freq_khz := Nat.mod_eq_of_lt hQR
    have ha2 : u32 (Q * cs.ref_freq_khz / (r * p * cs.fract_fb_divider_factor)) =
        Q * cs.ref_freq_khz / (r * p * cs.fract_fb_divider_factor) := u32_of_lt (by omega)
    simp only [actual_calculated_clock_khz, ha0, ha1, hden, div_u64, Outcome.bind, ha2,
      Nat.ne_of_gt (lt_of_lt_of_le hF hDF), if_false]
  have habs : abs_err (Q * cs.ref_freq_khz / (r * p * cs.fract_fb_divider_factor))
      s.adjusted_pix_clk ≤ tol := by
    unfold abs_err
    split <;> omega
  refine ⟨{ s with
      reference_freq := cs.ref_freq_khz
      reference_divider := r
      feedback_divider := Q / cs.fract_fb_divider_factor
      fract_feedback_divider := Q % cs.fract_fb_divider_factor
      pix_clk_post_divider := p
      calculated_pix_clk := Q * cs.ref_freq_khz / (r * p * cs.fract_fb_divider_factor)
      vco_freq := u32 (Q * cs.ref_freq_khz / (r * p * cs.fract_fb_divider_factor) * p) },
    ?_, rfl, rfl, ?_⟩
  · unfold calc_fb_divider_checking_tolerance
    rw [hcall]
    simp only [Outcome.bind]
    rw [hact]
    simp only [Outcome.bind, habs, if_true]
  · simp only []
    omega

theorem abs_tolerance_pos (t e : Nat) : 1 ≤ abs_tolerance t e := by
  unfold abs_tolerance CALC_PLL_CLK_SRC_ERR_TOLERANCE
  simp only []
  split <;> omega

theorem scaling_overflow_candidate_rejected (tol : Nat) (h : tol ≤ 429496) :
    calc_fb_divider_checking_tolerance cs_scaling_overflow (settings_for 2000000000 0 0) 1 1 tol =
      .done (false, settings_for 2000000000 0 0) := by
  have e1 : calculate_fb_and_fractional_fb_divider cs_scaling_overflow
      (settings_for 2000000000 0 0).adjusted_pix_clk 1 1 = .done (false, 0, 77662796) := by rfl
  have e2 : actual_calculated_clock_khz cs_scaling_overflow 1 1 0 77662796 =
      .done 155325592 := by rfl
  have e3 : abs_err 155325592 (settings_for 2000000000 0 0).adjusted_pix_clk = 1844674408 := by
    rfl
  unfold calc_fb_divider_checking_tolerance
  rw [e1]
  simp only [Outcome.bind, e2, e3]
  rw [if_neg (by omega)]

theorem scaling_overflow_pass_fails (err fuel : Nat) :
    calc_pll_dividers_in_range cs_scaling_overflow (settings_for 2000000000 0 0) 1 1 1 1 err
        fuel = .spin ∨
    calc_pll_dividers_in_range cs_scaling_overflow (settings_for 2000000000 0 0) 1 1 1 1 err
        fuel = .done (false, settings_for 2000000000 0 0) := by
  have hc := scaling_overflow_candidate_rejected _
    (abs_tolerance_le_ceiling (settings_for 2000000000 0 0).adjusted_pix_clk err)
  unfold calc_pll_dividers_in_range
  rcases fuel with _ | _ | _ | fuel
  · left; rfl
  · left; rfl
  · left
    simp [post_divider_loop, ref_divider_loop, hc, Outcome.bind]
  · right
    simp [post_divider_loop, ref_divider_loop, hc, Outcome.bind, u32]

/-- C28, against the claim as written. (i) With a reference frequency of
exactly twice `factor` (`cs_ref_double`) and the odd target 4000001, every
condition of the claim holds and the solve returns after one pass, but the
achieved frequency is `target + 1`, neither the target nor one below it.
(ii) With nine decimal digits (`cs_scaling_overflow`) and target 2000000000
no 32-bit product overflows, yet the 64-bit product `target * 10 * factor`
does: the only candidate back-calculates to 155325592, is rejected at every
tolerance, and the solve never returns. -/
theorem first_pass_misses_on_wide_reference :
    (cs_ref_double.fract_fb_divider_precision_factor = 1 ∧
      0 < cs_ref_double.ref_freq_khz ∧
      cs_ref_double.ref_freq_khz ≤ 2 * cs_ref_double.fract_fb_divider_factor ∧
      post_divider_range cs_ref_double (settings_for 4000001 0 0) = (1, 1) ∧
      ref_divider_range cs_ref_double (settings_for 4000001 0 0) = .done (1, 1) ∧
      4000001 * 1 * 1 < 2 ^ 32 ∧
      solved_ref_double.feedback_divider * cs_ref_double.fract_fb_divider_factor < 2 ^ 32 ∧
      1 * 1 * cs_ref_double.fract_fb_divider_factor < 2 ^ 32 ∧
      solved_ref_double.calculated_pix_clk * 1 < 2 ^ 32 ∧
      calculate_pixel_clock_pll_dividers cs_ref_double (settings_for 4000001 0 0) 3 =
        .done (MAX_PLL_CALC_ERROR, solved_ref_double) ∧
      solved_ref_double.calculated_pix_clk = 4000001 + 1) ∧
    (cs_scaling_overflow.fract_fb_divider_precision_factor = 1 ∧
      0 < cs_scaling_overflow.ref_freq_khz ∧
      cs_scaling_overflow.ref_freq_khz ≤ 2 * cs_scaling_overflow.fract_fb_divider_factor ∧
      post_divider_range cs_scaling_overflow (settings_for 2000000000 0 0) = (1, 1) ∧
      ref_divider_range cs_scaling_overflow (settings_for 2000000000 0 0) = .done (1, 1) ∧
      2000000000 * 1 * 1 < 2 ^ 32 ∧
      calculate_fb_and_fractional_fb_divider cs_scaling_overflow 2000000000 1 1 =
        .done (false, 0, 77662796) ∧
      0 * cs_scaling_overflow.fract_fb_divider_factor < 2 ^ 32 ∧
      1 * 1 * cs_scaling_overflow.fract_fb_divider_factor < 2 ^ 32 ∧
      actual_calculated_clock_khz cs_scaling_overflow 1 1 0 77662796 = .done 155325592 ∧
      155325592 * 1 < 2 ^ 32 ∧
      ∀ fuel : Nat,
        calculate_pixel_clock_pll_dividers cs_scaling_overflow (settings_for 2000000000 0 0)
          fuel = .spin) := by
  refine ⟨⟨by rfl, by decide, by decide, by rfl, by rfl, by decide, by decide, by decide,
    by decide, by rfl, by rfl⟩,
    ⟨by rfl, by decide, by decide, by rfl, by rfl, by decide, by rfl, by decide, by decide,
      by rfl, by decide, fun fuel => ?_⟩⟩
  have hr : ref_divider_range cs_scaling_overflow (settings_for 2000000000 0 0) =
      .done (1, 1) := rfl
  rw [calculate_pixel_clock_pll_dividers_eq_relax_loop (by decide) (by decide) hr (by decide)]
  exact relax_loop_spin scaling_overflow_pass_fails fuel _

/-- C28, amended. For a constraint set with `precision_factor = 1` and
`0 < ref_freq_khz < 2 * factor`, a nonzero target with no inverted derived
range and derived minimum dividers of at least 1, and every candidate
`(ref, post)` of the derived ranges satisfying `target * ref * post < 2 ^ 32`,
`ref * post * factor < 2 ^ 32`, `target * ref * post * 10 * factor + 5 < 2 ^ 64`
and `feedback_divider * factor < 2 ^ 32` for the feedback divider the code
computes: every candidate is accepted at every tolerance of at least 1 with a
back-calculated frequency equal to the target or one below it, and with fuel
for one pass the solve returns `MAX_PLL_CALC_ERROR`, the tolerance of the
first pass, with the derived maximum post divider and the derived minimum
reference divider. -/
theorem first_pass_selects_max_vco_candidate (cs : calc_pll_clock_source) (s : pll_settings)
    (rr : Nat × Nat) (fuel : Nat)
    (hpf : cs.fract_fb_divider_precision_factor = 1)
    (hR : 0 < cs.ref_freq_khz) (hRF : cs.ref_freq_khz < 2 * cs.fract_fb_divider_factor)
    (ht : s.adjusted_pix_clk ≠ 0)
    (hp : (post_divider_range cs s).1 ≤ (post_divider_range cs s).2)
    (hr : ref_divider_range cs s = .done rr) (hrr : rr.1 ≤ rr.2)
    (hminp : 1 ≤ (post_divider_range cs s).1) (hminr : 1 ≤ rr.1)
    (hfit : ∀ r p : Nat, rr.1 ≤ r → r ≤ rr.2 →
      (post_divider_range cs s).1 ≤ p → p ≤ (post_divider_range cs s).2 →
      s.adjusted_pix_clk * r * p < 2 ^ 32 ∧
      r * p * cs.fract_fb_divider_factor < 2 ^ 32 ∧
      s.adjusted_pix_clk * r * p * 10 * cs.fract_fb_divider_factor + 5 < 2 ^ 64 ∧
      ∀ (ok : Bool) (fb fr : Nat),
        calculate_fb_and_fractional_fb_divider cs s.adjusted_pix_clk r p = .done (ok, fb, fr) →
          fb * cs.fract_fb_divider_factor < 2 ^ 32)
    (hfuel : 3 ≤ fuel) :
    (∀ r p tol : Nat, rr.1 ≤ r → r ≤ rr.2 →
      (post_divider_range cs s).1 ≤ p → p ≤ (post_divider_range cs s).2 → 1 ≤ tol →
      ∃ s1, calc_fb_divider_checking_tolerance cs s r p tol = .done (true, s1) ∧
        (s1.calculated_pix_clk = s.adjusted_pix_clk ∨
          s1.calculated_pix_clk = s.adjusted_pix_clk - 1)) ∧
    ∃ s', calculate_pixel_clock_pll_dividers cs s fuel = .done (MAX_PLL_CALC_ERROR, s') ∧
      s'.pix_clk_post_divider = (post_divider_range cs s).2 ∧
      s'.reference_divider = rr.1 ∧
      (s'.calculated_pix_clk = s.adjusted_pix_clk ∨
        s'.calculated_pix_clk = s.adjusted_pix_clk - 1) := by
  have hcand : ∀ r p tol : Nat, rr.1 ≤ r → r ≤ rr.2 →
      (post_divider_range cs s).1 ≤ p → p ≤ (post_divider_range cs s).2 → 1 ≤ tol →
      ∃ s1, calc_fb_divider_checking_tolerance cs s r p tol = .done (true, s1) ∧
        s1.pix_clk_post_divider = p ∧ s1.reference_divider = r ∧
        (s1.calculated_pix_clk = s.adjusted_pix_clk ∨
          s1.calculated_pix_clk = s.adjusted_pix_clk - 1) := by
    intro r p tol h1 h2 h3 h4 htol
    obtain ⟨hX, hD, hov, hfb⟩ := hfit r p h1 h2 h3 h4
    exact candidate_accepted_near_target hpf hR hRF (le_trans hminr h1) (le_trans hminp h3)
      hX hD hov hfb htol
  constructor
  · intro r p tol h1 h2 h3 h4 htol
    obtain ⟨s1, hs1, -, -, hc⟩ := hcand r p tol h1 h2 h3 h4 htol
    exact ⟨s1, hs1, hc⟩
  · obtain ⟨s1, hs1, hq1, hq2, hc⟩ := hcand rr.1 (post_divider_range cs s).2
      (abs_tolerance s.adjusted_pix_clk MAX_PLL_CALC_ERROR) (le_refl _) hrr hp (le_refl _)
      (abs_tolerance_pos _ _)
    obtain ⟨k, rfl⟩ : ∃ k, fuel = k + 3 := ⟨fuel - 3, by omega⟩
    refine ⟨s1, ?_, hq1, hq2, hc⟩
    rw [calculate_pixel_clock_pll_dividers_eq_relax_loop ht hp hr hrr]
    simp [relax_loop, calc_pll_dividers_in_range, post_divider_loop, ref_divider_loop, hp, hrr,
      hs1, Outcome.bind]

theorem first_pass_selects_max_vco_candidate_witness :
    (∀ r p tol : Nat, (1, 2).1 ≤ r → r ≤ (1, 2).2 →
      (post_divider_range cs_1080p (settings_for 148500 0 0)).1 ≤ p →
      p ≤ (post_divider_range cs_1080p (settings_for 148500 0 0)).2 → 1 ≤ tol →
      ∃ s1, calc_fb_divider_checking_tolerance cs_1080p (settings_for 148500 0 0) r p tol =
          .done (true, s1) ∧
        (s1.calculated_pix_clk = (settings_for 148500 0 0).adjusted_pix_clk ∨
          s1.calculated_pix_clk = (settings_for 148500 0 0).adjusted_pix_clk - 1)) ∧
    ∃ s', calculate_pixel_clock_pll_dividers cs_1080p (settings_for 148500 0 0) 3 =
        .done (MAX_PLL_CALC_ERROR, s') ∧
      s'.pix_clk_post_divider = (post_divider_range cs_1080p (settings_for 148500 0 0)).2 ∧
      s'.reference_divider = (1, 2).1 ∧
      (s'.calculated_pix_clk = (settings_for 148500 0 0).adjusted_pix_clk ∨
        s'.calculated_pix_clk = (settings_for 148500 0 0).adjusted_pix_clk - 1) :=
  first_pass_selects_max_vco_candidate cs_1080p (settings_for 148500 0 0) (1, 2) 3 (by rfl)
    (by decide) (by decide) (by decide) (by decide) (by rfl) (by decide) (by decide) (by decide)
    (by
      have hpr : post_divider_range cs_1080p (settings_for 148500 0 0) = (1, 1) := rfl
      intro r p h1 h2 h3 h4
      rw [hpr] at h3 h4
      have hp1 : p = 1 := Nat.le_antisymm h4 h3
      have hr12 : r = 1 ∨ r = 2 := by
        have h1' : 1 ≤ r := h1
        have h2' : r ≤ 2 := h2
        omega
      subst hp1
      rcases hr12 with rfl | rfl
      · refine ⟨by decide, by decide, by decide, ?_⟩
        intro ok fb fr h
        have e : calculate_fb_and_fractional_fb_divider cs_1080p
            (settings_for 148500 0 0).adjusted_pix_clk 1 1 = .done (true, 5, 500000) := by rfl
        rw [e] at h
        cases h
        decide
      · refine ⟨by decide, by decide, by decide, ?_⟩
        intro ok fb fr h
        have e : calculate_fb_and_fractional_fb_divider cs_1080p
            (settings_for 148500 0 0).adjusted_pix_clk 2 1 = .done (true, 11, 0) := by rfl
        rw [e] at h
        cases h
        decide)
    (by decide)

end DceClockSource
